import Mathlib

/-!
The pipeline of qidk_backend.cpp: detection → pose estimation → posture analysis.

A shallow embedding of `Application/App/app/src/main/cpp/qidk_backend.cpp`.

Conventions of the embedding

* `float` values are elements of an ordered field `α` with a floor function
  (exact arithmetic in place of IEEE rounding).  Every definition is generic
  in `α`, so it runs on `ℚ` and is reasoned about on `ℝ`.
* The `<cmath>` functions `std::sin`, `std::atan`, `std::atan2` and the
  constant `M_PI` are the fields of a `Libm α` record passed to the code that
  calls them.  `realLibm` is the record of the true real functions.
* `int` values are `Int`; `%` on `int` is C++ truncated remainder, `Int.tmod`.
  The `int` products and differences whose operands come from the frame
  dimensions or from a converted `float` are reduced to 32 bits by `wrapInt`
  (two's-complement wrap-around); the frame counters only ever count frames
  and are not reduced.
* The conversion `(int) x` of a `float` is `toInt x : Option Int`, `none` when
  the truncated value is not representable in the 32-bit `int`: the behaviour
  of the program is then undefined.  `analyzePosture` and `runPipeline`, which
  can reach such a conversion, return an `Option`, `none` standing for
  undefined behaviour.  With the real `<cmath>` functions no `runPipeline`
  call on a frame of 32-bit width is undefined (`runPipeline_defined_int`);
  `analyzePosture` on keypoints of its caller's choosing can be
  (`farNose_undefined`).
* `std::chrono::high_resolution_clock::time_point` is the tick count since
  the epoch, an `Int` number of nanoseconds; each call of `now()` is an
  explicit argument of the function that makes it.
* The globals `gInitialized`, `gMetrics`, `gPosture`, `gLastPose` and the two
  function-local `static` counters are the fields of `World`.
* `sleep_for`, the mutex and `LOGI` have no effect on the modelled state and
  are left out.
-/

namespace QidkBackend

/-! ## Data model -/

/-- The functions of `<cmath>` the program calls, and `M_PI`. -/
structure Libm (α : Type) where
  /-- Models `std::sin`. -/
  sin : α → α
  /-- Models `std::atan`. -/
  atan : α → α
  /-- Models `std::atan2 (y, x)`, first argument `y`. -/
  atan2 : α → α → α
  /-- Models `M_PI`. -/
  pi : α

/-- The struct `PerformanceMetrics`; `lastFrameTime` in clock ticks. -/
structure PerformanceMetrics (α : Type) where
  detectionTimeMs : α
  poseTimeMs : α
  totalTimeMs : α
  fps : α
  frameCount : Int
  lastFrameTime : Int

/-- The struct `BBox`. -/
structure BBox (α : Type) where
  x1 : α
  y1 : α
  x2 : α
  y2 : α
  confidence : α
  class_id : Int

/-- The struct `Keypoint`. -/
structure Keypoint (α : Type) where
  x : α
  y : α
  score : α
  id : Int

/-- The struct `PostureMetrics`; `startTime` in clock ticks. -/
structure PostureMetrics (α : Type) where
  shoulderAngle : α
  spineAlignment : α
  headTilt : α
  postureScore : Int
  postureName : String
  startTime : Int
  durationSeconds : α

/-- The global state of the translation unit: the four globals and the two
function-local statics (`frameCounter` of `runYOLONAS`, `poseFrameCounter`
of `runHRNet`). -/
structure World (α : Type) where
  gInitialized : Bool
  gMetrics : PerformanceMetrics α
  gPosture : PostureMetrics α
  gLastPose : List (Keypoint α)
  frameCounter : Int
  poseFrameCounter : Int

/-! The enumerators of `enum HRNetKeypoints`. -/

def NOSE : Int := 0
def LEFT_EYE : Int := 1
def RIGHT_EYE : Int := 2
def LEFT_EAR : Int := 3
def RIGHT_EAR : Int := 4
def LEFT_SHOULDER : Int := 5
def RIGHT_SHOULDER : Int := 6
def LEFT_ELBOW : Int := 7
def RIGHT_ELBOW : Int := 8
def LEFT_WRIST : Int := 9
def RIGHT_WRIST : Int := 10
def LEFT_HIP : Int := 11
def RIGHT_HIP : Int := 12
def LEFT_KNEE : Int := 13
def RIGHT_KNEE : Int := 14
def LEFT_ANKLE : Int := 15
def RIGHT_ANKLE : Int := 16

/-- The largest value of the 32-bit `int`. -/
def INT_MAX : Int := 2147483647

/-- The smallest value of the 32-bit `int`. -/
def INT_MIN : Int := -2147483648

/-- The 32-bit `int` left by an `int` operation of mathematical value `x`:
`x` itself when it lies in `[INT_MIN, INT_MAX]`, else `x` reduced modulo `2³²`
into that range (two's-complement wrap-around). -/
def wrapInt (x : Int) : Int := (x + 2147483648) % 4294967296 - 2147483648

section Generic

variable {α : Type} [LinearOrderedField α] [FloorRing α]

/-- The value of `PerformanceMetrics{}` (default member initializers, the
time point at the epoch). -/
def PerformanceMetrics.default : PerformanceMetrics α :=
  { detectionTimeMs := 0, poseTimeMs := 0, totalTimeMs := 0, fps := 0,
    frameCount := 0, lastFrameTime := 0 }

/-- The value of `PostureMetrics{}`. -/
def PostureMetrics.default : PostureMetrics α :=
  { shoulderAngle := 0, spineAlignment := 0, headTilt := 0, postureScore := 0,
    postureName := "Unknown", startTime := 0, durationSeconds := 0 }

/-- The state at program start: statics zero-initialised, the structs with
their default member initializers. -/
def World.initial : World α :=
  { gInitialized := false, gMetrics := PerformanceMetrics.default,
    gPosture := PostureMetrics.default, gLastPose := [],
    frameCounter := 0, poseFrameCounter := 0 }

/-- The conversion `(int) x` of a `float`: truncation toward zero.  When the
truncated value is not representable in the 32-bit `int` the behaviour of the
program is undefined, and the result is `none`. -/
def toInt (x : α) : Option Int :=
  let t : Int := if 0 ≤ x then ⌊x⌋ else ⌈x⌉
  if INT_MIN ≤ t ∧ t ≤ INT_MAX then some t else none

/-- The value of `std::chrono::duration<float>(d).count()`: ticks to seconds. -/
def toSeconds (d : Int) : α := (d : α) / 1000000000

/-- The value of `std::chrono::duration<float, std::milli>(d).count()`. -/
def toMillis (d : Int) : α := (d : α) / 1000000

/-! ## analyzePosture -/

/-- The five pointers `analyzePosture` fills in its lookup loop. -/
structure Landmarks (α : Type) where
  nose : Option (Keypoint α)
  leftShoulder : Option (Keypoint α)
  rightShoulder : Option (Keypoint α)
  leftHip : Option (Keypoint α)
  rightHip : Option (Keypoint α)

/-- All five pointers `nullptr`. -/
def Landmarks.none : Landmarks α :=
  { nose := Option.none, leftShoulder := Option.none, rightShoulder := Option.none,
    leftHip := Option.none, rightHip := Option.none }

/-- One iteration of the lookup loop: the `switch (kp.id)`. -/
def lookupStep (f : Landmarks α) (kp : Keypoint α) : Landmarks α :=
  if kp.id = NOSE then { f with nose := some kp }
  else if kp.id = LEFT_SHOULDER then { f with leftShoulder := some kp }
  else if kp.id = RIGHT_SHOULDER then { f with rightShoulder := some kp }
  else if kp.id = LEFT_HIP then { f with leftHip := some kp }
  else if kp.id = RIGHT_HIP then { f with rightHip := some kp }
  else f

/-- The lookup loop `for (const auto& kp : keypoints) switch (kp.id) ...`. -/
def lookup (keypoints : List (Keypoint α)) : Landmarks α :=
  keypoints.foldl lookupStep Landmarks.none

/-- The statement "Penalize shoulder tilt" on the local `score`:
`if (std::abs(shoulderAngle) > 5.0f) score -= std::min(30, (int)(std::abs(shoulderAngle) - 5.0f) * 2);`
The cast binds tighter than the product, which is an `int` product. -/
def shoulderStep (score : Int) (shoulderAngle : α) : Option Int :=
  if |shoulderAngle| > 5 then do
    let whole ← toInt (|shoulderAngle| - 5)
    pure (wrapInt (score - min 30 (wrapInt (whole * 2))))
  else pure score

/-- The statement "Penalize spine misalignment" on the local `score`:
`if (spineAlignment > 10.0f) score -= std::min(40, (int)(spineAlignment - 10.0f) * 3);` -/
def spineStep (score : Int) (spineAlignment : α) : Option Int :=
  if spineAlignment > 10 then do
    let whole ← toInt (spineAlignment - 10)
    pure (wrapInt (score - min 40 (wrapInt (whole * 3))))
  else pure score

/-- The statement "Penalize head forward position" on the local `score`, with
`span` the value of `rightShoulder->x - leftShoulder->x`:
`if (neckForward > 0.2f) score -= std::min(30, (int)(neckForward * 100));` -/
def headStep (score : Int) (headTilt span : α) : Option Int :=
  let neckForward : α := headTilt / max 1 span
  if neckForward > 0.2 then do
    let whole ← toInt (neckForward * 100)
    pure (wrapInt (score - min 30 whole))
  else pure score

/-- The local `score` of `analyzePosture` after the three deductions, from the
stored angles and the shoulder span `rightShoulder->x - leftShoulder->x`;
`none` when one of the three conversions to `int` is undefined. -/
def rawScore (shoulderAngle spineAlignment headTilt span : α) : Option Int := do
  let score : Int := 100
  let score ← shoulderStep score shoulderAngle
  let score ← spineStep score spineAlignment
  let score ← headStep score headTilt span
  pure score

/-- The chain `if (score >= 80) ... else if (score >= 60) ...` on the local
(unclamped) `score`. -/
def nameOf (score : Int) : String :=
  if score ≥ 80 then "Excellent"
  else if score ≥ 60 then "Good"
  else if score ≥ 40 then "Fair"
  else "Poor"

/-- The body of `analyzePosture` below its two guards, on the five keypoints
found; `now` is the clock reading taken at "Update duration".  The result is
`none` when the computation of the score is undefined. -/
def analyzeFound (m : Libm α) (now : Int)
    (nose leftShoulder rightShoulder leftHip rightHip : Keypoint α)
    (g : PostureMetrics α) : Option (PostureMetrics α) := do
  let shoulderSlope := (rightShoulder.y - leftShoulder.y) /
                         max 1 (rightShoulder.x - leftShoulder.x)
  let shoulderAngle := m.atan shoulderSlope * 180 / m.pi
  let shoulderMidX := (leftShoulder.x + rightShoulder.x) * 0.5
  let shoulderMidY := (leftShoulder.y + rightShoulder.y) * 0.5
  let hipMidX := (leftHip.x + rightHip.x) * 0.5
  let hipMidY := (leftHip.y + rightHip.y) * 0.5
  let spineAngle := m.atan2 (hipMidX - shoulderMidX) (hipMidY - shoulderMidY) * 180 / m.pi
  let spineAlignment := |spineAngle|
  let headTilt := |nose.x - shoulderMidX|
  let score ← rawScore shoulderAngle spineAlignment headTilt
                 (rightShoulder.x - leftShoulder.x)
  let startTime := if g.startTime = 0 then now else g.startTime
  pure
    { shoulderAngle := shoulderAngle
      spineAlignment := spineAlignment
      headTilt := headTilt
      postureScore := max 0 score
      postureName := nameOf score
      startTime := startTime
      durationSeconds := toSeconds (now - startTime) }

/-- The function `analyzePosture`, acting on `gPosture`; `none` when its
behaviour is undefined. -/
def analyzePosture (m : Libm α) (now : Int) (keypoints : List (Keypoint α))
    (g : PostureMetrics α) : Option (PostureMetrics α) :=
  if keypoints.length < 10 then some g
  else
    match lookup keypoints with
    | ⟨some nose, some leftShoulder, some rightShoulder, some leftHip, some rightHip⟩ =>
        analyzeFound m now nose leftShoulder rightShoulder leftHip rightHip g
    | _ => some g

/-! ## runYOLONAS -/

/-- The `BBox person` built in the detecting branch of `runYOLONAS`, from the
already incremented `frameCounter` and the frame dimensions.  The products
`(frameCounter % 20 - 10) * width` and `(frameCounter % 30 - 15) * height` are
`int` products, converted to `float` afterwards. -/
def personBox (frameCounter width height : Int) : BBox α :=
  let jitterX : α := ((wrapInt ((frameCounter.tmod 20 - 10) * width) : Int) : α) * 0.01
  let jitterY : α := ((wrapInt ((frameCounter.tmod 30 - 15) * height) : Int) : α) * 0.005
  let centerX : α := (width : α) * 0.5 + jitterX
  let centerY : α := (height : α) * 0.5 + jitterY
  let boxWidth : α := (width : α) * (0.3 + ((frameCounter.tmod 10 : Int) : α) * 0.01)
  let boxHeight : α := (height : α) * (0.35 + ((frameCounter.tmod 15 : Int) : α) * 0.01)
  { x1 := centerX - boxWidth * 0.5
    y1 := centerY - boxHeight * 0.5
    x2 := centerX + boxWidth * 0.5
    y2 := centerY + boxHeight * 0.5
    confidence := 0.85 + ((frameCounter.tmod 20 : Int) : α) * 0.005
    class_id := 0 }

/-- The function `runYOLONAS`: `start`, `finish` are its two clock readings.
Returns the detections and the state with `frameCounter` advanced and
`gMetrics.detectionTimeMs` recorded.  The frame bytes are never read. -/
def runYOLONAS (start finish : Int) (width height : Int) (w : World α) :
    List (BBox α) × World α :=
  let frameCounter := w.frameCounter + 1
  let detections : List (BBox α) :=
    if frameCounter.tmod 10 < 7 then [personBox frameCounter width height] else []
  (detections,
   { w with
     frameCounter := frameCounter
     gMetrics := { w.gMetrics with detectionTimeMs := toMillis (finish - start) } })

/-! ## runHRNet -/

/-- The 17 keypoints `runHRNet` emplaces, from the already incremented
`poseFrameCounter` and the region.  The local `roiCenterY` is never used by
the source and is left out. -/
def poseKeypoints (m : Libm α) (poseFrameCounter : Int) (roi : BBox α) :
    List (Keypoint α) :=
  let roiCenterX := (roi.x1 + roi.x2) * 0.5
  let roiWidth := roi.x2 - roi.x1
  let roiHeight := roi.y2 - roi.y1
  let timeVariation := m.sin ((poseFrameCounter : α) * 0.1)
  let breathingMotion := m.sin ((poseFrameCounter : α) * 0.05) * 0.01
  let headTilt := timeVariation * 0.02
  let shoulderY := roi.y1 + roiHeight * (0.30 + breathingMotion)
  let armMotion := timeVariation * 0.03
  [ ⟨roiCenterX + headTilt * roiWidth, roi.y1 + roiHeight * 0.15, 0.95, NOSE⟩,
    ⟨roiCenterX - roiWidth * 0.08 + headTilt * roiWidth, roi.y1 + roiHeight * 0.12, 0.88,
      LEFT_EYE⟩,
    ⟨roiCenterX + roiWidth * 0.08 + headTilt * roiWidth, roi.y1 + roiHeight * 0.12, 0.87,
      RIGHT_EYE⟩,
    ⟨roiCenterX - roiWidth * 0.12 + headTilt * roiWidth, roi.y1 + roiHeight * 0.10, 0.82,
      LEFT_EAR⟩,
    ⟨roiCenterX + roiWidth * 0.12 + headTilt * roiWidth, roi.y1 + roiHeight * 0.10, 0.81,
      RIGHT_EAR⟩,
    ⟨roiCenterX - roiWidth * 0.18, shoulderY, 0.93, LEFT_SHOULDER⟩,
    ⟨roiCenterX + roiWidth * 0.18, shoulderY, 0.92, RIGHT_SHOULDER⟩,
    ⟨roiCenterX - roiWidth * 0.25, roi.y1 + roiHeight * 0.48, 0.85, LEFT_ELBOW⟩,
    ⟨roiCenterX + roiWidth * 0.25, roi.y1 + roiHeight * 0.48, 0.84, RIGHT_ELBOW⟩,
    ⟨roiCenterX - roiWidth * (0.28 + armMotion), roi.y1 + roiHeight * 0.62, 0.78, LEFT_WRIST⟩,
    ⟨roiCenterX + roiWidth * (0.28 - armMotion), roi.y1 + roiHeight * 0.62, 0.77, RIGHT_WRIST⟩,
    ⟨roiCenterX - roiWidth * 0.12, roi.y1 + roiHeight * 0.65, 0.90, LEFT_HIP⟩,
    ⟨roiCenterX + roiWidth * 0.12, roi.y1 + roiHeight * 0.65, 0.89, RIGHT_HIP⟩,
    ⟨roiCenterX - roiWidth * 0.15, roi.y1 + roiHeight * 0.82, 0.75, LEFT_KNEE⟩,
    ⟨roiCenterX + roiWidth * 0.15, roi.y1 + roiHeight * 0.82, 0.74, RIGHT_KNEE⟩,
    ⟨roiCenterX - roiWidth * 0.12, roi.y1 + roiHeight * 0.95, 0.68, LEFT_ANKLE⟩,
    ⟨roiCenterX + roiWidth * 0.12, roi.y1 + roiHeight * 0.95, 0.67, RIGHT_ANKLE⟩ ]

/-- The function `runHRNet`: `start`, `finish` are its two clock readings.
Returns the 17 keypoints and the state with `poseFrameCounter` advanced and
`gMetrics.poseTimeMs` recorded.  The arguments `yuv_data`, `width`, `height`
are never used by the source and are left out. -/
def runHRNet (m : Libm α) (start finish : Int) (roi : BBox α) (w : World α) :
    List (Keypoint α) × World α :=
  let poseFrameCounter := w.poseFrameCounter + 1
  (poseKeypoints m poseFrameCounter roi,
   { w with
     poseFrameCounter := poseFrameCounter
     gMetrics := { w.gMetrics with poseTimeMs := toMillis (finish - start) } })

/-! ## The JNI entry points -/

/-- The entry point `Java_..._init`; `now1`, `now2` are its two clock readings.
Returns `JNI_TRUE` on both paths. -/
def init (now1 now2 : Int) (w : World α) : Bool × World α :=
  if w.gInitialized then (true, w)
  else
    (true,
     { w with
       gMetrics := { (PerformanceMetrics.default : PerformanceMetrics α) with
                     lastFrameTime := now1 }
       gPosture := { (PostureMetrics.default : PostureMetrics α) with startTime := now2 }
       gInitialized := true })

/-- The entry point `Java_..._isAvailable`. -/
def isAvailable (w : World α) : Int := if w.gInitialized then 1 else 0

/-- The four caller-provided output arrays of `runPipeline`. -/
structure OutArrays (α : Type) where
  ids : List Int
  xs : List α
  ys : List α
  scores : List α

/-- The clock readings one `runPipeline` call makes, in program order; the
readings after the detector are taken only when a person is detected. -/
structure PipelineClock where
  frameStart : Int
  detStart : Int
  detEnd : Int
  poseStart : Int
  poseEnd : Int
  frameEnd : Int
  analysisNow : Int

/-- What one `runPipeline` call leaves behind: the returned `jint`, the
output arrays and the global state. -/
structure PipelineResult (α : Type) where
  ret : Int
  out : OutArrays α
  world : World α

/-- The loop "Use the highest confidence detection", started at
`detections[0]` and run over the whole vector. -/
def selectBest (first : BBox α) (detections : List (BBox α)) : BBox α :=
  detections.foldl
    (fun bestDetection det =>
      if det.confidence > bestDetection.confidence then det else bestDetection)
    first

/-- One iteration of the copy loop of step 4: state is `validCount` and the
arrays.  A store at an index past the end of a list is dropped (the C++
store would be out of bounds). -/
def copyStep (scoreThreshold : α) (maxKp : Int) (st : Int × OutArrays α)
    (kp : Keypoint α) : Int × OutArrays α :=
  if kp.score ≥ scoreThreshold ∧ st.1 < maxKp then
    (st.1 + 1,
     { ids := st.2.ids.set st.1.toNat kp.id
       xs := st.2.xs.set st.1.toNat kp.x
       ys := st.2.ys.set st.1.toNat kp.y
       scores := st.2.scores.set st.1.toNat kp.score })
  else st

/-- The copy loop of step 4, from `validCount = 0`. -/
def copyOut (scoreThreshold : α) (maxKp : Int) (keypoints : List (Keypoint α))
    (out : OutArrays α) : Int × OutArrays α :=
  keypoints.foldl (copyStep scoreThreshold maxKp) (0, out)

/-- The part of `runPipeline` below the call of `runYOLONAS`, from
`if (detections.empty())` to the final `return validCount`, on the vector of
detections and the state that call left.  The result is `none` when the
behaviour of `analyzePosture` is undefined. -/
def processDetections (m : Libm α) (clk : PipelineClock) (scoreThreshold : α)
    (out : OutArrays α) (maxKp : Int) (detections : List (BBox α)) (w : World α) :
    Option (PipelineResult α) :=
  match detections with
  | [] =>
    some
      { ret := 0
        out := out
        world := { w with
                   gLastPose := []
                   gPosture := { w.gPosture with startTime := 0 } } }
  | first :: rest => do
    let bestDetection := selectBest first (first :: rest)
    let pose := runHRNet m clk.poseStart clk.poseEnd bestDetection w
    let keypoints := pose.1
    let w1 := pose.2
    let copied := copyOut scoreThreshold maxKp keypoints out
    let timeSinceLastFrame : α := toSeconds (clk.frameEnd - w1.gMetrics.lastFrameTime)
    let metrics : PerformanceMetrics α :=
      { w1.gMetrics with
        totalTimeMs := toMillis (clk.frameEnd - clk.frameStart)
        frameCount := w1.gMetrics.frameCount + 1
        fps := if timeSinceLastFrame > 0 then 1 / timeSinceLastFrame else w1.gMetrics.fps
        lastFrameTime := clk.frameEnd }
    let posture ← analyzePosture m clk.analysisNow keypoints w1.gPosture
    pure
      { ret := copied.1
        out := copied.2
        world := { w1 with
                   gMetrics := metrics
                   gPosture := posture
                   gLastPose := keypoints } }

/-- The entry point `Java_..._runPipeline`.  `yuvData` is the result of
`GetByteArrayElements` (`none` for a null pointer).  The result is `none`
when the behaviour of the call is undefined. -/
def runPipeline (m : Libm α) (clk : PipelineClock) (yuvData : Option (List Int))
    (width height : Int) (scoreThreshold : α) (out : OutArrays α) (maxKp : Int)
    (w : World α) : Option (PipelineResult α) :=
  match yuvData with
  | none => some { ret := 0, out := out, world := w }
  | some _ =>
    let det := runYOLONAS clk.detStart clk.detEnd width height w
    processDetections m clk scoreThreshold out maxKp det.1 det.2

/-- The entry point `Java_..._getPerformanceMetrics`: the four floats. -/
def getPerformanceMetrics (w : World α) : List α :=
  [w.gMetrics.detectionTimeMs, w.gMetrics.poseTimeMs, w.gMetrics.totalTimeMs, w.gMetrics.fps]

/-- The entry point `Java_..._getPostureAnalysis`: the five floats. -/
def getPostureAnalysis (w : World α) : List α :=
  [w.gPosture.shoulderAngle, w.gPosture.spineAlignment, w.gPosture.headTilt,
   (w.gPosture.postureScore : α), w.gPosture.durationSeconds]

/-- The entry point `Java_..._getPostureName`. -/
def getPostureName (w : World α) : String := w.gPosture.postureName

end Generic

/-! ## Specification-side definitions -/

section SpecDefs

variable {α : Type} [LinearOrderedField α] [FloorRing α]

/-- Shoulder deduction in the words of the specification:
`min(30, floor((|shoulderAngle| − 5) × 2))` if `|shoulderAngle| > 5`, else 0. -/
def specShoulderPenalty (shoulderAngle : α) : Int :=
  if |shoulderAngle| > 5 then min 30 ⌊(|shoulderAngle| - 5) * 2⌋ else 0

/-- Spine deduction in the words of the specification:
`min(40, floor((spineAlignment − 10) × 3))` if `spineAlignment > 10`, else 0. -/
def specSpinePenalty (spineAlignment : α) : Int :=
  if spineAlignment > 10 then min 40 ⌊(spineAlignment - 10) * 3⌋ else 0

/-- Head-forward deduction in the words of the specification, with
`neckForward = headTilt / max(1, shoulder width)`:
`min(30, floor(neckForward × 100))` if `neckForward > 0.2`, else 0. -/
def specHeadPenalty (headTilt span : α) : Int :=
  if headTilt / max 1 span > 0.2 then min 30 ⌊headTilt / max 1 span * 100⌋ else 0

/-- The score of the specification: `max(0, 100 − S − P − H)`. -/
def specScore (shoulderAngle spineAlignment headTilt span : α) : Int :=
  max 0 (100 - specShoulderPenalty shoulderAngle - specSpinePenalty spineAlignment
          - specHeadPenalty headTilt span)

/-- Shoulder deduction counted per whole degree beyond 5:
`min(30, floor(|shoulderAngle| − 5) × 2)` if `|shoulderAngle| > 5`, else 0. -/
def wholeDegreeShoulderPenalty (shoulderAngle : α) : Int :=
  if |shoulderAngle| > 5 then min 30 (⌊|shoulderAngle| - 5⌋ * 2) else 0

/-- Spine deduction counted per whole degree beyond 10:
`min(40, floor(spineAlignment − 10) × 3)` if `spineAlignment > 10`, else 0. -/
def wholeDegreeSpinePenalty (spineAlignment : α) : Int :=
  if spineAlignment > 10 then min 40 (⌊spineAlignment - 10⌋ * 3) else 0

/-- The value `analyzePosture` stores in `gPosture.shoulderAngle`. -/
def shoulderAngleOf (m : Libm α) (leftShoulder rightShoulder : Keypoint α) : α :=
  m.atan ((rightShoulder.y - leftShoulder.y) / max 1 (rightShoulder.x - leftShoulder.x))
    * 180 / m.pi

/-- The value `analyzePosture` stores in `gPosture.spineAlignment`. -/
def spineAlignmentOf (m : Libm α) (leftShoulder rightShoulder leftHip rightHip : Keypoint α) :
    α :=
  |m.atan2 ((leftHip.x + rightHip.x) * 0.5 - (leftShoulder.x + rightShoulder.x) * 0.5)
      ((leftHip.y + rightHip.y) * 0.5 - (leftShoulder.y + rightShoulder.y) * 0.5)
    * 180 / m.pi|

/-- The value `analyzePosture` stores in `gPosture.headTilt`. -/
def headTiltOf (nose leftShoulder rightShoulder : Keypoint α) : α :=
  |nose.x - (leftShoulder.x + rightShoulder.x) * 0.5|

/-- The record `analyzePosture` leaves in `gPosture` when its local `score`
ends at the value `score`. -/
def storedMetrics (m : Libm α) (now : Int)
    (nose leftShoulder rightShoulder leftHip rightHip : Keypoint α) (g : PostureMetrics α)
    (score : Int) : PostureMetrics α :=
  { shoulderAngle := shoulderAngleOf m leftShoulder rightShoulder
    spineAlignment := spineAlignmentOf m leftShoulder rightShoulder leftHip rightHip
    headTilt := headTiltOf nose leftShoulder rightShoulder
    postureScore := max 0 score
    postureName := nameOf score
    startTime := if g.startTime = 0 then now else g.startTime
    durationSeconds := toSeconds (now - (if g.startTime = 0 then now else g.startTime)) }

/-- The predicate "the keypoint set contains a keypoint of identity `c`". -/
def HasLandmark (keypoints : List (Keypoint α)) (c : Int) : Prop :=
  ∃ kp ∈ keypoints, kp.id = c

/-- The predicate "the keypoint set contains nose, both shoulders and both hips". -/
def HasRequired (keypoints : List (Keypoint α)) : Prop :=
  HasLandmark keypoints NOSE ∧ HasLandmark keypoints LEFT_SHOULDER ∧
  HasLandmark keypoints RIGHT_SHOULDER ∧ HasLandmark keypoints LEFT_HIP ∧
  HasLandmark keypoints RIGHT_HIP

/-- The invariant `postureScore ∈ [0, 100]` on a `PostureMetrics`. -/
def ScoreInRange (g : PostureMetrics α) : Prop :=
  0 ≤ g.postureScore ∧ g.postureScore ≤ 100

/-- The session states the entry points can produce from program start. -/
inductive Reachable (m : Libm α) : World α → Prop
  | start : Reachable m World.initial
  | afterInit (now1 now2 : Int) (w : World α) :
      Reachable m w → Reachable m (init now1 now2 w).2
  | afterRunPipeline (clk : PipelineClock) (yuvData : Option (List Int))
      (width height : Int) (scoreThreshold : α) (out : OutArrays α) (maxKp : Int)
      (w : World α) (r : PipelineResult α) :
      Reachable m w →
      runPipeline m clk yuvData width height scoreThreshold out maxKp w = some r →
      Reachable m r.world

/-- The order of the four labels, worst first. -/
def labelRank (name : String) : Nat :=
  if name = "Excellent" then 3 else if name = "Good" then 2
  else if name = "Fair" then 1 else 0

end SpecDefs

/-! ## The real instance -/

/-- The `<cmath>` functions on the reals: `atan2 (y, x)` is the argument of
the complex number `x + y i`. -/
noncomputable def realLibm : Libm ℝ :=
  { sin := Real.sin
    atan := Real.arctan
    atan2 := fun y x => Complex.arg ⟨x, y⟩
    pi := Real.pi }

/-! ## Specification-side definitions for the output arrays -/

section OutputDefs

variable {α : Type} [LinearOrderedField α]

/-- The list `l` with the slots `n, n + 1, …` overwritten by `vs`. -/
def splice {β : Type} (l : List β) (n : Nat) (vs : List β) : List β :=
  l.take n ++ vs ++ l.drop (n + vs.length)

/-- The keypoints with score at least the threshold, in the given order, cut
to the first `maxKp` of them. -/
def selected (scoreThreshold : α) (maxKp : Int) (keypoints : List (Keypoint α)) :
    List (Keypoint α) :=
  (keypoints.filter (fun kp => decide (kp.score ≥ scoreThreshold))).take maxKp.toNat

/-- The keypoints `runPipeline` gets from the estimator on a detecting frame:
`runHRNet` on the box of `runYOLONAS`, both counters incremented. -/
def estimate (m : Libm α) (width height : Int) (w : World α) : List (Keypoint α) :=
  poseKeypoints m (w.poseFrameCounter + 1) (personBox (w.frameCounter + 1) width height)

/-- What a `runPipeline` call that detects a person leaves behind when
`analyzePosture` leaves the record `posture` in `gPosture`. -/
def detectionResult (m : Libm α) (clk : PipelineClock) (width height : Int)
    (scoreThreshold : α) (out : OutArrays α) (maxKp : Int) (w : World α)
    (posture : PostureMetrics α) : PipelineResult α :=
  { ret := (copyOut scoreThreshold maxKp (estimate m width height w) out).1
    out := (copyOut scoreThreshold maxKp (estimate m width height w) out).2
    world :=
      { gInitialized := w.gInitialized
        gMetrics :=
          { detectionTimeMs := toMillis (clk.detEnd - clk.detStart)
            poseTimeMs := toMillis (clk.poseEnd - clk.poseStart)
            totalTimeMs := toMillis (clk.frameEnd - clk.frameStart)
            fps := if toSeconds (clk.frameEnd - w.gMetrics.lastFrameTime) > (0 : α)
                   then 1 / toSeconds (clk.frameEnd - w.gMetrics.lastFrameTime)
                   else w.gMetrics.fps
            frameCount := w.gMetrics.frameCount + 1
            lastFrameTime := clk.frameEnd }
        gPosture := posture
        gLastPose := estimate m width height w
        frameCounter := w.frameCounter + 1
        poseFrameCounter := w.poseFrameCounter + 1 } }

/-- The landmark identities a `runPipeline` call returned: the first `ret`
entries of the id array. -/
def returnedIds (r : PipelineResult α) : List Int := r.out.ids.take r.ret.toNat

end OutputDefs

/-! ## Concrete inputs -/

/-- A pose with level shoulders 200 apart, the nose above their midpoint and
the hip midpoint displaced by `100 (√2 − 1)` across and `100` down from the
shoulder midpoint: a spine 22.5° off the vertical. -/
noncomputable def leaningPose : List (Keypoint ℝ) :=
  [ ⟨100, -60, 0.95, NOSE⟩,
    ⟨90, -70, 0.88, LEFT_EYE⟩,
    ⟨110, -70, 0.87, RIGHT_EYE⟩,
    ⟨80, -65, 0.82, LEFT_EAR⟩,
    ⟨120, -65, 0.81, RIGHT_EAR⟩,
    ⟨0, 0, 0.93, LEFT_SHOULDER⟩,
    ⟨200, 0, 0.92, RIGHT_SHOULDER⟩,
    ⟨-20, 60, 0.85, LEFT_ELBOW⟩,
    ⟨220, 60, 0.84, RIGHT_ELBOW⟩,
    ⟨100 * Real.sqrt 2 - 50, 100, 0.90, LEFT_HIP⟩,
    ⟨100 * Real.sqrt 2 + 50, 100, 0.89, RIGHT_HIP⟩ ]

/-- A pose whose right shoulder is `100 (2 − √3)` below the left one over a
span of 100 (a 15° shoulder line), nose and hip midpoint on the vertical
through the shoulder midpoint. -/
noncomputable def slopedShoulders : List (Keypoint ℝ) :=
  [ ⟨50, -60, 0.95, NOSE⟩,
    ⟨45, -70, 0.88, LEFT_EYE⟩,
    ⟨55, -70, 0.87, RIGHT_EYE⟩,
    ⟨40, -65, 0.82, LEFT_EAR⟩,
    ⟨60, -65, 0.81, RIGHT_EAR⟩,
    ⟨0, 0, 0.93, LEFT_SHOULDER⟩,
    ⟨100, 100 * (2 - Real.sqrt 3), 0.92, RIGHT_SHOULDER⟩,
    ⟨-10, 60, 0.85, LEFT_ELBOW⟩,
    ⟨110, 60, 0.84, RIGHT_ELBOW⟩,
    ⟨25, 150, 0.90, LEFT_HIP⟩,
    ⟨75, 150, 0.89, RIGHT_HIP⟩ ]

/-- Four output arrays of 17 slots each, every slot holding `-1`. -/
noncomputable def blankOut : OutArrays ℝ :=
  { ids := List.replicate 17 (-1)
    xs := List.replicate 17 (-1)
    ys := List.replicate 17 (-1)
    scores := List.replicate 17 (-1) }

/-- Clock readings of a call that starts at tick `t` and whose stages take a
few milliseconds each. -/
def clockAt (t : Int) : PipelineClock :=
  { frameStart := t
    detStart := t + 1000
    detEnd := t + 1501000
    poseStart := t + 1502000
    poseEnd := t + 6002000
    frameEnd := t + 6003000
    analysisNow := t + 6004000 }

/-- The session after `init` at tick `10⁹` followed by `n` calls of
`runPipeline` on a 640×480 frame, the `k`-th call (from 1) starting at tick
`(k + 1)·10⁹`, with threshold 0.5 and capacity 17.  (Each of these calls is
defined, `sessionAfter_step`; the second branch is never taken.) -/
noncomputable def sessionAfter : Nat → World ℝ
  | 0 => (init 1000000000 1000000000 (World.initial : World ℝ)).2
  | n + 1 =>
    match runPipeline realLibm (clockAt (((n : Int) + 2) * 1000000000)) (some []) 640 480 0.5
      blankOut 17 (sessionAfter n) with
    | some r => r.world
    | none => sessionAfter n

/-- A session in which the detector has seen 8 frames, the last two without a
person: six frames counted, the start timestamp cleared, the 42 s of the lost
posture session still stored. -/
noncomputable def longSession : World ℝ :=
  { gInitialized := true
    gMetrics := { detectionTimeMs := 1.5, poseTimeMs := 4.5, totalTimeMs := 6.003, fps := 1,
                  frameCount := 6, lastFrameTime := 43006003000 }
    gPosture := { shoulderAngle := 0, spineAlignment := 0, headTilt := 1, postureScore := 100,
                  postureName := "Excellent", startTime := 0, durationSeconds := 42 }
    gLastPose := []
    frameCounter := 8
    poseFrameCounter := 6 }


/-! ## Sequences of calls -/

section CallDefs

variable {α : Type} [LinearOrderedField α] [FloorRing α]

/-- The arguments and clock readings of one `runPipeline` call. -/
structure PipelineCall (α : Type) where
  clk : PipelineClock
  yuvData : Option (List Int)
  width : Int
  height : Int
  scoreThreshold : α
  out : OutArrays α
  maxKp : Int

/-- The state after a sequence of `runPipeline` calls, made in order; `none`
when the behaviour of one of them is undefined. -/
def runCalls (m : Libm α) : List (PipelineCall α) → World α → Option (World α)
  | [], w => some w
  | c :: rest, w =>
    match runPipeline m c.clk c.yuvData c.width c.height c.scoreThreshold c.out c.maxKp w with
    | some r => runCalls m rest r.world
    | none => none

/-- The confidences `runHRNet` attaches to the landmarks 0, …, 16, in order. -/
def landmarkScores : List α :=
  [0.95, 0.88, 0.87, 0.82, 0.81, 0.93, 0.92, 0.85, 0.84, 0.78, 0.77, 0.90, 0.89, 0.75, 0.74,
   0.68, 0.67]

end CallDefs

/-! ## Concrete poses -/

/-- A pose with level shoulders 100 apart, the hip midpoint 150 below the
shoulder midpoint and the nose above that midpoint. -/
noncomputable def uprightPose : List (Keypoint ℝ) :=
  [ ⟨50, -60, 0.95, NOSE⟩,
    ⟨45, -70, 0.88, LEFT_EYE⟩,
    ⟨55, -70, 0.87, RIGHT_EYE⟩,
    ⟨40, -65, 0.82, LEFT_EAR⟩,
    ⟨60, -65, 0.81, RIGHT_EAR⟩,
    ⟨0, 0, 0.93, LEFT_SHOULDER⟩,
    ⟨100, 0, 0.92, RIGHT_SHOULDER⟩,
    ⟨-10, 60, 0.85, LEFT_ELBOW⟩,
    ⟨110, 60, 0.84, RIGHT_ELBOW⟩,
    ⟨25, 150, 0.90, LEFT_HIP⟩,
    ⟨75, 150, 0.89, RIGHT_HIP⟩ ]

/-- The pose `uprightPose` with the nose moved 50 to the side, half a shoulder
span off the shoulder midpoint. -/
noncomputable def noseAside : List (Keypoint ℝ) :=
  [ ⟨100, -60, 0.95, NOSE⟩,
    ⟨95, -70, 0.88, LEFT_EYE⟩,
    ⟨105, -70, 0.87, RIGHT_EYE⟩,
    ⟨90, -65, 0.82, LEFT_EAR⟩,
    ⟨110, -65, 0.81, RIGHT_EAR⟩,
    ⟨0, 0, 0.93, LEFT_SHOULDER⟩,
    ⟨100, 0, 0.92, RIGHT_SHOULDER⟩,
    ⟨-10, 60, 0.85, LEFT_ELBOW⟩,
    ⟨110, 60, 0.84, RIGHT_ELBOW⟩,
    ⟨25, 150, 0.90, LEFT_HIP⟩,
    ⟨75, 150, 0.89, RIGHT_HIP⟩ ]

/-- A pose with the shoulders on a 45° slope (right shoulder 100 across and
100 down from the left), the hip midpoint 100 across and 100 down from the
shoulder midpoint, and the nose 40 (0.4 shoulder spans) off that midpoint. -/
noncomputable def worstPose : List (Keypoint ℝ) :=
  [ ⟨90, -60, 0.95, NOSE⟩,
    ⟨85, -70, 0.88, LEFT_EYE⟩,
    ⟨95, -70, 0.87, RIGHT_EYE⟩,
    ⟨80, -65, 0.82, LEFT_EAR⟩,
    ⟨100, -65, 0.81, RIGHT_EAR⟩,
    ⟨0, 0, 0.93, LEFT_SHOULDER⟩,
    ⟨100, 100, 0.92, RIGHT_SHOULDER⟩,
    ⟨-10, 60, 0.85, LEFT_ELBOW⟩,
    ⟨110, 160, 0.84, RIGHT_ELBOW⟩,
    ⟨125, 150, 0.90, LEFT_HIP⟩,
    ⟨175, 150, 0.89, RIGHT_HIP⟩ ]

/-- The pose `uprightPose` with the nose at `x = 3·10⁹`: the head offset is
2999999950, the head-forward ratio 29999999.5, and the value converted to
`int`, 2999999950, exceeds `INT_MAX`. -/
noncomputable def farNose : List (Keypoint ℝ) :=
  [ ⟨3000000000, -60, 0.95, NOSE⟩,
    ⟨45, -70, 0.88, LEFT_EYE⟩,
    ⟨55, -70, 0.87, RIGHT_EYE⟩,
    ⟨40, -65, 0.82, LEFT_EAR⟩,
    ⟨60, -65, 0.81, RIGHT_EAR⟩,
    ⟨0, 0, 0.93, LEFT_SHOULDER⟩,
    ⟨100, 0, 0.92, RIGHT_SHOULDER⟩,
    ⟨-10, 60, 0.85, LEFT_ELBOW⟩,
    ⟨110, 60, 0.84, RIGHT_ELBOW⟩,
    ⟨25, 150, 0.90, LEFT_HIP⟩,
    ⟨75, 150, 0.89, RIGHT_HIP⟩ ]

/-- Three regions with confidences 0.5, 0.9 and 0.9; the second is the
earliest of greatest confidence. -/
noncomputable def threeBoxes : List (BBox ℝ) :=
  [ ⟨0, 0, 100, 100, 0.5, 0⟩, ⟨200, 200, 300, 400, 0.9, 0⟩, ⟨400, 400, 500, 600, 0.9, 0⟩ ]

/-- A region 200 wide and 400 high. -/
noncomputable def sampleRoi : BBox ℝ :=
  { x1 := 220, y1 := 40, x2 := 420, y2 := 440, confidence := 0.9, class_id := 0 }

/-! # Theorems -/
/-! # Theorems -/

/-! ## Lemmas on the lookup loop -/

section Lookup

variable {α : Type}

theorem lookupStep_nose (f : Landmarks α) (kp : Keypoint α) :
    (lookupStep f kp).nose = if kp.id = NOSE then some kp else f.nose := by
  unfold lookupStep
  split_ifs <;> simp_all [NOSE, LEFT_SHOULDER, RIGHT_SHOULDER, LEFT_HIP, RIGHT_HIP]

theorem lookupStep_leftShoulder (f : Landmarks α) (kp : Keypoint α) :
    (lookupStep f kp).leftShoulder =
      if kp.id = LEFT_SHOULDER then some kp else f.leftShoulder := by
  unfold lookupStep
  split_ifs <;> simp_all [NOSE, LEFT_SHOULDER, RIGHT_SHOULDER, LEFT_HIP, RIGHT_HIP]

theorem lookupStep_rightShoulder (f : Landmarks α) (kp : Keypoint α) :
    (lookupStep f kp).rightShoulder =
      if kp.id = RIGHT_SHOULDER then some kp else f.rightShoulder := by
  unfold lookupStep
  split_ifs <;> simp_all [NOSE, LEFT_SHOULDER, RIGHT_SHOULDER, LEFT_HIP, RIGHT_HIP]

theorem lookupStep_leftHip (f : Landmarks α) (kp : Keypoint α) :
    (lookupStep f kp).leftHip = if kp.id = LEFT_HIP then some kp else f.leftHip := by
  unfold lookupStep
  split_ifs <;> simp_all [NOSE, LEFT_SHOULDER, RIGHT_SHOULDER, LEFT_HIP, RIGHT_HIP]

theorem lookupStep_rightHip (f : Landmarks α) (kp : Keypoint α) :
    (lookupStep f kp).rightHip = if kp.id = RIGHT_HIP then some kp else f.rightHip := by
  unfold lookupStep
  split_ifs <;> simp_all [NOSE, LEFT_SHOULDER, RIGHT_SHOULDER, LEFT_HIP, RIGHT_HIP]

/-- A pointer updated by `if kp.id = c then some kp else old` along the loop
is null at the end exactly when it started null and no keypoint has id `c`. -/
theorem foldl_field_none (c : Int) (proj : Landmarks α → Option (Keypoint α))
    (hstep : ∀ f kp, proj (lookupStep f kp) = if kp.id = c then some kp else proj f)
    (kps : List (Keypoint α)) (f : Landmarks α) :
    proj (kps.foldl lookupStep f) = none ↔ proj f = none ∧ ∀ kp ∈ kps, kp.id ≠ c := by
  induction kps generalizing f with
  | nil => simp
  | cons kp rest ih =>
    simp only [List.foldl_cons, List.mem_cons, forall_eq_or_imp]
    rw [ih, hstep]
    by_cases h : kp.id = c <;> simp [h]

theorem lookup_nose_none (kps : List (Keypoint α)) :
    (lookup kps).nose = none ↔ ∀ kp ∈ kps, kp.id ≠ NOSE := by
  unfold lookup
  rw [foldl_field_none NOSE (fun f => f.nose) lookupStep_nose]
  simp [Landmarks.none]

theorem lookup_leftShoulder_none (kps : List (Keypoint α)) :
    (lookup kps).leftShoulder = none ↔ ∀ kp ∈ kps, kp.id ≠ LEFT_SHOULDER := by
  unfold lookup
  rw [foldl_field_none LEFT_SHOULDER (fun f => f.leftShoulder) lookupStep_leftShoulder]
  simp [Landmarks.none]

theorem lookup_rightShoulder_none (kps : List (Keypoint α)) :
    (lookup kps).rightShoulder = none ↔ ∀ kp ∈ kps, kp.id ≠ RIGHT_SHOULDER := by
  unfold lookup
  rw [foldl_field_none RIGHT_SHOULDER (fun f => f.rightShoulder) lookupStep_rightShoulder]
  simp [Landmarks.none]

theorem lookup_leftHip_none (kps : List (Keypoint α)) :
    (lookup kps).leftHip = none ↔ ∀ kp ∈ kps, kp.id ≠ LEFT_HIP := by
  unfold lookup
  rw [foldl_field_none LEFT_HIP (fun f => f.leftHip) lookupStep_leftHip]
  simp [Landmarks.none]

theorem lookup_rightHip_none (kps : List (Keypoint α)) :
    (lookup kps).rightHip = none ↔ ∀ kp ∈ kps, kp.id ≠ RIGHT_HIP := by
  unfold lookup
  rw [foldl_field_none RIGHT_HIP (fun f => f.rightHip) lookupStep_rightHip]
  simp [Landmarks.none]

/-- With all five landmarks present, the loop leaves no pointer null. -/
theorem lookup_of_hasRequired (kps : List (Keypoint α)) (h : HasRequired kps) :
    ∃ nose ls rs lh rh, lookup kps = ⟨some nose, some ls, some rs, some lh, some rh⟩ := by
  obtain ⟨⟨k0, hk0, e0⟩, ⟨k1, hk1, e1⟩, ⟨k2, hk2, e2⟩, ⟨k3, hk3, e3⟩, ⟨k4, hk4, e4⟩⟩ := h
  have h0 : (lookup kps).nose ≠ none := fun hn => (lookup_nose_none kps).1 hn k0 hk0 e0
  have h1 : (lookup kps).leftShoulder ≠ none :=
    fun hn => (lookup_leftShoulder_none kps).1 hn k1 hk1 e1
  have h2 : (lookup kps).rightShoulder ≠ none :=
    fun hn => (lookup_rightShoulder_none kps).1 hn k2 hk2 e2
  have h3 : (lookup kps).leftHip ≠ none := fun hn => (lookup_leftHip_none kps).1 hn k3 hk3 e3
  have h4 : (lookup kps).rightHip ≠ none := fun hn => (lookup_rightHip_none kps).1 hn k4 hk4 e4
  obtain ⟨a, ha⟩ := Option.ne_none_iff_exists'.1 h0
  obtain ⟨b, hb⟩ := Option.ne_none_iff_exists'.1 h1
  obtain ⟨c, hc⟩ := Option.ne_none_iff_exists'.1 h2
  obtain ⟨d, hd⟩ := Option.ne_none_iff_exists'.1 h3
  obtain ⟨e, he⟩ := Option.ne_none_iff_exists'.1 h4
  refine ⟨a, b, c, d, e, ?_⟩
  rw [← ha, ← hb, ← hc, ← hd, ← he]

theorem hasLandmark_iff (kps : List (Keypoint α)) (c : Int) :
    HasLandmark kps c ↔ c ∈ kps.map (fun kp => kp.id) := by
  simp [HasLandmark, List.mem_map]

end Lookup

/-! ## The real `<cmath>` functions at the angles used below -/

section RealTrig

/-- Half-angle formula for the tangent. -/
theorem tan_half_angle (θ : ℝ) (hc : Real.cos (θ / 2) ≠ 0) :
    Real.tan (θ / 2) = Real.sin θ / (1 + Real.cos θ) := by
  have hs : Real.sin θ = 2 * Real.sin (θ / 2) * Real.cos (θ / 2) := by
    rw [← Real.sin_two_mul]; congr 1; ring
  have hcos : Real.cos θ = 2 * Real.cos (θ / 2) ^ 2 - 1 := by
    rw [← Real.cos_two_mul]; congr 1; ring
  rw [Real.tan_eq_sin_div_cos, hs, hcos]
  field_simp
  ring

theorem tan_pi_div_eight : Real.tan (Real.pi / 8) = Real.sqrt 2 - 1 := by
  have hpos : 0 < Real.cos (Real.pi / 4 / 2) :=
    Real.cos_pos_of_mem_Ioo ⟨by linarith [Real.pi_pos], by linarith [Real.pi_pos]⟩
  have h := tan_half_angle (Real.pi / 4) hpos.ne'
  rw [Real.sin_pi_div_four, Real.cos_pi_div_four] at h
  have e : Real.pi / 4 / 2 = Real.pi / 8 := by ring
  rw [e] at h
  rw [h]
  have h2 : Real.sqrt 2 ^ 2 = 2 := Real.sq_sqrt (by norm_num)
  have hp : 0 < Real.sqrt 2 := Real.sqrt_pos.2 (by norm_num)
  rw [div_eq_iff (by positivity)]
  nlinarith

theorem tan_pi_div_twelve : Real.tan (Real.pi / 12) = 2 - Real.sqrt 3 := by
  have hpos : 0 < Real.cos (Real.pi / 6 / 2) :=
    Real.cos_pos_of_mem_Ioo ⟨by linarith [Real.pi_pos], by linarith [Real.pi_pos]⟩
  have h := tan_half_angle (Real.pi / 6) hpos.ne'
  rw [Real.sin_pi_div_six, Real.cos_pi_div_six] at h
  have e : Real.pi / 6 / 2 = Real.pi / 12 := by ring
  rw [e] at h
  rw [h]
  have h2 : Real.sqrt 3 ^ 2 = 3 := Real.sq_sqrt (by norm_num)
  have hp : 0 < Real.sqrt 3 := Real.sqrt_pos.2 (by norm_num)
  rw [div_eq_iff (by positivity)]
  nlinarith

theorem arctan_sqrt_two_sub_one : Real.arctan (Real.sqrt 2 - 1) = Real.pi / 8 :=
  Real.arctan_eq_of_tan_eq tan_pi_div_eight
    ⟨by linarith [Real.pi_pos], by linarith [Real.pi_pos]⟩

theorem arctan_two_sub_sqrt_three : Real.arctan (2 - Real.sqrt 3) = Real.pi / 12 :=
  Real.arctan_eq_of_tan_eq tan_pi_div_twelve
    ⟨by linarith [Real.pi_pos], by linarith [Real.pi_pos]⟩

/-- In the right half-plane `atan2 (y, x)` is `atan (y / x)`. -/
theorem realLibm_atan2_of_pos (y x : ℝ) (hx : 0 < x) :
    realLibm.atan2 y x = Real.arctan (y / x) := by
  show Complex.arg ⟨x, y⟩ = _
  have hlt : |Complex.arg ⟨x, y⟩| < Real.pi / 2 :=
    Complex.abs_arg_lt_pi_div_two_iff.2 (Or.inl hx)
  have ht := Complex.tan_arg ⟨x, y⟩
  simp only at ht
  rw [← ht, Real.arctan_tan (by linarith [(abs_lt.1 hlt).1]) (abs_lt.1 hlt).2]

/-- Radians to degrees, as the source writes it. -/
theorem deg_of_pi_div (k : ℝ) : Real.pi / k * 180 / Real.pi = 180 / k := by
  have hpi := Real.pi_ne_zero
  by_cases hk : k = 0
  · simp [hk]
  · field_simp
    ring

end RealTrig

/-! ## Lemmas on the score -/

section Wrap

/-- An `int` operation whose value is representable is exact. -/
theorem wrapInt_of_range (x : Int) (h1 : -2147483648 ≤ x) (h2 : x ≤ 2147483647) :
    wrapInt x = x := by
  unfold wrapInt
  omega

/-- Wrap-around never takes a value out of a symmetric range it was in. -/
theorem wrapInt_bounds (x B : Int) (h1 : -B ≤ x) (h2 : x ≤ B) :
    -B ≤ wrapInt x ∧ wrapInt x ≤ B := by
  unfold wrapInt
  omega

end Wrap

section Score

variable {α : Type} [LinearOrderedField α] [FloorRing α]

/-- A non-negative `float` below `2³¹` converts to its floor. -/
theorem toInt_of_nonneg_lt {x : α} (h0 : 0 ≤ x) (h : x < 2147483648) :
    toInt x = some ⌊x⌋ := by
  have hf0 : 0 ≤ ⌊x⌋ := Int.floor_nonneg.2 h0
  have hf1 : ⌊x⌋ < 2147483648 := Int.floor_lt.2 (by exact_mod_cast h)
  unfold toInt INT_MIN INT_MAX
  simp only [if_pos h0]
  rw [if_pos ⟨by omega, by omega⟩]

/-- The conversion of a `float` of `2³¹` or more is undefined. -/
theorem toInt_of_ge {x : α} (h : 2147483648 ≤ x) : toInt x = none := by
  have h0 : 0 ≤ x := le_trans (by norm_num) h
  have hf : (2147483648 : Int) ≤ ⌊x⌋ := Int.le_floor.2 (by exact_mod_cast h)
  unfold toInt INT_MIN INT_MAX
  simp only [if_pos h0]
  rw [if_neg (by omega)]

theorem wholeDegreeShoulderPenalty_bounds (a : α) :
    0 ≤ wholeDegreeShoulderPenalty a ∧ wholeDegreeShoulderPenalty a ≤ 30 := by
  unfold wholeDegreeShoulderPenalty
  split_ifs with h
  · have : 0 ≤ ⌊|a| - 5⌋ := Int.floor_nonneg.2 (sub_nonneg.2 (le_of_lt h))
    constructor
    · exact le_min (by norm_num) (by omega)
    · exact min_le_left _ _
  · norm_num

theorem wholeDegreeSpinePenalty_bounds (s : α) :
    0 ≤ wholeDegreeSpinePenalty s ∧ wholeDegreeSpinePenalty s ≤ 40 := by
  unfold wholeDegreeSpinePenalty
  split_ifs with h
  · have : 0 ≤ ⌊s - 10⌋ := Int.floor_nonneg.2 (sub_nonneg.2 (le_of_lt h))
    constructor
    · exact le_min (by norm_num) (by omega)
    · exact min_le_left _ _
  · norm_num

theorem specHeadPenalty_bounds (h span : α) :
    0 ≤ specHeadPenalty h span ∧ specHeadPenalty h span ≤ 30 := by
  unfold specHeadPenalty
  split_ifs with h3
  · have : 0 ≤ ⌊h / max 1 span * 100⌋ :=
      Int.floor_nonneg.2 (mul_nonneg (le_trans (by norm_num) (le_of_lt h3)) (by norm_num))
    constructor
    · exact le_min (by norm_num) this
    · exact min_le_left _ _
  · norm_num

/-- The shoulder step of the score: with the angle within ±1000° the
conversion is defined, no `int` operation wraps, and the step deducts the
whole-degree shoulder penalty. -/
theorem shoulderStep_eq (a : α) (ha : |a| ≤ 1000) (score : Int)
    (h0 : 0 ≤ score) (h1 : score ≤ 100) :
    shoulderStep score a = some (score - wholeDegreeShoulderPenalty a) := by
  unfold shoulderStep wholeDegreeShoulderPenalty
  split_ifs with h
  · have hx0 : (0 : α) ≤ |a| - 5 := sub_nonneg.2 (le_of_lt h)
    have hx1 : |a| - 5 < 2147483648 := by linarith
    have hf0 : 0 ≤ ⌊|a| - 5⌋ := Int.floor_nonneg.2 hx0
    have hf1 : ⌊|a| - 5⌋ < 1000 := Int.floor_lt.2 (by push_cast; linarith)
    rw [toInt_of_nonneg_lt hx0 hx1]
    have e1 : wrapInt (⌊|a| - 5⌋ * 2) = ⌊|a| - 5⌋ * 2 := wrapInt_of_range _ (by omega) (by omega)
    have hm0 : 0 ≤ min 30 (⌊|a| - 5⌋ * 2) := le_min (by norm_num) (by omega)
    have hm1 : min 30 (⌊|a| - 5⌋ * 2) ≤ 30 := min_le_left _ _
    show some (wrapInt (score - min 30 (wrapInt (⌊|a| - 5⌋ * 2)))) = _
    rw [e1, wrapInt_of_range _ (by omega) (by omega)]
  · show some score = _
    rw [sub_zero]

/-- The spine step of the score, likewise. -/
theorem spineStep_eq (s : α) (hs : s ≤ 1000) (score : Int)
    (h0 : -30 ≤ score) (h1 : score ≤ 100) :
    spineStep score s = some (score - wholeDegreeSpinePenalty s) := by
  unfold spineStep wholeDegreeSpinePenalty
  split_ifs with h
  · have hx0 : (0 : α) ≤ s - 10 := sub_nonneg.2 (le_of_lt h)
    have hx1 : s - 10 < 2147483648 := by linarith
    have hf0 : 0 ≤ ⌊s - 10⌋ := Int.floor_nonneg.2 hx0
    have hf1 : ⌊s - 10⌋ < 1000 := Int.floor_lt.2 (by push_cast; linarith)
    rw [toInt_of_nonneg_lt hx0 hx1]
    have e1 : wrapInt (⌊s - 10⌋ * 3) = ⌊s - 10⌋ * 3 := wrapInt_of_range _ (by omega) (by omega)
    have hm0 : 0 ≤ min 40 (⌊s - 10⌋ * 3) := le_min (by norm_num) (by omega)
    have hm1 : min 40 (⌊s - 10⌋ * 3) ≤ 40 := min_le_left _ _
    show some (wrapInt (score - min 40 (wrapInt (⌊s - 10⌋ * 3)))) = _
    rw [e1, wrapInt_of_range _ (by omega) (by omega)]
  · show some score = _
    rw [sub_zero]

/-- The head step of the score: when the head-forward ratio is at most 0.2 or
its hundredfold is below `2³¹` the step deducts the head-forward penalty. -/
theorem headStep_eq (h span : α)
    (hh : h / max 1 span ≤ 0.2 ∨ h / max 1 span * 100 < 2147483648) (score : Int)
    (h0 : -70 ≤ score) (h1 : score ≤ 100) :
    headStep score h span = some (score - specHeadPenalty h span) := by
  unfold headStep specHeadPenalty
  simp only
  split_ifs with h3
  · have hlt : h / max 1 span * 100 < 2147483648 := by
      rcases hh with hh | hh
      · exact absurd h3 (not_lt.2 hh)
      · exact hh
    have hx0 : (0 : α) ≤ h / max 1 span * 100 :=
      mul_nonneg (le_trans (by norm_num) (le_of_lt h3)) (by norm_num)
    have hf0 : 0 ≤ ⌊h / max 1 span * 100⌋ := Int.floor_nonneg.2 hx0
    rw [toInt_of_nonneg_lt hx0 hlt]
    have hm0 : 0 ≤ min 30 ⌊h / max 1 span * 100⌋ := le_min (by norm_num) hf0
    have hm1 : min 30 ⌊h / max 1 span * 100⌋ ≤ 30 := min_le_left _ _
    show some (wrapInt (score - min 30 ⌊h / max 1 span * 100⌋)) = _
    rw [wrapInt_of_range _ (by omega) (by omega)]
  · show some score = _
    rw [sub_zero]

/-- The head step of the score is undefined when the hundredfold of the
head-forward ratio reaches `2³¹`. -/
theorem headStep_eq_none (h span : α) (hh : 2147483648 ≤ h / max 1 span * 100) (score : Int) :
    headStep score h span = none := by
  unfold headStep
  simp only
  have h3 : h / max 1 span > 0.2 := by
    by_contra hn
    have := not_lt.1 hn
    linarith
  rw [if_pos h3, toInt_of_ge hh]
  rfl

/-- With both angles within ±1000° and the head-forward conversion in range,
the local `score` is 100 minus the three deductions, the first two counted per
whole degree. -/
theorem rawScore_eq_some (a s h span : α) (ha : |a| ≤ 1000) (hs : s ≤ 1000)
    (hh : h / max 1 span ≤ 0.2 ∨ h / max 1 span * 100 < 2147483648) :
    rawScore a s h span =
      some (100 - wholeDegreeShoulderPenalty a - wholeDegreeSpinePenalty s
        - specHeadPenalty h span) := by
  have b1 := wholeDegreeShoulderPenalty_bounds a
  have b2 := wholeDegreeSpinePenalty_bounds s
  unfold rawScore
  simp only [shoulderStep_eq a ha 100 (by norm_num) (by norm_num), Option.bind_eq_bind,
    Option.some_bind, spineStep_eq s hs _ (by omega : -30 ≤ 100 - wholeDegreeShoulderPenalty a)
      (by omega),
    headStep_eq h span hh _
      (by omega : -70 ≤ 100 - wholeDegreeShoulderPenalty a - wholeDegreeSpinePenalty s)
      (by omega)]
  rfl

/-- With both angles within ±1000°, the local `score` is undefined when the
hundredfold of the head-forward ratio reaches `2³¹`. -/
theorem rawScore_eq_none (a s h span : α) (ha : |a| ≤ 1000) (hs : s ≤ 1000)
    (hh : 2147483648 ≤ h / max 1 span * 100) :
    rawScore a s h span = none := by
  have b1 := wholeDegreeShoulderPenalty_bounds a
  unfold rawScore
  simp only [shoulderStep_eq a ha 100 (by norm_num) (by norm_num), Option.bind_eq_bind,
    Option.some_bind, spineStep_eq s hs _ (by omega : -30 ≤ 100 - wholeDegreeShoulderPenalty a)
      (by omega), headStep_eq_none h span hh]
  rfl

end Score
/-! ## Lemmas on the analysis -/

section Analysis

variable {α : Type} [LinearOrderedField α] [FloorRing α]

/-- Below the size guard and with no pointer null, `analyzePosture` runs its body. -/
theorem analyzePosture_of_lookup (m : Libm α) (now : Int) (kps : List (Keypoint α))
    (g : PostureMetrics α) (hlen : 10 ≤ kps.length) (nose ls rs lh rh : Keypoint α)
    (hl : lookup kps = ⟨some nose, some ls, some rs, some lh, some rh⟩) :
    analyzePosture m now kps g = analyzeFound m now nose ls rs lh rh g := by
  unfold analyzePosture
  rw [if_neg (by omega), hl]

/-- The body of `analyzePosture` stores the three measurements, and the score
and label computed from them, whenever the computation of the score is defined. -/
theorem analyzeFound_eq (m : Libm α) (now : Int) (nose ls rs lh rh : Keypoint α)
    (g : PostureMetrics α) :
    analyzeFound m now nose ls rs lh rh g =
      (rawScore (shoulderAngleOf m ls rs) (spineAlignmentOf m ls rs lh rh)
          (headTiltOf nose ls rs) (rs.x - ls.x)).map
        (storedMetrics m now nose ls rs lh rh g) := by
  unfold analyzeFound
  cases h : rawScore (shoulderAngleOf m ls rs) (spineAlignmentOf m ls rs lh rh)
      (headTiltOf nose ls rs) (rs.x - ls.x) with
  | none =>
    unfold shoulderAngleOf spineAlignmentOf headTiltOf at h
    simp only [h]
    rfl
  | some score =>
    unfold shoulderAngleOf spineAlignmentOf headTiltOf at h
    simp only [h]
    rfl

/-- A defined analysis stores the record of some value of the local `score`. -/
theorem analyzeFound_some (m : Libm α) (now : Int) (nose ls rs lh rh : Keypoint α)
    (g g' : PostureMetrics α) (h : analyzeFound m now nose ls rs lh rh g = some g') :
    ∃ score : Int,
      rawScore (shoulderAngleOf m ls rs) (spineAlignmentOf m ls rs lh rh)
        (headTiltOf nose ls rs) (rs.x - ls.x) = some score ∧
      g' = storedMetrics m now nose ls rs lh rh g score := by
  rw [analyzeFound_eq, Option.map_eq_some'] at h
  obtain ⟨score, hs, hg⟩ := h
  exact ⟨score, hs, hg.symm⟩

/-- The timer fields after a defined analysis that passes the guards. -/
theorem analyzePosture_timer (m : Libm α) (now : Int) (kps : List (Keypoint α))
    (g g' : PostureMetrics α) (hlen : 10 ≤ kps.length) (hreq : HasRequired kps)
    (h : analyzePosture m now kps g = some g') :
    g'.startTime = (if g.startTime = 0 then now else g.startTime) ∧
    g'.durationSeconds =
      toSeconds (now - (if g.startTime = 0 then now else g.startTime)) := by
  obtain ⟨nose, ls, rs, lh, rh, hl⟩ := lookup_of_hasRequired kps hreq
  rw [analyzePosture_of_lookup m now kps g hlen _ _ _ _ _ hl] at h
  obtain ⟨score, -, hg⟩ := analyzeFound_some m now nose ls rs lh rh g g' h
  rw [hg]
  exact ⟨rfl, rfl⟩

end Analysis

section RealAnalysis

/-- The real shoulder angle lies strictly between −90° and 90°. -/
theorem realLibm_shoulderAngle_lt (ls rs : Keypoint ℝ) :
    |shoulderAngleOf realLibm ls rs| < 90 := by
  unfold shoulderAngleOf
  show |Real.arctan _ * 180 / Real.pi| < 90
  have hpi := Real.pi_pos
  have h1 := Real.arctan_lt_pi_div_two ((rs.y - ls.y) / max 1 (rs.x - ls.x))
  have h2 := Real.neg_pi_div_two_lt_arctan ((rs.y - ls.y) / max 1 (rs.x - ls.x))
  rw [abs_lt]
  constructor
  · rw [lt_div_iff₀ hpi]; nlinarith
  · rw [div_lt_iff₀ hpi]; nlinarith

/-- The real spine deviation lies between 0° and 180°. -/
theorem realLibm_spineAlignment_le (ls rs lh rh : Keypoint ℝ) :
    spineAlignmentOf realLibm ls rs lh rh ≤ 180 := by
  unfold spineAlignmentOf
  show |Complex.arg _ * 180 / Real.pi| ≤ 180
  have hpi := Real.pi_pos
  have h := Complex.abs_arg_le_pi
    ⟨(lh.y + rh.y) * 0.5 - (ls.y + rs.y) * 0.5, (lh.x + rh.x) * 0.5 - (ls.x + rs.x) * 0.5⟩
  rw [abs_le] at h ⊢
  constructor
  · rw [le_div_iff₀ hpi]; nlinarith [h.1]
  · rw [div_le_iff₀ hpi]; nlinarith [h.2]

/-- With the real `<cmath>` functions the analysis is defined whenever the
head-forward ratio is at most 0.2 or its hundredfold is below `2³¹`, and the
local `score` is 100 minus the three deductions. -/
theorem analyzeFound_real (now : Int) (nose ls rs lh rh : Keypoint ℝ) (g : PostureMetrics ℝ)
    (hh : headTiltOf nose ls rs / max 1 (rs.x - ls.x) ≤ 0.2 ∨
      headTiltOf nose ls rs / max 1 (rs.x - ls.x) * 100 < 2147483648) :
    analyzeFound realLibm now nose ls rs lh rh g =
      some (storedMetrics realLibm now nose ls rs lh rh g
        (100 - wholeDegreeShoulderPenalty (shoulderAngleOf realLibm ls rs)
          - wholeDegreeSpinePenalty (spineAlignmentOf realLibm ls rs lh rh)
          - specHeadPenalty (headTiltOf nose ls rs) (rs.x - ls.x))) := by
  rw [analyzeFound_eq, rawScore_eq_some _ _ _ _
    (by linarith [realLibm_shoulderAngle_lt ls rs])
    (by linarith [realLibm_spineAlignment_le ls rs lh rh]) hh]
  rfl

/-- With the real `<cmath>` functions the analysis is undefined when the
hundredfold of the head-forward ratio reaches `2³¹`. -/
theorem analyzeFound_real_none (now : Int) (nose ls rs lh rh : Keypoint ℝ)
    (g : PostureMetrics ℝ)
    (hh : 2147483648 ≤ headTiltOf nose ls rs / max 1 (rs.x - ls.x) * 100) :
    analyzeFound realLibm now nose ls rs lh rh g = none := by
  rw [analyzeFound_eq, rawScore_eq_none _ _ _ _
    (by linarith [realLibm_shoulderAngle_lt ls rs])
    (by linarith [realLibm_spineAlignment_le ls rs lh rh]) hh]
  rfl

end RealAnalysis
section RealEval

/-- Evaluation of `analyzePosture` with the real `<cmath>` functions from the
values of the three measurements. -/
theorem analyzePosture_real_eval (now : Int) (kps : List (Keypoint ℝ)) (g : PostureMetrics ℝ)
    (nose ls rs lh rh : Keypoint ℝ) (A S H : ℝ) (hlen : 10 ≤ kps.length)
    (hl : lookup kps = ⟨some nose, some ls, some rs, some lh, some rh⟩)
    (hA : shoulderAngleOf realLibm ls rs = A)
    (hS : spineAlignmentOf realLibm ls rs lh rh = S)
    (hH : headTiltOf nose ls rs = H)
    (hh : H / max 1 (rs.x - ls.x) ≤ 0.2 ∨ H / max 1 (rs.x - ls.x) * 100 < 2147483648) :
    ∃ g', analyzePosture realLibm now kps g = some g' ∧
      g'.shoulderAngle = A ∧ g'.spineAlignment = S ∧ g'.headTilt = H ∧
      g'.postureScore = max 0 (100 - wholeDegreeShoulderPenalty A - wholeDegreeSpinePenalty S
        - specHeadPenalty H (rs.x - ls.x)) ∧
      g'.postureName = nameOf (100 - wholeDegreeShoulderPenalty A - wholeDegreeSpinePenalty S
        - specHeadPenalty H (rs.x - ls.x)) ∧
      g'.startTime = (if g.startTime = 0 then now else g.startTime) ∧
      g'.durationSeconds = toSeconds (now - (if g.startTime = 0 then now else g.startTime)) := by
  rw [analyzePosture_of_lookup realLibm now kps g hlen _ _ _ _ _ hl,
    analyzeFound_real now nose ls rs lh rh g (by rw [hH]; exact hh)]
  refine ⟨_, rfl, hA, hS, hH, ?_, ?_, rfl, rfl⟩
  · show max 0 _ = _
    rw [hA, hS, hH]
  · show nameOf _ = _
    rw [hA, hS, hH]

/-- Evaluation of `analyzePosture` with the real `<cmath>` functions at a
head-forward ratio whose hundredfold reaches `2³¹`: undefined. -/
theorem analyzePosture_real_undefined (now : Int) (kps : List (Keypoint ℝ))
    (g : PostureMetrics ℝ) (nose ls rs lh rh : Keypoint ℝ) (hlen : 10 ≤ kps.length)
    (hl : lookup kps = ⟨some nose, some ls, some rs, some lh, some rh⟩)
    (hh : 2147483648 ≤ headTiltOf nose ls rs / max 1 (rs.x - ls.x) * 100) :
    analyzePosture realLibm now kps g = none := by
  rw [analyzePosture_of_lookup realLibm now kps g hlen _ _ _ _ _ hl,
    analyzeFound_real_none now nose ls rs lh rh g hh]

end RealEval

/-! ## C1: the score formula -/

section C1

theorem lookup_leaningPose :
    lookup leaningPose =
      ⟨some ⟨100, -60, 0.95, NOSE⟩, some ⟨0, 0, 0.93, LEFT_SHOULDER⟩,
       some ⟨200, 0, 0.92, RIGHT_SHOULDER⟩,
       some ⟨100 * Real.sqrt 2 - 50, 100, 0.90, LEFT_HIP⟩,
       some ⟨100 * Real.sqrt 2 + 50, 100, 0.89, RIGHT_HIP⟩⟩ := by
  simp [lookup, leaningPose, lookupStep, Landmarks.none, NOSE, LEFT_EYE, RIGHT_EYE, LEFT_EAR,
    RIGHT_EAR, LEFT_SHOULDER, RIGHT_SHOULDER, LEFT_ELBOW, RIGHT_ELBOW, LEFT_HIP, RIGHT_HIP]

theorem hasRequired_leaningPose : HasRequired leaningPose := by
  refine ⟨⟨⟨100, -60, 0.95, NOSE⟩, ?_, rfl⟩, ⟨⟨0, 0, 0.93, LEFT_SHOULDER⟩, ?_, rfl⟩,
    ⟨⟨200, 0, 0.92, RIGHT_SHOULDER⟩, ?_, rfl⟩,
    ⟨⟨100 * Real.sqrt 2 - 50, 100, 0.90, LEFT_HIP⟩, ?_, rfl⟩,
    ⟨⟨100 * Real.sqrt 2 + 50, 100, 0.89, RIGHT_HIP⟩, ?_, rfl⟩⟩ <;>
  simp [leaningPose]

theorem leaningPose_shoulderAngle :
    shoulderAngleOf realLibm ⟨0, 0, 0.93, LEFT_SHOULDER⟩ ⟨200, 0, 0.92, RIGHT_SHOULDER⟩ = 0 := by
  simp [shoulderAngleOf, realLibm]

theorem leaningPose_spineAlignment :
    spineAlignmentOf realLibm ⟨0, 0, 0.93, LEFT_SHOULDER⟩ ⟨200, 0, 0.92, RIGHT_SHOULDER⟩
      ⟨100 * Real.sqrt 2 - 50, 100, 0.90, LEFT_HIP⟩
      ⟨100 * Real.sqrt 2 + 50, 100, 0.89, RIGHT_HIP⟩ = 22.5 := by
  simp only [spineAlignmentOf]
  rw [realLibm_atan2_of_pos _ _ (by norm_num)]
  have e : ((100 * Real.sqrt 2 - 50 + (100 * Real.sqrt 2 + 50)) * 0.5 - (0 + 200) * 0.5) /
      ((100 + 100) * 0.5 - (0 + 0) * 0.5) = Real.sqrt 2 - 1 := by
    norm_num; ring
  rw [e, arctan_sqrt_two_sub_one]
  show |Real.pi / 8 * 180 / Real.pi| = 22.5
  rw [deg_of_pi_div]
  norm_num

theorem leaningPose_headTilt :
    headTiltOf (⟨100, -60, 0.95, NOSE⟩ : Keypoint ℝ) ⟨0, 0, 0.93, LEFT_SHOULDER⟩
      ⟨200, 0, 0.92, RIGHT_SHOULDER⟩ = 0 := by
  norm_num [headTiltOf]

/-- The analysis of `leaningPose`: defined, angles 0° and 22.5°, head offset 0,
score 64, label "Good". -/
theorem leaningPose_analysis (now : Int) (g : PostureMetrics ℝ) :
    ∃ g', analyzePosture realLibm now leaningPose g = some g' ∧
      g'.shoulderAngle = 0 ∧ g'.spineAlignment = 22.5 ∧ g'.headTilt = 0 ∧
      g'.postureScore = 64 ∧ g'.postureName = "Good" := by
  obtain ⟨g', hg, h1, h2, h3, h4, h5, -⟩ :=
    analyzePosture_real_eval now leaningPose g _ _ _ _ _ 0 22.5 0 (by simp [leaningPose])
      lookup_leaningPose leaningPose_shoulderAngle leaningPose_spineAlignment
      leaningPose_headTilt (Or.inl (by norm_num))
  refine ⟨g', hg, h1, h2, h3, ?_, ?_⟩
  · rw [h4]
    norm_num [wholeDegreeShoulderPenalty, wholeDegreeSpinePenalty, specHeadPenalty]
  · rw [h5]
    norm_num [wholeDegreeShoulderPenalty, wholeDegreeSpinePenalty, specHeadPenalty]
    decide

/-- C1, counterexample: on `leaningPose` (eleven keypoints, the five required
landmarks present, real `atan`/`atan2`) the analysis is defined, the stored
angles are 0° and 22.5°, the head offset is 0, and the stored score is 64,
whereas the claimed formula `max(0, 100 − S − P − H)` with
`P = min(40, floor((22.5 − 10) × 3)) = 37` gives 63. -/
theorem score_formula_counterexample :
    10 ≤ leaningPose.length ∧ HasRequired leaningPose ∧
    (lookup leaningPose).leftShoulder = some ⟨0, 0, 0.93, LEFT_SHOULDER⟩ ∧
    (lookup leaningPose).rightShoulder = some ⟨200, 0, 0.92, RIGHT_SHOULDER⟩ ∧
    ∃ g', analyzePosture realLibm 0 leaningPose PostureMetrics.default = some g' ∧
      g'.shoulderAngle = 0 ∧ g'.spineAlignment = 22.5 ∧ g'.headTilt = 0 ∧
      g'.postureScore = 64 ∧
      specScore g'.shoulderAngle g'.spineAlignment g'.headTilt (200 - 0) = 63 := by
  obtain ⟨g', hg, h1, h2, h3, h4, -⟩ := leaningPose_analysis 0 PostureMetrics.default
  refine ⟨by simp [leaningPose], hasRequired_leaningPose, by rw [lookup_leaningPose],
    by rw [lookup_leaningPose], g', hg, h1, h2, h3, h4, ?_⟩
  rw [h1, h2, h3]
  norm_num [specScore, specShoulderPenalty, specSpinePenalty, specHeadPenalty]

/-- C1, amended: for every keypoint set of size at least 10 that contains nose,
both shoulders and both hips, with
`neckForward = headTilt / max(1, rightShoulder.x − leftShoulder.x)` and
`headTilt` the distance of the nose from the shoulder midpoint: whenever
`neckForward ≤ 0.2` or `neckForward × 100 < 2³¹` (the conversion of
`neckForward × 100` to `int` is defined), `analyzePosture` (real `atan`,
`atan2`) stores `postureScore = max(0, 100 − S − P − H)` with
`S = min(30, floor(|shoulderAngle| − 5) × 2)` if `|shoulderAngle| > 5`,
`P = min(40, floor(spineAlignment − 10) × 3)` if `spineAlignment > 10`,
`H = min(30, floor(neckForward × 100))` if `neckForward > 0.2` (each 0
otherwise); and a shoulder angle of exactly 15° with no other penalty deducts
exactly 20. -/
theorem analyzePosture_score_formula (now : Int) (kps : List (Keypoint ℝ))
    (g : PostureMetrics ℝ) (hlen : 10 ≤ kps.length) (hreq : HasRequired kps) :
    ∃ nose ls rs, (lookup kps).nose = some nose ∧ (lookup kps).leftShoulder = some ls ∧
      (lookup kps).rightShoulder = some rs ∧
      (headTiltOf nose ls rs / max 1 (rs.x - ls.x) ≤ 0.2 ∨
          headTiltOf nose ls rs / max 1 (rs.x - ls.x) * 100 < 2147483648 →
        ∃ g', analyzePosture realLibm now kps g = some g' ∧
          g'.headTilt = headTiltOf nose ls rs ∧
          g'.postureScore =
            max 0 (100 - wholeDegreeShoulderPenalty g'.shoulderAngle
                     - wholeDegreeSpinePenalty g'.spineAlignment
                     - specHeadPenalty g'.headTilt (rs.x - ls.x)) ∧
          (|g'.shoulderAngle| = 15 → g'.spineAlignment ≤ 10 →
            g'.headTilt / max 1 (rs.x - ls.x) ≤ 0.2 → g'.postureScore = 100 - 20)) := by
  obtain ⟨nose, ls, rs, lh, rh, hl⟩ := lookup_of_hasRequired kps hreq
  refine ⟨nose, ls, rs, by rw [hl], by rw [hl], by rw [hl], ?_⟩
  intro hh
  obtain ⟨g', hg, h1, h2, h3, h4, -⟩ :=
    analyzePosture_real_eval now kps g nose ls rs lh rh _ _ _ hlen hl rfl rfl rfl hh
  refine ⟨g', hg, h3, ?_, ?_⟩
  · rw [h4, h1, h2, h3]
  · intro h15 hsp hnf
    rw [h4, ← h1, ← h2, ← h3]
    unfold wholeDegreeShoulderPenalty wholeDegreeSpinePenalty specHeadPenalty
    rw [h15, if_neg (not_lt.2 hsp), if_neg (not_lt.2 hnf)]
    norm_num

theorem lookup_slopedShoulders :
    lookup slopedShoulders =
      ⟨some ⟨50, -60, 0.95, NOSE⟩, some ⟨0, 0, 0.93, LEFT_SHOULDER⟩,
       some ⟨100, 100 * (2 - Real.sqrt 3), 0.92, RIGHT_SHOULDER⟩,
       some ⟨25, 150, 0.90, LEFT_HIP⟩, some ⟨75, 150, 0.89, RIGHT_HIP⟩⟩ := by
  simp [lookup, slopedShoulders, lookupStep, Landmarks.none, NOSE, LEFT_EYE, RIGHT_EYE,
    LEFT_EAR, RIGHT_EAR, LEFT_SHOULDER, RIGHT_SHOULDER, LEFT_ELBOW, RIGHT_ELBOW, LEFT_HIP,
    RIGHT_HIP]

theorem hasRequired_slopedShoulders : HasRequired slopedShoulders := by
  refine ⟨⟨⟨50, -60, 0.95, NOSE⟩, ?_, rfl⟩, ⟨⟨0, 0, 0.93, LEFT_SHOULDER⟩, ?_, rfl⟩,
    ⟨⟨100, 100 * (2 - Real.sqrt 3), 0.92, RIGHT_SHOULDER⟩, ?_, rfl⟩,
    ⟨⟨25, 150, 0.90, LEFT_HIP⟩, ?_, rfl⟩, ⟨⟨75, 150, 0.89, RIGHT_HIP⟩, ?_, rfl⟩⟩ <;>
  simp [slopedShoulders]

theorem slopedShoulders_shoulderAngle :
    shoulderAngleOf realLibm ⟨0, 0, 0.93, LEFT_SHOULDER⟩
      ⟨100, 100 * (2 - Real.sqrt 3), 0.92, RIGHT_SHOULDER⟩ = 15 := by
  simp only [shoulderAngleOf]
  have e : (100 * (2 - Real.sqrt 3) - 0) / max 1 ((100 : ℝ) - 0) = 2 - Real.sqrt 3 := by
    norm_num
  rw [e]
  show Real.arctan (2 - Real.sqrt 3) * 180 / Real.pi = 15
  rw [arctan_two_sub_sqrt_three, deg_of_pi_div]
  norm_num

theorem slopedShoulders_spineAlignment :
    spineAlignmentOf realLibm ⟨0, 0, 0.93, LEFT_SHOULDER⟩
      ⟨100, 100 * (2 - Real.sqrt 3), 0.92, RIGHT_SHOULDER⟩
      ⟨25, 150, 0.90, LEFT_HIP⟩ ⟨75, 150, 0.89, RIGHT_HIP⟩ = 0 := by
  simp only [spineAlignmentOf]
  have hs : Real.sqrt 3 ^ 2 = 3 := Real.sq_sqrt (by norm_num)
  have hp : 0 ≤ Real.sqrt 3 := Real.sqrt_nonneg 3
  rw [realLibm_atan2_of_pos _ _ (by norm_num; nlinarith)]
  norm_num

theorem slopedShoulders_headTilt :
    headTiltOf (⟨50, -60, 0.95, NOSE⟩ : Keypoint ℝ) ⟨0, 0, 0.93, LEFT_SHOULDER⟩
      ⟨100, 100 * (2 - Real.sqrt 3), 0.92, RIGHT_SHOULDER⟩ = 0 := by
  norm_num [headTiltOf]

/-- C1, witness: on `slopedShoulders` the head-forward ratio is 0, the analysis
is defined, the shoulder angle is exactly 15°, there is no other penalty, and
the stored score is 80. -/
theorem analyzePosture_score_formula_witness :
    10 ≤ slopedShoulders.length ∧ HasRequired slopedShoulders ∧
    ∃ g', analyzePosture realLibm 0 slopedShoulders PostureMetrics.default = some g' ∧
      g'.shoulderAngle = 15 ∧ g'.postureScore = 80 := by
  have hlen : 10 ≤ slopedShoulders.length := by simp [slopedShoulders]
  refine ⟨hlen, hasRequired_slopedShoulders, ?_⟩
  obtain ⟨nose, ls, rs, hn, hls, hrs, h⟩ :=
    analyzePosture_score_formula 0 slopedShoulders PostureMetrics.default hlen
      hasRequired_slopedShoulders
  rw [lookup_slopedShoulders] at hn hls hrs
  simp only [Option.some.injEq] at hn hls hrs
  subst hn hls hrs
  obtain ⟨g', hg, hh, -, h15⟩ := h (Or.inl (by rw [slopedShoulders_headTilt]; norm_num))
  obtain ⟨g2, hg2, h1, h2, h3, -⟩ :=
    analyzePosture_real_eval 0 slopedShoulders PostureMetrics.default _ _ _ _ _ 15 0 0 hlen
      lookup_slopedShoulders slopedShoulders_shoulderAngle slopedShoulders_spineAlignment
      slopedShoulders_headTilt (Or.inl (by norm_num))
  rw [hg] at hg2
  simp only [Option.some.injEq] at hg2
  subst hg2
  refine ⟨g', hg, h1, ?_⟩
  have := h15 (by rw [h1]; norm_num) (by rw [h2]; norm_num) (by rw [h3]; norm_num)
  rw [this]; norm_num

end C1
/-! ## Lemmas on the entry points -/

section Detector

variable {α : Type} [LinearOrderedField α]

theorem selectBest_cons_self (first : BBox α) (rest : List (BBox α)) :
    selectBest first (first :: rest) = selectBest first rest := by
  simp [selectBest]

/-- The detector returns no region exactly when the incremented counter has
remainder 7, 8 or 9. -/
theorem runYOLONAS_nil_iff (start finish width height : Int) (w : World α) :
    (runYOLONAS start finish width height w).1 = [] ↔ ¬ (w.frameCounter + 1).tmod 10 < 7 := by
  unfold runYOLONAS
  by_cases h : (w.frameCounter + 1).tmod 10 < 7 <;> simp [h]

/-- The one region of a detecting call. -/
theorem runYOLONAS_of_ne_nil (start finish width height : Int) (w : World α)
    (h : (runYOLONAS start finish width height w).1 ≠ []) :
    (runYOLONAS start finish width height w).1 = [personBox (w.frameCounter + 1) width height] := by
  have hc : (w.frameCounter + 1).tmod 10 < 7 := by
    by_contra hn
    exact h ((runYOLONAS_nil_iff _ _ _ _ w).2 hn)
  unfold runYOLONAS
  simp [hc]

end Detector

section Pipeline

variable {α : Type} [LinearOrderedField α] [FloorRing α]

/-- Null frame buffer: nothing happens. -/
theorem runPipeline_null (m : Libm α) (clk : PipelineClock) (width height : Int)
    (scoreThreshold : α) (out : OutArrays α) (maxKp : Int) (w : World α) :
    runPipeline m clk none width height scoreThreshold out maxKp w
      = some { ret := 0, out := out, world := w } := rfl

/-- The entry point `runPipeline` on a frame is the rest of its body on the
detector's output. -/
theorem runPipeline_some (m : Libm α) (clk : PipelineClock) (d : List Int)
    (width height : Int) (scoreThreshold : α) (out : OutArrays α) (maxKp : Int) (w : World α) :
    runPipeline m clk (some d) width height scoreThreshold out maxKp w =
      processDetections m clk scoreThreshold out maxKp
        (runYOLONAS clk.detStart clk.detEnd width height w).1
        (runYOLONAS clk.detStart clk.detEnd width height w).2 := rfl

/-- The rest of the body of `runPipeline` on a non-empty vector of detections:
the estimator runs on the region the selection loop ends at, and the result is
defined exactly when the analysis of its keypoints is. -/
theorem processDetections_cons (m : Libm α) (clk : PipelineClock) (scoreThreshold : α)
    (out : OutArrays α) (maxKp : Int) (first : BBox α) (rest : List (BBox α)) (w : World α) :
    processDetections m clk scoreThreshold out maxKp (first :: rest) w =
      (analyzePosture m clk.analysisNow
          (poseKeypoints m (w.poseFrameCounter + 1) (selectBest first rest)) w.gPosture).map
        (fun posture =>
          { ret := (copyOut scoreThreshold maxKp
                      (poseKeypoints m (w.poseFrameCounter + 1) (selectBest first rest)) out).1
            out := (copyOut scoreThreshold maxKp
                      (poseKeypoints m (w.poseFrameCounter + 1) (selectBest first rest)) out).2
            world :=
              { gInitialized := w.gInitialized
                gMetrics :=
                  { detectionTimeMs := w.gMetrics.detectionTimeMs
                    poseTimeMs := toMillis (clk.poseEnd - clk.poseStart)
                    totalTimeMs := toMillis (clk.frameEnd - clk.frameStart)
                    fps := if toSeconds (clk.frameEnd - w.gMetrics.lastFrameTime) > (0 : α)
                           then 1 / toSeconds (clk.frameEnd - w.gMetrics.lastFrameTime)
                           else w.gMetrics.fps
                    frameCount := w.gMetrics.frameCount + 1
                    lastFrameTime := clk.frameEnd }
                gPosture := posture
                gLastPose := poseKeypoints m (w.poseFrameCounter + 1) (selectBest first rest)
                frameCounter := w.frameCounter
                poseFrameCounter := w.poseFrameCounter + 1 } }) := by
  have hs := selectBest_cons_self first rest
  cases h : analyzePosture m clk.analysisNow
      (poseKeypoints m (w.poseFrameCounter + 1) (selectBest first rest)) w.gPosture with
  | none =>
    simp only [processDetections, runHRNet, hs, h]
    rfl
  | some posture =>
    simp only [processDetections, runHRNet, hs, h]
    rfl

/-- The no-detection path of `runPipeline`, field by field. -/
theorem runPipeline_of_nil (m : Libm α) (clk : PipelineClock) (d : List Int)
    (width height : Int) (scoreThreshold : α) (out : OutArrays α) (maxKp : Int) (w : World α)
    (h : (runYOLONAS clk.detStart clk.detEnd width height w).1 = []) :
    runPipeline m clk (some d) width height scoreThreshold out maxKp w =
      some
        { ret := 0
          out := out
          world :=
            { gInitialized := w.gInitialized
              gMetrics := { w.gMetrics with
                            detectionTimeMs := toMillis (clk.detEnd - clk.detStart) }
              gPosture := { w.gPosture with startTime := 0 }
              gLastPose := []
              frameCounter := w.frameCounter + 1
              poseFrameCounter := w.poseFrameCounter } } := by
  rw [runPipeline_some, h]
  rfl

/-- The detection path of `runPipeline`: the call is defined exactly when the
analysis of the estimator's keypoints on the detector's box is, and leaves
`detectionResult` of the record the analysis leaves. -/
theorem runPipeline_detection (m : Libm α) (clk : PipelineClock) (d : List Int)
    (width height : Int) (scoreThreshold : α) (out : OutArrays α) (maxKp : Int) (w : World α)
    (h : (runYOLONAS clk.detStart clk.detEnd width height w).1 ≠ []) :
    runPipeline m clk (some d) width height scoreThreshold out maxKp w =
      (analyzePosture m clk.analysisNow (estimate m width height w) w.gPosture).map
        (detectionResult m clk width height scoreThreshold out maxKp w) := by
  rw [runPipeline_some, runYOLONAS_of_ne_nil _ _ _ _ w h, processDetections_cons]
  rfl

/-- A defined detecting call leaves `detectionResult` of a defined analysis. -/
theorem runPipeline_detection_some (m : Libm α) (clk : PipelineClock) (d : List Int)
    (width height : Int) (scoreThreshold : α) (out : OutArrays α) (maxKp : Int) (w : World α)
    (r : PipelineResult α)
    (h : (runYOLONAS clk.detStart clk.detEnd width height w).1 ≠ [])
    (hr : runPipeline m clk (some d) width height scoreThreshold out maxKp w = some r) :
    ∃ posture, analyzePosture m clk.analysisNow (estimate m width height w) w.gPosture
        = some posture ∧
      r = detectionResult m clk width height scoreThreshold out maxKp w posture := by
  rw [runPipeline_detection m clk d width height scoreThreshold out maxKp w h,
    Option.map_eq_some'] at hr
  obtain ⟨posture, hp, hres⟩ := hr
  exact ⟨posture, hp, hres.symm⟩

end Pipeline
/-! ## Lemmas on the estimator's keypoints -/

section Estimate

variable {α : Type} [LinearOrderedField α]

theorem poseKeypoints_ids (m : Libm α) (c : Int) (roi : BBox α) :
    (poseKeypoints m c roi).map (fun kp => kp.id) =
      [0, 1, 2, 3, 4, 5, 6, 7, 8, 9, 10, 11, 12, 13, 14, 15, 16] := by
  simp [poseKeypoints, NOSE, LEFT_EYE, RIGHT_EYE, LEFT_EAR, RIGHT_EAR, LEFT_SHOULDER,
    RIGHT_SHOULDER, LEFT_ELBOW, RIGHT_ELBOW, LEFT_WRIST, RIGHT_WRIST, LEFT_HIP, RIGHT_HIP,
    LEFT_KNEE, RIGHT_KNEE, LEFT_ANKLE, RIGHT_ANKLE]

theorem poseKeypoints_length (m : Libm α) (c : Int) (roi : BBox α) :
    (poseKeypoints m c roi).length = 17 := by
  simp [poseKeypoints]

theorem poseKeypoints_scores (m : Libm α) (c : Int) (roi : BBox α) :
    (poseKeypoints m c roi).map (fun kp => kp.score) = landmarkScores := by
  simp [poseKeypoints, landmarkScores]

theorem selected_sublist (scoreThreshold : α) (maxKp : Int) (kps : List (Keypoint α)) :
    (selected scoreThreshold maxKp kps).Sublist kps :=
  (List.take_sublist _ _).trans (List.filter_sublist _)

theorem selected_score (scoreThreshold : α) (maxKp : Int) (kps : List (Keypoint α))
    (kp : Keypoint α) (h : kp ∈ selected scoreThreshold maxKp kps) :
    kp.score ≥ scoreThreshold := by
  have := List.mem_of_mem_take h
  simpa using (List.mem_filter.1 this).2

theorem selected_length_le (scoreThreshold : α) (maxKp : Int) (kps : List (Keypoint α)) :
    ((selected scoreThreshold maxKp kps).length : Int) ≤ max 0 maxKp := by
  have h := List.length_take_le maxKp.toNat
    (kps.filter (fun kp => decide (kp.score ≥ scoreThreshold)))
  have h2 := Int.toNat_eq_max maxKp
  unfold selected
  rw [max_comm]
  omega

/-- The estimator's keypoints always contain the five required landmarks. -/
theorem hasRequired_poseKeypoints (m : Libm α) (c : Int) (roi : BBox α) :
    HasRequired (poseKeypoints m c roi) := by
  unfold HasRequired
  simp only [hasLandmark_iff, poseKeypoints_ids]
  decide

/-- The five keypoints the lookup loop finds among the estimator's 17. -/
theorem lookup_poseKeypoints (m : Libm α) (c : Int) (roi : BBox α) :
    lookup (poseKeypoints m c roi) =
      ⟨some ⟨(roi.x1 + roi.x2) * 0.5 + m.sin ((c : α) * 0.1) * 0.02 * (roi.x2 - roi.x1),
             roi.y1 + (roi.y2 - roi.y1) * 0.15, 0.95, NOSE⟩,
       some ⟨(roi.x1 + roi.x2) * 0.5 - (roi.x2 - roi.x1) * 0.18,
             roi.y1 + (roi.y2 - roi.y1) * (0.30 + m.sin ((c : α) * 0.05) * 0.01), 0.93,
             LEFT_SHOULDER⟩,
       some ⟨(roi.x1 + roi.x2) * 0.5 + (roi.x2 - roi.x1) * 0.18,
             roi.y1 + (roi.y2 - roi.y1) * (0.30 + m.sin ((c : α) * 0.05) * 0.01), 0.92,
             RIGHT_SHOULDER⟩,
       some ⟨(roi.x1 + roi.x2) * 0.5 - (roi.x2 - roi.x1) * 0.12,
             roi.y1 + (roi.y2 - roi.y1) * 0.65, 0.90, LEFT_HIP⟩,
       some ⟨(roi.x1 + roi.x2) * 0.5 + (roi.x2 - roi.x1) * 0.12,
             roi.y1 + (roi.y2 - roi.y1) * 0.65, 0.89, RIGHT_HIP⟩⟩ := by
  simp [lookup, poseKeypoints, lookupStep, Landmarks.none, NOSE, LEFT_EYE, RIGHT_EYE, LEFT_EAR,
    RIGHT_EAR, LEFT_SHOULDER, RIGHT_SHOULDER, LEFT_ELBOW, RIGHT_ELBOW, LEFT_WRIST, RIGHT_WRIST,
    LEFT_HIP, RIGHT_HIP, LEFT_KNEE, RIGHT_KNEE, LEFT_ANKLE, RIGHT_ANKLE]

/-- The C++ remainder by a positive `b` is above `-b`. -/
theorem neg_lt_tmod (a : Int) {b : Int} (hb : 0 < b) : -b < a.tmod b := by
  obtain ⟨k, rfl⟩ := Int.eq_ofNat_of_zero_le hb.le
  cases a with
  | ofNat n =>
    have := Int.tmod_nonneg (a := Int.ofNat n) (k : Int) (Int.ofNat_nonneg n)
    omega
  | negSucc n =>
    show -(k : Int) < -(((n + 1) % k : Nat) : Int)
    have hk : 0 < k := by exact_mod_cast hb
    have : (n + 1) % k < k := Nat.mod_lt _ hk
    omega

/-- The detector's box has positive width on a frame of positive width. -/
theorem personBox_x1_lt_x2 (c width height : Int) (hw : 0 < width) :
    (personBox c width height : BBox α).x1 < (personBox c width height : BBox α).x2 := by
  have h1 : -10 < c.tmod 10 := by
    have := neg_lt_tmod c (show (0 : Int) < 10 by norm_num)
    omega
  have h2 : (-10 : α) < ((c.tmod 10 : Int) : α) := by exact_mod_cast h1
  have hW : (0 : α) < (width : α) := by exact_mod_cast hw
  simp only [personBox]
  have hb : (0 : α) < (width : α) * (0.3 + ((c.tmod 10 : Int) : α) * 0.01) * 0.5 := by
    apply mul_pos (mul_pos hW _) (by norm_num)
    norm_num
    linarith
  linarith

/-- The detector's box has positive height on a frame of positive height. -/
theorem personBox_y1_lt_y2 (c width height : Int) (hh : 0 < height) :
    (personBox c width height : BBox α).y1 < (personBox c width height : BBox α).y2 := by
  have h1 : -15 < c.tmod 15 := by
    have := neg_lt_tmod c (show (0 : Int) < 15 by norm_num)
    omega
  have h2 : (-15 : α) < ((c.tmod 15 : Int) : α) := by exact_mod_cast h1
  have hH : (0 : α) < (height : α) := by exact_mod_cast hh
  simp only [personBox]
  have hb : (0 : α) < (height : α) * (0.35 + ((c.tmod 15 : Int) : α) * 0.01) * 0.5 := by
    apply mul_pos (mul_pos hH _) (by norm_num)
    norm_num
    linarith
  linarith

end Estimate

section Level

/-- With level shoulders and the hip midpoint straight below the shoulder
midpoint both real angles are 0. -/
theorem level_angles (ls rs lh rh : Keypoint ℝ)
    (hy : ls.y = rs.y) (hx : (lh.x + rh.x) * 0.5 = (ls.x + rs.x) * 0.5)
    (hbelow : (ls.y + rs.y) * 0.5 < (lh.y + rh.y) * 0.5) :
    shoulderAngleOf realLibm ls rs = 0 ∧ spineAlignmentOf realLibm ls rs lh rh = 0 := by
  constructor
  · show Real.arctan ((rs.y - ls.y) / max 1 (rs.x - ls.x)) * 180 / Real.pi = 0
    rw [hy, sub_self, zero_div, Real.arctan_zero]
    simp
  · show |realLibm.atan2 ((lh.x + rh.x) * 0.5 - (ls.x + rs.x) * 0.5)
      ((lh.y + rh.y) * 0.5 - (ls.y + rs.y) * 0.5) * 180 / Real.pi| = 0
    rw [realLibm_atan2_of_pos _ _ (sub_pos.2 hbelow), hx, sub_self, zero_div,
      Real.arctan_zero]
    simp

/-- The analysis of the estimator's keypoints for a region of positive width
and height, with the real `<cmath>` functions: defined, both angles 0, no
deduction. -/
theorem poseKeypoints_analysis (now c : Int) (roi : BBox ℝ) (g : PostureMetrics ℝ)
    (hw : roi.x1 < roi.x2) (hh : roi.y1 < roi.y2) :
    ∃ g', analyzePosture realLibm now (poseKeypoints realLibm c roi) g = some g' ∧
      g'.shoulderAngle = 0 ∧ g'.spineAlignment = 0 ∧
      g'.headTilt ≤ 0.02 * (roi.x2 - roi.x1) ∧
      g'.headTilt / max 1 (0.36 * (roi.x2 - roi.x1)) < 0.2 ∧
      g'.postureScore = 100 ∧ g'.postureName = "Excellent" ∧
      g'.startTime = (if g.startTime = 0 then now else g.startTime) ∧
      g'.durationSeconds = toSeconds (now - (if g.startTime = 0 then now else g.startTime)) := by
  have hW : 0 < roi.x2 - roi.x1 := sub_pos.2 hw
  have hH : 0 < roi.y2 - roi.y1 := sub_pos.2 hh
  have hsin1 : |Real.sin ((c : ℝ) * 0.1)| ≤ 1 := Real.abs_sin_le_one _
  have hsin2 : Real.sin ((c : ℝ) * 0.05) ≤ 1 := Real.sin_le_one _
  obtain ⟨nose, ls, rs, lh, rh, hl, hnx, hlsx, hrsx, hlsy, hrsy, hlhx, hrhx, hlhy, hrhy⟩ :
      ∃ nose ls rs lh rh : Keypoint ℝ,
        lookup (poseKeypoints realLibm c roi)
          = ⟨some nose, some ls, some rs, some lh, some rh⟩ ∧
        nose.x = (roi.x1 + roi.x2) * 0.5
          + Real.sin ((c : ℝ) * 0.1) * 0.02 * (roi.x2 - roi.x1) ∧
        ls.x = (roi.x1 + roi.x2) * 0.5 - (roi.x2 - roi.x1) * 0.18 ∧
        rs.x = (roi.x1 + roi.x2) * 0.5 + (roi.x2 - roi.x1) * 0.18 ∧
        ls.y = roi.y1 + (roi.y2 - roi.y1) * (0.30 + Real.sin ((c : ℝ) * 0.05) * 0.01) ∧
        rs.y = roi.y1 + (roi.y2 - roi.y1) * (0.30 + Real.sin ((c : ℝ) * 0.05) * 0.01) ∧
        lh.x = (roi.x1 + roi.x2) * 0.5 - (roi.x2 - roi.x1) * 0.12 ∧
        rh.x = (roi.x1 + roi.x2) * 0.5 + (roi.x2 - roi.x1) * 0.12 ∧
        lh.y = roi.y1 + (roi.y2 - roi.y1) * 0.65 ∧
        rh.y = roi.y1 + (roi.y2 - roi.y1) * 0.65 :=
    ⟨_, _, _, _, _, lookup_poseKeypoints _ _ _, rfl, rfl, rfl, rfl, rfl, rfl, rfl, rfl, rfl⟩
  generalize Real.sin ((c : ℝ) * 0.1) = s1 at hnx hsin1
  generalize Real.sin ((c : ℝ) * 0.05) = s2 at hlsy hrsy hsin2
  have hx : (lh.x + rh.x) * 0.5 = (ls.x + rs.x) * 0.5 := by
    rw [hlhx, hrhx, hlsx, hrsx]; ring
  have hbelow : (ls.y + rs.y) * 0.5 < (lh.y + rh.y) * 0.5 := by
    rw [hlsy, hrsy, hlhy, hrhy]
    have hp : 0 ≤ (roi.y2 - roi.y1) * (1 - s2) := mul_nonneg hH.le (sub_nonneg.2 hsin2)
    norm_num
    nlinarith
  have hspan : rs.x - ls.x = 0.36 * (roi.x2 - roi.x1) := by
    rw [hlsx, hrsx]; ring
  have htilt : headTiltOf nose ls rs ≤ 0.02 * (roi.x2 - roi.x1) := by
    have e : nose.x - (ls.x + rs.x) * 0.5 = s1 * (0.02 * (roi.x2 - roi.x1)) := by
      rw [hnx, hlsx, hrsx]; ring
    unfold headTiltOf
    rw [e, abs_mul, abs_of_pos (by positivity : (0 : ℝ) < 0.02 * (roi.x2 - roi.x1))]
    calc |s1| * (0.02 * (roi.x2 - roi.x1)) ≤ 1 * (0.02 * (roi.x2 - roi.x1)) :=
          mul_le_mul_of_nonneg_right hsin1 (by positivity)
      _ = 0.02 * (roi.x2 - roi.x1) := one_mul _
  have hmaxpos : (0 : ℝ) < max 1 (0.36 * (roi.x2 - roi.x1)) :=
    lt_of_lt_of_le one_pos (le_max_left _ _)
  have hratio : headTiltOf nose ls rs / max 1 (0.36 * (roi.x2 - roi.x1)) < 0.2 := by
    rw [div_lt_iff₀ hmaxpos]
    have hm : 0.36 * (roi.x2 - roi.x1) ≤ max 1 (0.36 * (roi.x2 - roi.x1)) := le_max_right _ _
    calc headTiltOf nose ls rs ≤ 0.02 * (roi.x2 - roi.x1) := htilt
      _ < 0.2 * (0.36 * (roi.x2 - roi.x1)) := by nlinarith
      _ ≤ 0.2 * max 1 (0.36 * (roi.x2 - roi.x1)) :=
          mul_le_mul_of_nonneg_left hm (by norm_num)
  obtain ⟨hA, hS⟩ := level_angles ls rs lh rh (hlsy.trans hrsy.symm) hx hbelow
  have hnf : headTiltOf nose ls rs / max 1 (rs.x - ls.x) ≤ 0.2 := by
    rw [hspan]; exact le_of_lt hratio
  obtain ⟨g', hg, h1, h2, h3, h4, h5, h6, h7⟩ :=
    analyzePosture_real_eval now (poseKeypoints realLibm c roi) g nose ls rs lh rh 0 0
      (headTiltOf nose ls rs) (by rw [poseKeypoints_length]; norm_num) hl hA hS rfl
      (Or.inl hnf)
  have hpen : (100 : Int) - wholeDegreeShoulderPenalty (0 : ℝ) - wholeDegreeSpinePenalty (0 : ℝ)
      - specHeadPenalty (headTiltOf nose ls rs) (rs.x - ls.x) = 100 := by
    unfold specHeadPenalty
    rw [if_neg (not_lt.2 hnf)]
    norm_num [wholeDegreeShoulderPenalty, wholeDegreeSpinePenalty]
  rw [hpen] at h4 h5
  refine ⟨g', hg, h1, h2, by rw [h3]; exact htilt, by rw [h3]; exact hratio, ?_, ?_, h6, h7⟩
  · rw [h4]; norm_num
  · rw [h5]; decide

/-- With the real `<cmath>` functions every `runPipeline` call on a frame of
positive width and height is defined. -/
theorem runPipeline_defined (clk : PipelineClock) (yuvData : Option (List Int))
    (width height : Int) (scoreThreshold : ℝ) (out : OutArrays ℝ) (maxKp : Int) (w : World ℝ)
    (hw : 0 < width) (hh : 0 < height) :
    ∃ r, runPipeline realLibm clk yuvData width height scoreThreshold out maxKp w = some r := by
  cases yuvData with
  | none => exact ⟨_, rfl⟩
  | some d =>
    by_cases h : (runYOLONAS clk.detStart clk.detEnd width height w).1 = []
    · exact ⟨_, runPipeline_of_nil realLibm clk d width height scoreThreshold out maxKp w h⟩
    · obtain ⟨g', hg, -⟩ := poseKeypoints_analysis clk.analysisNow (w.poseFrameCounter + 1)
        (personBox (w.frameCounter + 1) width height) w.gPosture
        (personBox_x1_lt_x2 _ _ _ hw) (personBox_y1_lt_y2 _ _ _ hh)
      refine ⟨detectionResult realLibm clk width height scoreThreshold out maxKp w g', ?_⟩
      rw [runPipeline_detection realLibm clk d width height scoreThreshold out maxKp w h]
      show Option.map _ (analyzePosture realLibm clk.analysisNow
        (poseKeypoints realLibm (w.poseFrameCounter + 1)
          (personBox (w.frameCounter + 1) width height)) w.gPosture) = _
      rw [hg]
      rfl

end Level
section DefinedInt

/-- The width of the detector's box is below `2³⁰` in absolute value on every
frame whose width is a 32-bit `int`. -/
theorem personBox_width_lt (c width height : Int)
    (hw : INT_MIN ≤ width ∧ width ≤ INT_MAX) :
    |(personBox c width height : BBox ℝ).x2 - (personBox c width height : BBox ℝ).x1|
      < 1073741824 := by
  have h1 : -10 < c.tmod 10 := neg_lt_tmod c (by norm_num)
  have h2 : c.tmod 10 < 10 := Int.tmod_lt_of_pos c (by norm_num)
  have a1 : (-10 : ℝ) < ((c.tmod 10 : Int) : ℝ) := by exact_mod_cast h1
  have a2 : ((c.tmod 10 : Int) : ℝ) < 10 := by exact_mod_cast h2
  have b1 : (-2147483648 : ℝ) ≤ (width : ℝ) := by exact_mod_cast hw.1
  have b2 : (width : ℝ) ≤ 2147483647 := by exact_mod_cast hw.2
  have e : (personBox c width height : BBox ℝ).x2 - (personBox c width height : BBox ℝ).x1
      = (width : ℝ) * (0.3 + ((c.tmod 10 : Int) : ℝ) * 0.01) := by
    simp only [personBox]
    ring
  have hf0 : (0 : ℝ) < 0.3 + ((c.tmod 10 : Int) : ℝ) * 0.01 := by linarith
  have hf1 : 0.3 + ((c.tmod 10 : Int) : ℝ) * 0.01 < 0.4 := by linarith
  have hwabs : |(width : ℝ)| ≤ 2147483648 := abs_le.2 ⟨b1, by linarith⟩
  rw [e, abs_mul, abs_of_pos hf0]
  calc |(width : ℝ)| * (0.3 + ((c.tmod 10 : Int) : ℝ) * 0.01)
      ≤ 2147483648 * (0.3 + ((c.tmod 10 : Int) : ℝ) * 0.01) :=
        mul_le_mul_of_nonneg_right hwabs hf0.le
    _ < 2147483648 * 0.4 := mul_lt_mul_of_pos_left hf1 (by norm_num)
    _ < 1073741824 := by norm_num

/-- The analysis of the estimator's keypoints is defined for every region less
than `2³⁰` wide, of positive width or not (real `<cmath>` functions): the
value converted in the head-forward step is at most twice the width. -/
theorem poseKeypoints_analysis_defined (now c : Int) (roi : BBox ℝ) (g : PostureMetrics ℝ)
    (hW : |roi.x2 - roi.x1| < 1073741824) :
    ∃ g', analyzePosture realLibm now (poseKeypoints realLibm c roi) g = some g' := by
  have hsin1 : |Real.sin ((c : ℝ) * 0.1)| ≤ 1 := Real.abs_sin_le_one _
  obtain ⟨nose, ls, rs, lh, rh, hl, hnx, hlsx, hrsx⟩ :
      ∃ nose ls rs lh rh : Keypoint ℝ,
        lookup (poseKeypoints realLibm c roi)
          = ⟨some nose, some ls, some rs, some lh, some rh⟩ ∧
        nose.x = (roi.x1 + roi.x2) * 0.5
          + Real.sin ((c : ℝ) * 0.1) * 0.02 * (roi.x2 - roi.x1) ∧
        ls.x = (roi.x1 + roi.x2) * 0.5 - (roi.x2 - roi.x1) * 0.18 ∧
        rs.x = (roi.x1 + roi.x2) * 0.5 + (roi.x2 - roi.x1) * 0.18 :=
    ⟨_, _, _, _, _, lookup_poseKeypoints _ _ _, rfl, rfl, rfl⟩
  generalize Real.sin ((c : ℝ) * 0.1) = s1 at hnx hsin1
  have htilt : headTiltOf nose ls rs ≤ 0.02 * |roi.x2 - roi.x1| := by
    have e : nose.x - (ls.x + rs.x) * 0.5 = s1 * (0.02 * (roi.x2 - roi.x1)) := by
      rw [hnx, hlsx, hrsx]; ring
    unfold headTiltOf
    rw [e, abs_mul, abs_mul, abs_of_pos (by norm_num : (0 : ℝ) < 0.02)]
    calc |s1| * (0.02 * |roi.x2 - roi.x1|) ≤ 1 * (0.02 * |roi.x2 - roi.x1|) :=
          mul_le_mul_of_nonneg_right hsin1 (by positivity)
      _ = 0.02 * |roi.x2 - roi.x1| := one_mul _
  have hpos : (0 : ℝ) < max 1 (rs.x - ls.x) := lt_of_lt_of_le one_pos (le_max_left _ _)
  have h0 : 0 ≤ headTiltOf nose ls rs := abs_nonneg _
  have hdiv : headTiltOf nose ls rs / max 1 (rs.x - ls.x) ≤ headTiltOf nose ls rs :=
    div_le_self h0 (le_max_left _ _)
  have hdef : headTiltOf nose ls rs / max 1 (rs.x - ls.x) * 100 < 2147483648 := by
    nlinarith
  obtain ⟨g', hg, -⟩ := analyzePosture_real_eval now (poseKeypoints realLibm c roi) g nose ls rs
    lh rh _ _ _ (by rw [poseKeypoints_length]; norm_num) hl rfl rfl rfl (Or.inr hdef)
  exact ⟨g', hg⟩

/-- With the real `<cmath>` functions every `runPipeline` call on a frame
whose width is a 32-bit `int`, positive or not, is defined: no call of the
program reaches an undefined conversion. -/
theorem runPipeline_defined_int (clk : PipelineClock) (yuvData : Option (List Int))
    (width height : Int) (scoreThreshold : ℝ) (out : OutArrays ℝ) (maxKp : Int) (w : World ℝ)
    (hw : INT_MIN ≤ width ∧ width ≤ INT_MAX) :
    ∃ r, runPipeline realLibm clk yuvData width height scoreThreshold out maxKp w = some r := by
  cases yuvData with
  | none => exact ⟨_, rfl⟩
  | some d =>
    by_cases h : (runYOLONAS clk.detStart clk.detEnd width height w).1 = []
    · exact ⟨_, runPipeline_of_nil realLibm clk d width height scoreThreshold out maxKp w h⟩
    · obtain ⟨g', hg⟩ := poseKeypoints_analysis_defined clk.analysisNow (w.poseFrameCounter + 1)
        (personBox (w.frameCounter + 1) width height) w.gPosture
        (personBox_width_lt _ _ _ hw)
      refine ⟨detectionResult realLibm clk width height scoreThreshold out maxKp w g', ?_⟩
      rw [runPipeline_detection realLibm clk d width height scoreThreshold out maxKp w h]
      show Option.map _ (analyzePosture realLibm clk.analysisNow
        (poseKeypoints realLibm (w.poseFrameCounter + 1)
          (personBox (w.frameCounter + 1) width height)) w.gPosture) = _
      rw [hg]
      rfl

end DefinedInt
/-! ## The undefined conversion -/

section FarNose

theorem lookup_farNose :
    lookup farNose =
      ⟨some ⟨3000000000, -60, 0.95, NOSE⟩, some ⟨0, 0, 0.93, LEFT_SHOULDER⟩,
       some ⟨100, 0, 0.92, RIGHT_SHOULDER⟩, some ⟨25, 150, 0.90, LEFT_HIP⟩,
       some ⟨75, 150, 0.89, RIGHT_HIP⟩⟩ := by
  simp [lookup, farNose, lookupStep, Landmarks.none, NOSE, LEFT_EYE, RIGHT_EYE, LEFT_EAR,
    RIGHT_EAR, LEFT_SHOULDER, RIGHT_SHOULDER, LEFT_ELBOW, RIGHT_ELBOW, LEFT_HIP, RIGHT_HIP]

theorem hasRequired_farNose : HasRequired farNose := by
  unfold HasRequired
  simp only [hasLandmark_iff]
  simp [farNose, NOSE, LEFT_EYE, RIGHT_EYE, LEFT_EAR, RIGHT_EAR, LEFT_SHOULDER,
    RIGHT_SHOULDER, LEFT_ELBOW, RIGHT_ELBOW, LEFT_HIP, RIGHT_HIP]

/-- On `farNose` the value converted to `int` in the head-forward step is
2999999950. -/
theorem farNose_converted :
    headTiltOf (⟨3000000000, -60, 0.95, NOSE⟩ : Keypoint ℝ) ⟨0, 0, 0.93, LEFT_SHOULDER⟩
      ⟨100, 0, 0.92, RIGHT_SHOULDER⟩ / max 1 ((100 : ℝ) - 0) * 100 = 2999999950 := by
  norm_num [headTiltOf, abs_of_nonneg]

/-- The analysis of `farNose` is undefined, whatever the clock reading and the
previous metrics. -/
theorem farNose_undefined (now : Int) (g : PostureMetrics ℝ) :
    analyzePosture realLibm now farNose g = none := by
  apply analyzePosture_real_undefined now farNose g _ _ _ _ _ (by simp [farNose])
    lookup_farNose
  rw [farNose_converted]
  norm_num

end FarNose

section Invariant

/-- A defined analysis with the real `<cmath>` functions keeps
`postureScore ∈ [0, 100]`. -/
theorem analyzePosture_scoreInRange (now : Int) (kps : List (Keypoint ℝ))
    (g g' : PostureMetrics ℝ) (hg : ScoreInRange g)
    (h : analyzePosture realLibm now kps g = some g') : ScoreInRange g' := by
  unfold analyzePosture at h
  split_ifs at h with hlen
  · simp only [Option.some.injEq] at h
    rw [← h]; exact hg
  · split at h
    · rename_i nose ls rs lh rh heq
      obtain ⟨score, hs, hg'⟩ := analyzeFound_some realLibm now nose ls rs lh rh g g' h
      have hdef : headTiltOf nose ls rs / max 1 (rs.x - ls.x) ≤ 0.2 ∨
          headTiltOf nose ls rs / max 1 (rs.x - ls.x) * 100 < 2147483648 := by
        by_contra hn
        rw [not_or, not_le, not_lt] at hn
        rw [rawScore_eq_none _ _ _ _ (by linarith [realLibm_shoulderAngle_lt ls rs])
          (by linarith [realLibm_spineAlignment_le ls rs lh rh]) hn.2] at hs
        cases hs
      rw [rawScore_eq_some _ _ _ _ (by linarith [realLibm_shoulderAngle_lt ls rs])
        (by linarith [realLibm_spineAlignment_le ls rs lh rh]) hdef] at hs
      simp only [Option.some.injEq] at hs
      have b1 := wholeDegreeShoulderPenalty_bounds (shoulderAngleOf realLibm ls rs)
      have b2 := wholeDegreeSpinePenalty_bounds (spineAlignmentOf realLibm ls rs lh rh)
      have b3 := specHeadPenalty_bounds (headTiltOf nose ls rs) (rs.x - ls.x)
      rw [hg']
      show 0 ≤ max 0 score ∧ max 0 score ≤ 100
      exact ⟨le_max_left _ _, max_le (by norm_num) (by omega)⟩
    · simp only [Option.some.injEq] at h
      rw [← h]; exact hg

/-- The entry point `init` keeps `postureScore ∈ [0, 100]`; on an uninitialised
session it stores the default score 0. -/
theorem init_scoreInRange (now1 now2 : Int) (w : World ℝ) (hw : ScoreInRange w.gPosture) :
    ScoreInRange (init now1 now2 w).2.gPosture := by
  unfold init
  split_ifs
  · exact hw
  · exact ⟨le_refl _, by norm_num [PostureMetrics.default]⟩

/-- A defined `runPipeline` call with the real `<cmath>` functions keeps
`postureScore ∈ [0, 100]`. -/
theorem runPipeline_scoreInRange (clk : PipelineClock) (yuvData : Option (List Int))
    (width height : Int) (scoreThreshold : ℝ) (out : OutArrays ℝ) (maxKp : Int) (w : World ℝ)
    (r : PipelineResult ℝ) (hw : ScoreInRange w.gPosture)
    (hr : runPipeline realLibm clk yuvData width height scoreThreshold out maxKp w = some r) :
    ScoreInRange r.world.gPosture := by
  cases yuvData with
  | none =>
    rw [runPipeline_null] at hr
    simp only [Option.some.injEq] at hr
    rw [← hr]; exact hw
  | some d =>
    by_cases h : (runYOLONAS clk.detStart clk.detEnd width height w).1 = []
    · rw [runPipeline_of_nil realLibm clk d width height scoreThreshold out maxKp w h] at hr
      simp only [Option.some.injEq] at hr
      rw [← hr]; exact hw
    · obtain ⟨posture, hp, hres⟩ := runPipeline_detection_some realLibm clk d width height
        scoreThreshold out maxKp w r h hr
      rw [hres]
      exact analyzePosture_scoreInRange _ _ _ _ hw hp

theorem reachable_scoreInRange (w : World ℝ) (hw : Reachable realLibm w) :
    ScoreInRange w.gPosture := by
  induction hw with
  | start => exact ⟨le_refl _, by norm_num [World.initial, PostureMetrics.default]⟩
  | afterInit now1 now2 w _ ih => exact init_scoreInRange now1 now2 w ih
  | afterRunPipeline clk yuvData width height scoreThreshold out maxKp w r _ hr ih =>
    exact runPipeline_scoreInRange clk yuvData width height scoreThreshold out maxKp w r ih hr

end Invariant

/-! ## C2: `postureScore ∈ [0, 100]` -/

/-- C2, the code at the failing input.  With the real `<cmath>` functions the
invariant holds in every reachable state; every `runPipeline` call made in
such a state on a frame whose width is a 32-bit `int` is defined and preserves
it; and every defined `analyzePosture` call preserves it.  On `farNose`
(eleven keypoints with finite coordinates, the five required landmarks
present) the head-forward step converts 2999999950, which exceeds `INT_MAX`,
to `int`: the conversion and with it the whole `analyzePosture` call is
undefined, so the code guarantees no bound on the score it stores. -/
theorem postureScore_undefined_on_farNose :
    (∀ w : World ℝ, Reachable realLibm w → ScoreInRange w.gPosture) ∧
    (∀ (clk : PipelineClock) (yuvData : Option (List Int)) (width height : Int)
        (scoreThreshold : ℝ) (out : OutArrays ℝ) (maxKp : Int) (w : World ℝ),
      Reachable realLibm w → INT_MIN ≤ width ∧ width ≤ INT_MAX →
      ∃ r, runPipeline realLibm clk yuvData width height scoreThreshold out maxKp w = some r ∧
        ScoreInRange r.world.gPosture) ∧
    (∀ (now : Int) (kps : List (Keypoint ℝ)) (g g' : PostureMetrics ℝ), ScoreInRange g →
      analyzePosture realLibm now kps g = some g' → ScoreInRange g') ∧
    10 ≤ farNose.length ∧ HasRequired farNose ∧
    (∀ kp ∈ farNose, |kp.x| ≤ 3000000000 ∧ |kp.y| ≤ 150) ∧
    headTiltOf (⟨3000000000, -60, 0.95, NOSE⟩ : Keypoint ℝ) ⟨0, 0, 0.93, LEFT_SHOULDER⟩
      ⟨100, 0, 0.92, RIGHT_SHOULDER⟩ / max 1 ((100 : ℝ) - 0) * 100 = 2999999950 ∧
    INT_MAX < 2999999950 ∧
    toInt (2999999950 : ℝ) = none ∧
    analyzePosture realLibm 0 farNose
      (init 1000000000 1000000000 (World.initial : World ℝ)).2.gPosture = none := by
  refine ⟨reachable_scoreInRange, ?_, fun now kps g g' hg h =>
      analyzePosture_scoreInRange now kps g g' hg h,
    by simp [farNose], hasRequired_farNose, ?_, farNose_converted, by decide,
    toInt_of_ge (by norm_num), farNose_undefined _ _⟩
  · intro clk yuvData width height scoreThreshold out maxKp w hw hwidth
    obtain ⟨r, hr⟩ := runPipeline_defined_int clk yuvData width height scoreThreshold out maxKp
      w hwidth
    exact ⟨r, hr, runPipeline_scoreInRange clk yuvData width height scoreThreshold out maxKp w r
      (reachable_scoreInRange w hw) hr⟩
  intro kp hkp
  simp only [farNose, List.mem_cons, List.mem_singleton, List.not_mem_nil, or_false] at hkp
  rcases hkp with h | h | h | h | h | h | h | h | h | h | h <;> subst h <;>
    constructor <;> norm_num [abs_le]

/-! ## C3: the label -/

section C3

variable {α : Type} [LinearOrderedField α] [FloorRing α]

theorem nameOf_monotone (a b : Int) (h : a ≤ b) :
    labelRank (nameOf a) ≤ labelRank (nameOf b) := by
  unfold nameOf
  split_ifs <;> first | decide | omega

/-- The chain on the local `score` gives the label of the clamped score. -/
theorem nameOf_max_zero (score : Int) : nameOf (max 0 score) = nameOf score := by
  rcases le_or_lt 0 score with h | h
  · rw [max_eq_right h]
  · rw [max_eq_left h.le]
    unfold nameOf
    rw [if_neg (by omega), if_neg (by omega), if_neg (by omega), if_neg (by omega),
      if_neg (by omega), if_neg (by omega)]

/-- C3, the code at the failing input.  After every defined `analyzePosture`
call that passes its guards the stored label is the step function `nameOf` of
the stored (clamped) score, which is monotone and maps 79, 80, 59, 60, 39, 40
to Good, Excellent, Fair, Good, Poor, Fair.  On `farNose`, which passes the
guards, the call is undefined for every clock reading and every previous
record (the conversion of 2999999950 to `int`), so the code guarantees no
relation between the label and the score it stores. -/
theorem label_undefined_on_farNose :
    (∀ (m : Libm α) (now : Int) (kps : List (Keypoint α)) (g g' : PostureMetrics α),
      10 ≤ kps.length → HasRequired kps → analyzePosture m now kps g = some g' →
      g'.postureName = nameOf g'.postureScore) ∧
    (∀ a b : Int, a ≤ b → labelRank (nameOf a) ≤ labelRank (nameOf b)) ∧
    (nameOf 79 = "Good" ∧ nameOf 80 = "Excellent" ∧ nameOf 59 = "Fair" ∧
      nameOf 60 = "Good" ∧ nameOf 39 = "Poor" ∧ nameOf 40 = "Fair") ∧
    10 ≤ farNose.length ∧ HasRequired farNose ∧
    (∀ (now : Int) (g : PostureMetrics ℝ), analyzePosture realLibm now farNose g = none) := by
  refine ⟨?_, nameOf_monotone, ⟨by decide, by decide, by decide, by decide, by decide,
    by decide⟩, by simp [farNose], hasRequired_farNose, farNose_undefined⟩
  intro m now kps g g' hlen hreq h
  obtain ⟨nose, ls, rs, lh, rh, hl⟩ := lookup_of_hasRequired kps hreq
  rw [analyzePosture_of_lookup m now kps g hlen _ _ _ _ _ hl] at h
  obtain ⟨score, -, hg'⟩ := analyzeFound_some m now nose ls rs lh rh g g' h
  rw [hg']
  show nameOf score = nameOf (max 0 score)
  rw [nameOf_max_zero]

end C3

/-! ## C10: the guards -/

section C10

variable {α : Type} [LinearOrderedField α] [FloorRing α]

/-- C10: `analyzePosture` is a no-op whenever a guard fails: for every keypoint
set with fewer than 10 elements, and for every keypoint set lacking a keypoint
with the id of the nose, of a shoulder or of a hip, the call is defined and
the whole `PostureMetrics` record (three angles, score, label, start
timestamp, duration) is returned unchanged. -/
theorem analyzePosture_guard_noop (m : Libm α) (now : Int) (kps : List (Keypoint α))
    (g : PostureMetrics α)
    (h : kps.length < 10 ∨ ¬ HasLandmark kps NOSE ∨ ¬ HasLandmark kps LEFT_SHOULDER ∨
      ¬ HasLandmark kps RIGHT_SHOULDER ∨ ¬ HasLandmark kps LEFT_HIP ∨
      ¬ HasLandmark kps RIGHT_HIP) :
    analyzePosture m now kps g = some g := by
  unfold analyzePosture
  split_ifs with hlen
  · rfl
  · have hnot : ∀ c, ¬ HasLandmark kps c → ∀ kp ∈ kps, kp.id ≠ c :=
      fun c hc kp hkp e => hc ⟨kp, hkp, e⟩
    split
    · rename_i nose ls rs lh rh heq
      exfalso
      rcases h with h | h | h | h | h | h
      · exact hlen h
      · have := (lookup_nose_none kps).2 (hnot _ h); rw [heq] at this; cases this
      · have := (lookup_leftShoulder_none kps).2 (hnot _ h); rw [heq] at this; cases this
      · have := (lookup_rightShoulder_none kps).2 (hnot _ h); rw [heq] at this; cases this
      · have := (lookup_leftHip_none kps).2 (hnot _ h); rw [heq] at this; cases this
      · have := (lookup_rightHip_none kps).2 (hnot _ h); rw [heq] at this; cases this
    · rfl

end C10

/-- C10, witness: the first nine keypoints of `leaningPose` fail the size
guard, and `leaningPose` without its first element (ten keypoints, no nose)
fails the landmark guard; both calls return the metrics they were given. -/
theorem analyzePosture_guard_noop_witness :
    (leaningPose.take 9).length < 10 ∧
    analyzePosture realLibm 5 (leaningPose.take 9) PostureMetrics.default
      = some PostureMetrics.default ∧
    leaningPose.tail.length = 10 ∧ ¬ HasLandmark leaningPose.tail NOSE ∧
    analyzePosture realLibm 5 leaningPose.tail PostureMetrics.default
      = some PostureMetrics.default := by
  have h1 : (leaningPose.take 9).length < 10 := by simp [leaningPose]
  have h2 : ¬ HasLandmark leaningPose.tail NOSE := by
    rintro ⟨kp, hkp, hid⟩
    simp only [leaningPose, List.tail_cons, List.mem_cons, List.mem_singleton,
      List.not_mem_nil, or_false] at hkp
    rcases hkp with h | h | h | h | h | h | h | h | h | h <;>
      (rw [h] at hid; revert hid; decide)
  exact ⟨h1, analyzePosture_guard_noop realLibm 5 _ _ (Or.inl h1), by simp [leaningPose], h2,
    analyzePosture_guard_noop realLibm 5 _ _ (Or.inr (Or.inl h2))⟩
/-! ## Lemmas on the copy loop -/

section Splice

variable {β : Type}

theorem splice_nil (l : List β) (n : Nat) : splice l n [] = l := by
  simp [splice]

theorem splice_set (l : List β) (n : Nat) (a : β) (vs : List β) (h : n < l.length) :
    splice (l.set n a) (n + 1) vs = splice l n (a :: vs) := by
  unfold splice
  rw [List.set_eq_take_append_cons_drop, if_pos h]
  have hlen : (List.take n l).length = n := by
    rw [List.length_take]; exact min_eq_left (le_of_lt h)
  have e1 : List.take (n + 1) (List.take n l ++ a :: List.drop (n + 1) l)
      = List.take n l ++ [a] := by
    rw [List.take_append_eq_append_take, hlen, List.take_take]
    simp
  have e2 : List.drop (n + 1 + vs.length) (List.take n l ++ a :: List.drop (n + 1) l)
      = List.drop (n + (a :: vs).length) l := by
    rw [List.drop_append_eq_append_drop, hlen]
    have h0 : List.drop (n + 1 + vs.length) (List.take n l) = [] := by
      apply List.drop_of_length_le; omega
    have h1 : n + 1 + vs.length - n = vs.length + 1 := by omega
    rw [h0, h1, List.nil_append, List.drop_succ_cons, List.drop_drop, List.length_cons]
    congr 1; omega
  rw [e1, e2]
  simp

theorem splice_length (l : List β) (n : Nat) (vs : List β) (h : n + vs.length ≤ l.length) :
    (splice l n vs).length = l.length := by
  unfold splice
  simp only [List.length_append, List.length_take, List.length_drop]
  omega

/-- The overwritten slots hold the new values, the slots after them the old. -/
theorem splice_zero (l : List β) (vs : List β) :
    splice l 0 vs = vs ++ l.drop vs.length := by
  simp [splice]

end Splice

section CopyLoop

variable {α : Type} [LinearOrderedField α]

/-- Loop invariant of the copy loop started at `validCount = n`: it appends
the keypoints passing the threshold while fewer than `maxKp` are stored. -/
theorem foldl_copyStep (scoreThreshold : α) (maxKp : Int) (kps : List (Keypoint α)) :
    ∀ (n : Nat) (out : OutArrays α),
      n + ((kps.filter (fun kp => decide (kp.score ≥ scoreThreshold))).take
            (maxKp - n).toNat).length ≤ out.ids.length →
      n + ((kps.filter (fun kp => decide (kp.score ≥ scoreThreshold))).take
            (maxKp - n).toNat).length ≤ out.xs.length →
      n + ((kps.filter (fun kp => decide (kp.score ≥ scoreThreshold))).take
            (maxKp - n).toNat).length ≤ out.ys.length →
      n + ((kps.filter (fun kp => decide (kp.score ≥ scoreThreshold))).take
            (maxKp - n).toNat).length ≤ out.scores.length →
      kps.foldl (copyStep scoreThreshold maxKp) ((n : Int), out) =
        (((n + ((kps.filter (fun kp => decide (kp.score ≥ scoreThreshold))).take
              (maxKp - n).toNat).length : Nat) : Int),
         { ids := splice out.ids n
             (((kps.filter (fun kp => decide (kp.score ≥ scoreThreshold))).take
               (maxKp - n).toNat).map (fun kp => kp.id))
           xs := splice out.xs n
             (((kps.filter (fun kp => decide (kp.score ≥ scoreThreshold))).take
               (maxKp - n).toNat).map (fun kp => kp.x))
           ys := splice out.ys n
             (((kps.filter (fun kp => decide (kp.score ≥ scoreThreshold))).take
               (maxKp - n).toNat).map (fun kp => kp.y))
           scores := splice out.scores n
             (((kps.filter (fun kp => decide (kp.score ≥ scoreThreshold))).take
               (maxKp - n).toNat).map (fun kp => kp.score)) }) := by
  induction kps with
  | nil =>
    intro n out _ _ _ _
    simp [splice_nil]
  | cons kp rest ih =>
    intro n out h1 h2 h3 h4
    rw [List.foldl_cons]
    by_cases hp : kp.score ≥ scoreThreshold
    · by_cases hn : (n : Int) < maxKp
      · have hk : (maxKp - (n : Int)).toNat = (maxKp - ((n + 1 : Nat) : Int)).toNat + 1 := by
          push_cast; omega
        have hf : (kp :: rest).filter (fun kp => decide (kp.score ≥ scoreThreshold))
            = kp :: rest.filter (fun kp => decide (kp.score ≥ scoreThreshold)) := by
          simp [List.filter_cons, hp]
        rw [hf, hk, List.take_succ_cons] at h1 h2 h3 h4 ⊢
        simp only [List.length_cons] at h1 h2 h3 h4
        have hstep : copyStep scoreThreshold maxKp ((n : Int), out) kp =
            (((n + 1 : Nat) : Int),
             { ids := out.ids.set n kp.id, xs := out.xs.set n kp.x,
               ys := out.ys.set n kp.y, scores := out.scores.set n kp.score }) := by
          unfold copyStep
          rw [if_pos ⟨hp, hn⟩]
          simp
        rw [hstep, ih (n + 1) _ (by simp only [List.length_set]; omega)
          (by simp only [List.length_set]; omega) (by simp only [List.length_set]; omega)
          (by simp only [List.length_set]; omega)]
        simp only [List.map_cons, List.length_cons]
        rw [splice_set _ _ _ _ (by omega), splice_set _ _ _ _ (by omega),
          splice_set _ _ _ _ (by omega), splice_set _ _ _ _ (by omega)]
        congr 2
        omega
      · have hk : (maxKp - (n : Int)).toNat = 0 := by omega
        have hstep : copyStep scoreThreshold maxKp ((n : Int), out) kp = ((n : Int), out) := by
          unfold copyStep
          rw [if_neg (fun h => hn h.2)]
        rw [hstep]
        rw [hk] at h1 h2 h3 h4
        simp only [List.take_zero, List.length_nil, add_zero] at h1 h2 h3 h4
        have := ih n out (by rw [hk]; simpa using h1) (by rw [hk]; simpa using h2)
          (by rw [hk]; simpa using h3) (by rw [hk]; simpa using h4)
        rw [this, hk]
        simp
    · have hf : (kp :: rest).filter (fun kp => decide (kp.score ≥ scoreThreshold))
          = rest.filter (fun kp => decide (kp.score ≥ scoreThreshold)) := by
        simp [List.filter_cons, hp]
      have hstep : copyStep scoreThreshold maxKp ((n : Int), out) kp = ((n : Int), out) := by
        unfold copyStep
        rw [if_neg (fun h => hp h.1)]
      rw [hf] at h1 h2 h3 h4 ⊢
      rw [hstep]
      exact ih n out h1 h2 h3 h4

/-- The copy loop writes the selected keypoints to the front of the four
arrays and returns their number, as long as the stores stay inside the arrays. -/
theorem copyOut_eq (scoreThreshold : α) (maxKp : Int) (kps : List (Keypoint α))
    (out : OutArrays α)
    (h1 : (selected scoreThreshold maxKp kps).length ≤ out.ids.length)
    (h2 : (selected scoreThreshold maxKp kps).length ≤ out.xs.length)
    (h3 : (selected scoreThreshold maxKp kps).length ≤ out.ys.length)
    (h4 : (selected scoreThreshold maxKp kps).length ≤ out.scores.length) :
    copyOut scoreThreshold maxKp kps out =
      (((selected scoreThreshold maxKp kps).length : Int),
       { ids := (selected scoreThreshold maxKp kps).map (fun kp => kp.id)
                  ++ out.ids.drop (selected scoreThreshold maxKp kps).length
         xs := (selected scoreThreshold maxKp kps).map (fun kp => kp.x)
                  ++ out.xs.drop (selected scoreThreshold maxKp kps).length
         ys := (selected scoreThreshold maxKp kps).map (fun kp => kp.y)
                  ++ out.ys.drop (selected scoreThreshold maxKp kps).length
         scores := (selected scoreThreshold maxKp kps).map (fun kp => kp.score)
                  ++ out.scores.drop (selected scoreThreshold maxKp kps).length }) := by
  unfold selected at *
  have h := foldl_copyStep scoreThreshold maxKp kps 0 out
    (by simpa using h1) (by simpa using h2) (by simpa using h3) (by simpa using h4)
  unfold copyOut
  simp only [Nat.cast_zero, sub_zero, zero_add, splice_zero, List.length_map] at h
  exact h

end CopyLoop

/-! ## C4: the keypoints written -/

section C4

variable {α : Type} [LinearOrderedField α] [FloorRing α]

/-- C4: on every frame where a person is detected, for every threshold and
capacity (the stores staying inside the caller's arrays), the four output
arrays hold in their first `count` slots the id, x, y and score of exactly the
first `maxKp` of the estimator's 17 keypoints with score at least the
threshold, in estimator order, and their old contents in every slot from
`count` on; the returned count is the number written, it is at most
`max(0, maxKp)` and at most 17, every written score is at least the threshold
and the written ids are strictly increasing. -/
theorem runPipeline_writes_selected (m : Libm α) (clk : PipelineClock) (d : List Int)
    (width height : Int) (scoreThreshold : α) (out : OutArrays α) (maxKp : Int) (w : World α)
    (sel : List (Keypoint α)) (r : PipelineResult α)
    (hdet : (runYOLONAS clk.detStart clk.detEnd width height w).1 ≠ [])
    (hsel : sel = selected scoreThreshold maxKp (estimate m width height w))
    (hr : runPipeline m clk (some d) width height scoreThreshold out maxKp w = some r)
    (h1 : sel.length ≤ out.ids.length) (h2 : sel.length ≤ out.xs.length)
    (h3 : sel.length ≤ out.ys.length) (h4 : sel.length ≤ out.scores.length) :
    (estimate m width height w).length = 17 ∧
    r.ret = (sel.length : Int) ∧
    r.out.ids = sel.map (fun kp => kp.id) ++ out.ids.drop sel.length ∧
    r.out.xs = sel.map (fun kp => kp.x) ++ out.xs.drop sel.length ∧
    r.out.ys = sel.map (fun kp => kp.y) ++ out.ys.drop sel.length ∧
    r.out.scores = sel.map (fun kp => kp.score) ++ out.scores.drop sel.length ∧
    r.ret ≤ max 0 maxKp ∧ r.ret ≤ 17 ∧
    (∀ kp ∈ sel, kp.score ≥ scoreThreshold) ∧
    (sel.map (fun kp => kp.id)).Pairwise (fun a b => a < b) := by
  subst hsel
  obtain ⟨posture, -, hres⟩ := runPipeline_detection_some m clk d width height scoreThreshold
    out maxKp w r hdet hr
  have hc := copyOut_eq scoreThreshold maxKp (estimate m width height w) out h1 h2 h3 h4
  have hlen : (estimate m width height w).length = 17 := poseKeypoints_length _ _ _
  have hret : r.ret = ((selected scoreThreshold maxKp (estimate m width height w)).length : Int) := by
    rw [hres]
    show (copyOut scoreThreshold maxKp (estimate m width height w) out).1 = _
    rw [hc]
  have hout : r.out = (copyOut scoreThreshold maxKp (estimate m width height w) out).2 := by
    rw [hres]
    rfl
  rw [hc] at hout
  have hsub := selected_sublist scoreThreshold maxKp (estimate m width height w)
  refine ⟨hlen, hret, by rw [hout], by rw [hout], by rw [hout], by rw [hout], ?_, ?_,
    selected_score scoreThreshold maxKp _, ?_⟩
  · rw [hret]; exact selected_length_le _ _ _
  · rw [hret]
    have := hsub.length_le
    omega
  · have hs := hsub.map (fun kp => kp.id)
    have hids : (estimate m width height w).map (fun kp => kp.id) =
        [0, 1, 2, 3, 4, 5, 6, 7, 8, 9, 10, 11, 12, 13, 14, 15, 16] := poseKeypoints_ids _ _ _
    rw [hids] at hs
    exact List.Pairwise.sublist hs (by decide)

end C4

section C4Witness

theorem initial_detects (t : Int) (width height : Int) :
    (runYOLONAS (clockAt t).detStart (clockAt t).detEnd width height
      (World.initial : World ℝ)).1 ≠ [] := by
  rw [Ne, runYOLONAS_nil_iff]
  simp only [World.initial, not_not]
  decide

theorem selected_point_nine :
    (selected (0.9 : ℝ) 2 (estimate realLibm 640 480 World.initial)).map (fun kp => kp.id)
      = [0, 5] := by
  simp only [selected, estimate, poseKeypoints, List.filter]
  norm_num [NOSE, LEFT_SHOULDER]
  rfl

theorem selected_zero :
    (selected (0 : ℝ) 2 (estimate realLibm 640 480 World.initial)).map (fun kp => kp.id)
      = [0, 1] := by
  simp only [selected, estimate, poseKeypoints, List.filter]
  norm_num [NOSE, LEFT_EYE]
  rfl

end C4Witness

/-- C4, witness: the first call at program start detects a person and is
defined; with threshold 0.9 and capacity 2 it returns 2 and writes the ids of
nose and left shoulder into the first two slots, leaving the other fifteen at
`-1`. -/
theorem runPipeline_writes_selected_witness :
    ∃ r, runPipeline realLibm (clockAt 0) (some []) 640 480 (0.9 : ℝ) blankOut 2
        World.initial = some r ∧
      r.ret = 2 ∧ r.out.ids = [0, 5] ++ List.replicate 15 (-1) := by
  have hl : (selected (0.9 : ℝ) 2 (estimate realLibm 640 480 World.initial)).length = 2 := by
    have := congrArg List.length selected_point_nine
    simpa using this
  obtain ⟨r, hr⟩ := runPipeline_defined (clockAt 0) (some []) 640 480 (0.9 : ℝ) blankOut 2
    World.initial (by norm_num) (by norm_num)
  obtain ⟨-, hret, hids, -⟩ :=
    runPipeline_writes_selected realLibm (clockAt 0) [] 640 480 (0.9 : ℝ) blankOut 2
      World.initial _ r (initial_detects 0 640 480) rfl hr
      (by rw [hl]; simp [blankOut]) (by rw [hl]; simp [blankOut])
      (by rw [hl]; simp [blankOut]) (by rw [hl]; simp [blankOut])
  refine ⟨r, hr, ?_, ?_⟩
  · rw [hret, hl]; rfl
  · rw [hids, selected_point_nine, hl]
    simp [blankOut]

/-! ## C5: the threshold law -/

section C5

variable {α : Type} [LinearOrderedField α] [FloorRing α]

/-- On a detecting frame the returned ids are those of the selected keypoints. -/
theorem returnedIds_detection (m : Libm α) (clk : PipelineClock) (d : List Int)
    (width height : Int) (scoreThreshold : α) (out : OutArrays α) (maxKp : Int) (w : World α)
    (r : PipelineResult α)
    (hdet : (runYOLONAS clk.detStart clk.detEnd width height w).1 ≠ [])
    (hr : runPipeline m clk (some d) width height scoreThreshold out maxKp w = some r)
    (h1 : (selected scoreThreshold maxKp (estimate m width height w)).length ≤ out.ids.length)
    (h2 : (selected scoreThreshold maxKp (estimate m width height w)).length ≤ out.xs.length)
    (h3 : (selected scoreThreshold maxKp (estimate m width height w)).length ≤ out.ys.length)
    (h4 : (selected scoreThreshold maxKp (estimate m width height w)).length
            ≤ out.scores.length) :
    returnedIds r =
      (selected scoreThreshold maxKp (estimate m width height w)).map (fun kp => kp.id) := by
  obtain ⟨posture, -, hres⟩ := runPipeline_detection_some m clk d width height scoreThreshold
    out maxKp w r hdet hr
  have hc := copyOut_eq scoreThreshold maxKp (estimate m width height w) out h1 h2 h3 h4
  rw [hres]
  show List.take (copyOut scoreThreshold maxKp (estimate m width height w) out).1.toNat
    (copyOut scoreThreshold maxKp (estimate m width height w) out).2.ids = _
  rw [hc]
  simp only [Int.toNat_ofNat]
  exact List.take_left' (by simp)

/-- C5, amended: for every frame on which a person is detected and every pair
of thresholds `T1 ≤ T2`, if the capacity is at least the number of keypoints
passing `T1` (so the `T1` result is not cut; always so when `maxKp ≥ 17`) and
the stores stay inside the caller's arrays, every landmark identity returned
with threshold `T2` is also returned with threshold `T1`. -/
theorem threshold_law_untruncated (m : Libm α) (clk : PipelineClock) (d : List Int)
    (width height : Int) (T1 T2 : α) (out : OutArrays α) (maxKp : Int) (w : World α)
    (r1 r2 : PipelineResult α)
    (hdet : (runYOLONAS clk.detStart clk.detEnd width height w).1 ≠ [])
    (hr1 : runPipeline m clk (some d) width height T1 out maxKp w = some r1)
    (hr2 : runPipeline m clk (some d) width height T2 out maxKp w = some r2)
    (hT : T1 ≤ T2)
    (hcap : ((((estimate m width height w).filter
      (fun kp => decide (kp.score ≥ T1))).length : Nat) : Int) ≤ maxKp)
    (h1 : ((estimate m width height w).filter
      (fun kp => decide (kp.score ≥ T1))).length ≤ out.ids.length)
    (h2 : ((estimate m width height w).filter
      (fun kp => decide (kp.score ≥ T1))).length ≤ out.xs.length)
    (h3 : ((estimate m width height w).filter
      (fun kp => decide (kp.score ≥ T1))).length ≤ out.ys.length)
    (h4 : ((estimate m width height w).filter
      (fun kp => decide (kp.score ≥ T1))).length ≤ out.scores.length) :
    ∀ id ∈ returnedIds r2, id ∈ returnedIds r1 := by
  have hsel1 : selected T1 maxKp (estimate m width height w) =
      (estimate m width height w).filter (fun kp => decide (kp.score ≥ T1)) := by
    unfold selected
    apply List.take_of_length_le
    omega
  have hsub : ((estimate m width height w).filter (fun kp => decide (kp.score ≥ T2))).Sublist
      ((estimate m width height w).filter (fun kp => decide (kp.score ≥ T1))) := by
    apply List.monotone_filter_right
    intro kp hkp
    simp only [decide_eq_true_eq] at hkp ⊢
    exact le_trans hT hkp
  have hsub2 : (selected T2 maxKp (estimate m width height w)).Sublist
      ((estimate m width height w).filter (fun kp => decide (kp.score ≥ T1))) :=
    (List.take_sublist _ _).trans hsub
  have hl2 := hsub2.length_le
  rw [returnedIds_detection m clk d width height T1 out maxKp w r1 hdet hr1
        (by rw [hsel1]; exact h1) (by rw [hsel1]; exact h2) (by rw [hsel1]; exact h3)
        (by rw [hsel1]; exact h4),
      returnedIds_detection m clk d width height T2 out maxKp w r2 hdet hr2
        (by omega) (by omega) (by omega) (by omega), hsel1]
  intro id hid
  exact (hsub2.map (fun kp => kp.id)).subset hid

end C5

section C5Concrete

theorem selected_point_nine_length :
    (selected (0.9 : ℝ) 2 (estimate realLibm 640 480 World.initial)).length = 2 := by
  have := congrArg List.length selected_point_nine
  simpa using this

theorem selected_zero_length :
    (selected (0 : ℝ) 2 (estimate realLibm 640 480 World.initial)).length = 2 := by
  have := congrArg List.length selected_zero
  simpa using this

theorem returnedIds_point_nine (r : PipelineResult ℝ)
    (hr : runPipeline realLibm (clockAt 0) (some []) 640 480 (0.9 : ℝ) blankOut 2
      World.initial = some r) :
    returnedIds r = [0, 5] := by
  rw [returnedIds_detection realLibm (clockAt 0) [] 640 480 (0.9 : ℝ) blankOut 2
    World.initial r (initial_detects 0 640 480) hr
    (by rw [selected_point_nine_length]; simp [blankOut])
    (by rw [selected_point_nine_length]; simp [blankOut])
    (by rw [selected_point_nine_length]; simp [blankOut])
    (by rw [selected_point_nine_length]; simp [blankOut])]
  exact selected_point_nine

theorem returnedIds_zero (r : PipelineResult ℝ)
    (hr : runPipeline realLibm (clockAt 0) (some []) 640 480 (0 : ℝ) blankOut 2
      World.initial = some r) :
    returnedIds r = [0, 1] := by
  rw [returnedIds_detection realLibm (clockAt 0) [] 640 480 (0 : ℝ) blankOut 2
    World.initial r (initial_detects 0 640 480) hr
    (by rw [selected_zero_length]; simp [blankOut])
    (by rw [selected_zero_length]; simp [blankOut])
    (by rw [selected_zero_length]; simp [blankOut])
    (by rw [selected_zero_length]; simp [blankOut])]
  exact selected_zero

/-- C5, counterexample: on the first frame after program start (a person is
detected, both calls are defined) with capacity 2, threshold 0 returns the ids
`[0, 1]` (nose, left eye) and threshold 0.9 returns `[0, 5]` (nose, left
shoulder): the left shoulder is returned for the higher threshold and not for
the lower one. -/
theorem threshold_law_counterexample :
    (0 : ℝ) < 0.9 ∧
    (runYOLONAS (clockAt 0).detStart (clockAt 0).detEnd 640 480
      (World.initial : World ℝ)).1 ≠ [] ∧
    ∃ r1 r2,
      runPipeline realLibm (clockAt 0) (some []) 640 480 (0 : ℝ) blankOut 2 World.initial
        = some r1 ∧
      runPipeline realLibm (clockAt 0) (some []) 640 480 (0.9 : ℝ) blankOut 2 World.initial
        = some r2 ∧
      returnedIds r1 = [0, 1] ∧ returnedIds r2 = [0, 5] ∧
      ¬ (∀ id ∈ returnedIds r2, id ∈ returnedIds r1) := by
  obtain ⟨r1, hr1⟩ := runPipeline_defined (clockAt 0) (some []) 640 480 (0 : ℝ) blankOut 2
    World.initial (by norm_num) (by norm_num)
  obtain ⟨r2, hr2⟩ := runPipeline_defined (clockAt 0) (some []) 640 480 (0.9 : ℝ) blankOut 2
    World.initial (by norm_num) (by norm_num)
  refine ⟨by norm_num, initial_detects 0 640 480, r1, r2, hr1, hr2, returnedIds_zero r1 hr1,
    returnedIds_point_nine r2 hr2, ?_⟩
  rw [returnedIds_zero r1 hr1, returnedIds_point_nine r2 hr2]
  decide

end C5Concrete

/-- C5, witness: on the first frame after program start with capacity 17,
both calls are defined and every id returned for threshold 0.9 is returned for
threshold 0.5. -/
theorem threshold_law_untruncated_witness :
    (0.5 : ℝ) ≤ 0.9 ∧
    ∃ r1 r2,
      runPipeline realLibm (clockAt 0) (some []) 640 480 (0.5 : ℝ) blankOut 17 World.initial
        = some r1 ∧
      runPipeline realLibm (clockAt 0) (some []) 640 480 (0.9 : ℝ) blankOut 17 World.initial
        = some r2 ∧
      ∀ id ∈ returnedIds r2, id ∈ returnedIds r1 := by
  have hlen : ((estimate realLibm 640 480 (World.initial : World ℝ)).filter
      (fun kp => decide (kp.score ≥ (0.5 : ℝ)))).length ≤ 17 := by
    have h := List.length_filter_le (fun kp : Keypoint ℝ => decide (kp.score ≥ (0.5 : ℝ)))
      (estimate realLibm 640 480 (World.initial : World ℝ))
    have h17 : (estimate realLibm 640 480 (World.initial : World ℝ)).length = 17 :=
      poseKeypoints_length _ _ _
    omega
  obtain ⟨r1, hr1⟩ := runPipeline_defined (clockAt 0) (some []) 640 480 (0.5 : ℝ) blankOut 17
    World.initial (by norm_num) (by norm_num)
  obtain ⟨r2, hr2⟩ := runPipeline_defined (clockAt 0) (some []) 640 480 (0.9 : ℝ) blankOut 17
    World.initial (by norm_num) (by norm_num)
  exact ⟨by norm_num, r1, r2, hr1, hr2,
    threshold_law_untruncated realLibm (clockAt 0) [] 640 480 (0.5 : ℝ) (0.9 : ℝ) blankOut 17
      World.initial r1 r2 (initial_detects 0 640 480) hr1 hr2 (by norm_num)
      (by exact_mod_cast hlen)
      (by simpa [blankOut] using hlen) (by simpa [blankOut] using hlen)
      (by simpa [blankOut] using hlen) (by simpa [blankOut] using hlen)⟩
/-! ## C6: the no-detection path -/

section C6

variable {α : Type} [LinearOrderedField α] [FloorRing α]

/-- C6: when the detector returns no region, `runPipeline` is defined, returns
0, leaves the output arrays alone, empties `gLastPose`, sets
`gPosture.startTime` to the zero-epoch value and writes
`gMetrics.detectionTimeMs`; `frameCount`, `fps`, `totalTimeMs`, `poseTimeMs`,
`lastFrameTime`, the three posture angles, `postureScore`, `postureName`,
`durationSeconds` and `gInitialized` keep their values.  (The detector's own
static `frameCounter` has advanced by one, the estimator's has not moved.) -/
theorem runPipeline_no_detection (m : Libm α) (clk : PipelineClock) (d : List Int)
    (width height : Int) (scoreThreshold : α) (out : OutArrays α) (maxKp : Int) (w : World α)
    (h : (runYOLONAS clk.detStart clk.detEnd width height w).1 = []) :
    ∃ r, runPipeline m clk (some d) width height scoreThreshold out maxKp w = some r ∧
      r.ret = 0 ∧ r.out = out ∧
      r.world =
        { gInitialized := w.gInitialized
          gMetrics :=
            { detectionTimeMs := toMillis (clk.detEnd - clk.detStart)
              poseTimeMs := w.gMetrics.poseTimeMs
              totalTimeMs := w.gMetrics.totalTimeMs
              fps := w.gMetrics.fps
              frameCount := w.gMetrics.frameCount
              lastFrameTime := w.gMetrics.lastFrameTime }
          gPosture :=
            { shoulderAngle := w.gPosture.shoulderAngle
              spineAlignment := w.gPosture.spineAlignment
              headTilt := w.gPosture.headTilt
              postureScore := w.gPosture.postureScore
              postureName := w.gPosture.postureName
              startTime := 0
              durationSeconds := w.gPosture.durationSeconds }
          gLastPose := []
          frameCounter := w.frameCounter + 1
          poseFrameCounter := w.poseFrameCounter } :=
  ⟨_, runPipeline_of_nil m clk d width height scoreThreshold out maxKp w h, rfl, rfl, rfl⟩

end C6

section Timer

variable {α : Type} [LinearOrderedField α] [FloorRing α]

/-- The timer fields after a defined detecting `runPipeline` call. -/
theorem runPipeline_detection_timer (m : Libm α) (clk : PipelineClock) (d : List Int)
    (width height : Int) (scoreThreshold : α) (out : OutArrays α) (maxKp : Int) (w : World α)
    (r : PipelineResult α)
    (hdet : (runYOLONAS clk.detStart clk.detEnd width height w).1 ≠ [])
    (hr : runPipeline m clk (some d) width height scoreThreshold out maxKp w = some r) :
    r.world.gPosture.startTime
      = (if w.gPosture.startTime = 0 then clk.analysisNow else w.gPosture.startTime) ∧
    r.world.gPosture.durationSeconds
      = toSeconds (clk.analysisNow -
          (if w.gPosture.startTime = 0 then clk.analysisNow else w.gPosture.startTime)) := by
  obtain ⟨posture, hp, hres⟩ := runPipeline_detection_some m clk d width height scoreThreshold
    out maxKp w r hdet hr
  rw [hres]
  exact analyzePosture_timer m clk.analysisNow _ w.gPosture posture
    (by rw [poseKeypoints_length]; norm_num) (hasRequired_poseKeypoints _ _ _) hp

/-- A defined call on a frame advances the detector's counter by one. -/
theorem runPipeline_frameCounter (m : Libm α) (clk : PipelineClock) (d : List Int)
    (width height : Int) (scoreThreshold : α) (out : OutArrays α) (maxKp : Int) (w : World α)
    (r : PipelineResult α)
    (hr : runPipeline m clk (some d) width height scoreThreshold out maxKp w = some r) :
    r.world.frameCounter = w.frameCounter + 1 := by
  by_cases h : (runYOLONAS clk.detStart clk.detEnd width height w).1 = []
  · rw [runPipeline_of_nil m clk d width height scoreThreshold out maxKp w h] at hr
    simp only [Option.some.injEq] at hr
    rw [← hr]
  · obtain ⟨posture, -, hres⟩ := runPipeline_detection_some m clk d width height scoreThreshold
      out maxKp w r h hr
    rw [hres]
    rfl

/-- A defined call never changes `gInitialized`. -/
theorem runPipeline_gInitialized (m : Libm α) (clk : PipelineClock)
    (yuvData : Option (List Int)) (width height : Int) (scoreThreshold : α)
    (out : OutArrays α) (maxKp : Int) (w : World α) (r : PipelineResult α)
    (hr : runPipeline m clk yuvData width height scoreThreshold out maxKp w = some r) :
    r.world.gInitialized = w.gInitialized := by
  cases yuvData with
  | none =>
    rw [runPipeline_null] at hr
    simp only [Option.some.injEq] at hr
    rw [← hr]
  | some d =>
    by_cases h : (runYOLONAS clk.detStart clk.detEnd width height w).1 = []
    · rw [runPipeline_of_nil m clk d width height scoreThreshold out maxKp w h] at hr
      simp only [Option.some.injEq] at hr
      rw [← hr]
    · obtain ⟨posture, -, hres⟩ := runPipeline_detection_some m clk d width height
        scoreThreshold out maxKp w r h hr
      rw [hres]
      rfl

end Timer

section Concrete

theorem longSession_no_detection (clk : PipelineClock) (width height : Int) :
    (runYOLONAS clk.detStart clk.detEnd width height longSession).1 = [] := by
  rw [runYOLONAS_nil_iff]
  simp only [longSession]
  decide

/-- The state a call that detects nobody leaves from `longSession`: the next
call detects a person. -/
theorem longSession_then_detection (m : Libm ℝ) (clk1 clk2 : PipelineClock) (d : List Int)
    (width1 height1 width2 height2 : Int) (T : ℝ) (out : OutArrays ℝ) (maxKp : Int)
    (r : PipelineResult ℝ)
    (hr : runPipeline m clk1 (some d) width1 height1 T out maxKp longSession = some r) :
    (runYOLONAS clk2.detStart clk2.detEnd width2 height2 r.world).1 ≠ [] := by
  rw [runPipeline_of_nil m clk1 d width1 height1 T out maxKp longSession
      (longSession_no_detection clk1 width1 height1)] at hr
  simp only [Option.some.injEq] at hr
  rw [← hr, Ne, runYOLONAS_nil_iff]
  simp only [longSession, not_not]
  decide

/-- Every call of the session `sessionAfter` is defined. -/
theorem sessionAfter_step (n : Nat) :
    ∃ r, runPipeline realLibm (clockAt (((n : Int) + 2) * 1000000000)) (some []) 640 480 0.5
        blankOut 17 (sessionAfter n) = some r ∧
      sessionAfter (n + 1) = r.world := by
  obtain ⟨r, hr⟩ := runPipeline_defined (clockAt (((n : Int) + 2) * 1000000000)) (some [])
    640 480 0.5 blankOut 17 (sessionAfter n) (by norm_num) (by norm_num)
  refine ⟨r, hr, ?_⟩
  rw [sessionAfter, hr]

theorem sessionAfter_reachable (n : Nat) : Reachable realLibm (sessionAfter n) := by
  induction n with
  | zero => exact Reachable.afterInit _ _ _ Reachable.start
  | succ n ih =>
    obtain ⟨r, hr, hs⟩ := sessionAfter_step n
    rw [hs]
    exact Reachable.afterRunPipeline _ _ _ _ _ _ _ _ r ih hr

theorem sessionAfter_frameCounter (n : Nat) : (sessionAfter n).frameCounter = n := by
  induction n with
  | zero => rfl
  | succ n ih =>
    obtain ⟨r, hr, hs⟩ := sessionAfter_step n
    rw [hs, runPipeline_frameCounter realLibm _ [] 640 480 0.5 blankOut 17 (sessionAfter n) r hr,
      ih]
    push_cast
    ring

theorem sessionAfter_detects (n : Nat) (clk : PipelineClock) (width height : Int)
    (h : ((n : Int) + 1).tmod 10 < 7) :
    (runYOLONAS clk.detStart clk.detEnd width height (sessionAfter n)).1 ≠ [] := by
  rw [Ne, runYOLONAS_nil_iff, sessionAfter_frameCounter, not_not]
  exact h

theorem sessionAfter_misses (n : Nat) (clk : PipelineClock) (width height : Int)
    (h : ¬ ((n : Int) + 1).tmod 10 < 7) :
    (runYOLONAS clk.detStart clk.detEnd width height (sessionAfter n)).1 = [] := by
  rw [runYOLONAS_nil_iff, sessionAfter_frameCounter]
  exact h

/-- Through the first six frames the start timestamp set by `init` is kept. -/
theorem sessionAfter_startTime (n : Nat) (hn : n ≤ 6) :
    (sessionAfter n).gPosture.startTime = 1000000000 := by
  induction n with
  | zero => rfl
  | succ n ih =>
    have hs := ih (by omega)
    obtain ⟨r, hr, he⟩ := sessionAfter_step n
    have hdet := sessionAfter_detects n (clockAt (((n : Int) + 2) * 1000000000)) 640 480
      (by have : n ≤ 5 := by omega
          interval_cases n <;> decide)
    have ht := runPipeline_detection_timer realLibm (clockAt (((n : Int) + 2) * 1000000000)) []
      640 480 0.5 blankOut 17 (sessionAfter n) r hdet hr
    rw [he, ht.1, hs]
    norm_num

theorem sessionAfter_six_duration :
    (sessionAfter 6).gPosture.durationSeconds = 6.006004 := by
  have hs := sessionAfter_startTime 5 (by norm_num)
  obtain ⟨r, hr, he⟩ := sessionAfter_step 5
  have hdet := sessionAfter_detects 5 (clockAt ((((5 : Nat) : Int) + 2) * 1000000000)) 640 480
    (by decide)
  have ht := runPipeline_detection_timer realLibm
    (clockAt ((((5 : Nat) : Int) + 2) * 1000000000)) [] 640 480 0.5 blankOut 17
    (sessionAfter 5) r hdet hr
  rw [he, ht.2, hs]
  norm_num [toSeconds, clockAt]

theorem sessionAfter_six_no_detection (clk : PipelineClock) (width height : Int) :
    (runYOLONAS clk.detStart clk.detEnd width height (sessionAfter 6)).1 = [] :=
  sessionAfter_misses 6 clk width height (by decide)

end Concrete

/-- C6, witness: after `init` and six detecting frames the seventh call finds
no region; it returns 0, clears the start timestamp that `init` had set and
leaves the frame count and the stored duration as they were. -/
theorem runPipeline_no_detection_witness :
    (runYOLONAS (clockAt 8000000000).detStart (clockAt 8000000000).detEnd 640 480
      (sessionAfter 6)).1 = [] ∧
    (sessionAfter 6).gPosture.startTime = 1000000000 ∧
    ∃ r, runPipeline realLibm (clockAt 8000000000) (some []) 640 480 0.5 blankOut 17
        (sessionAfter 6) = some r ∧
      r.ret = 0 ∧ r.world.gPosture.startTime = 0 ∧
      r.world.gMetrics.frameCount = (sessionAfter 6).gMetrics.frameCount ∧
      r.world.gPosture.durationSeconds = 6.006004 := by
  obtain ⟨r, hr, hret, -, hw⟩ :=
    runPipeline_no_detection realLibm (clockAt 8000000000) [] 640 480 0.5 blankOut 17
      (sessionAfter 6) (sessionAfter_six_no_detection _ _ _)
  refine ⟨sessionAfter_six_no_detection _ _ _, sessionAfter_startTime 6 (le_refl _), r, hr, hret,
    ?_, ?_, ?_⟩
  · rw [hw]
  · rw [hw]
  · rw [hw]
    exact sessionAfter_six_duration

/-! ## C7: the reset law -/

section C7

variable {α : Type} [LinearOrderedField α] [FloorRing α]

/-- C7: reset law.  For every session state (whatever duration it has
accumulated), if a `runPipeline` call yields no detection, leaving the state
`r1.world`, and the next call yields a detection, leaving the state
`r2.world`, then after that next call `durationSeconds` is 0 and the start
timestamp is that call's analysis time. -/
theorem reset_law (m : Libm α) (clk1 clk2 : PipelineClock) (d1 d2 : List Int)
    (width1 height1 width2 height2 : Int) (T1 T2 : α) (out1 out2 : OutArrays α)
    (maxKp1 maxKp2 : Int) (w : World α) (r1 r2 : PipelineResult α)
    (h1 : (runYOLONAS clk1.detStart clk1.detEnd width1 height1 w).1 = [])
    (hr1 : runPipeline m clk1 (some d1) width1 height1 T1 out1 maxKp1 w = some r1)
    (h2 : (runYOLONAS clk2.detStart clk2.detEnd width2 height2 r1.world).1 ≠ [])
    (hr2 : runPipeline m clk2 (some d2) width2 height2 T2 out2 maxKp2 r1.world = some r2) :
    r2.world.gPosture.durationSeconds = 0 ∧
    r2.world.gPosture.startTime = clk2.analysisNow := by
  have ht := runPipeline_detection_timer m clk2 d2 width2 height2 T2 out2 maxKp2 _ r2 h2 hr2
  have h0 : r1.world.gPosture.startTime = 0 := by
    rw [runPipeline_of_nil m clk1 d1 width1 height1 T1 out1 maxKp1 w h1] at hr1
    simp only [Option.some.injEq] at hr1
    rw [← hr1]
  rw [h0] at ht
  simp only [if_true, sub_self] at ht
  refine ⟨?_, ht.1⟩
  rw [ht.2]
  simp [toSeconds]

end C7

/-- C7, witness: from `longSession` (42 s stored) the call at tick
`44·10⁹` detects nobody and the call at tick `45·10⁹` detects a person; both
are defined, and after the second the duration is 0 and the start timestamp is
that call's analysis time. -/
theorem reset_law_witness :
    longSession.gPosture.durationSeconds = 42 ∧
    ∃ r1 r2,
      runPipeline realLibm (clockAt 44000000000) (some []) 640 480 0.5 blankOut 17
        longSession = some r1 ∧
      runPipeline realLibm (clockAt 45000000000) (some []) 640 480 0.5 blankOut 17
        r1.world = some r2 ∧
      r2.world.gPosture.durationSeconds = 0 ∧
      r2.world.gPosture.startTime = 45006004000 := by
  obtain ⟨r1, hr1⟩ := runPipeline_defined (clockAt 44000000000) (some []) 640 480 0.5 blankOut
    17 longSession (by norm_num) (by norm_num)
  obtain ⟨r2, hr2⟩ := runPipeline_defined (clockAt 45000000000) (some []) 640 480 0.5 blankOut
    17 r1.world (by norm_num) (by norm_num)
  exact ⟨rfl, r1, r2, hr1, hr2,
    reset_law realLibm (clockAt 44000000000) (clockAt 45000000000) [] [] 640 480 640 480 0.5 0.5
      blankOut blankOut 17 17 longSession r1 r2 (longSession_no_detection _ _ _) hr1
      (longSession_then_detection _ _ _ _ _ _ _ _ _ _ _ r1 hr1) hr2⟩

/-! ## C8: the duration on loss of detection -/

section C8

variable {α : Type} [LinearOrderedField α] [FloorRing α]

/-- C8, amended: every `runPipeline` call that yields no detection is defined,
and after it the start timestamp is the unset (zero-epoch) value, and
`durationSeconds`, as held in the session and as reported by
`getPostureAnalysis`, still has the value it had before the call. -/
theorem no_detection_keeps_duration (m : Libm α) (clk : PipelineClock) (d : List Int)
    (width height : Int) (scoreThreshold : α) (out : OutArrays α) (maxKp : Int) (w : World α)
    (h : (runYOLONAS clk.detStart clk.detEnd width height w).1 = []) :
    ∃ r, runPipeline m clk (some d) width height scoreThreshold out maxKp w = some r ∧
      r.world.gPosture.startTime = 0 ∧
      r.world.gPosture.durationSeconds = w.gPosture.durationSeconds ∧
      getPostureAnalysis r.world = getPostureAnalysis w :=
  ⟨_, runPipeline_of_nil m clk d width height scoreThreshold out maxKp w h, rfl, rfl, rfl⟩

end C8

/-- C8, witness: the call on `longSession` detects nobody and the session still
holds and reports the 42 s it held before. -/
theorem no_detection_keeps_duration_witness :
    ∃ r, runPipeline realLibm (clockAt 44000000000) (some []) 640 480 0.5 blankOut 17
        longSession = some r ∧
      r.world.gPosture.durationSeconds = 42 ∧
      (getPostureAnalysis r.world)[4]? = some (42 : ℝ) := by
  obtain ⟨r, hr, -, h2, h3⟩ :=
    no_detection_keeps_duration realLibm (clockAt 44000000000) [] 640 480 0.5 blankOut
      17 longSession (longSession_no_detection _ _ _)
  refine ⟨r, hr, by rw [h2]; rfl, ?_⟩
  rw [h3]
  simp [getPostureAnalysis, longSession]

section C8Counterexample

/-- C8, counterexample: the session reached from program start by `init` and
six detecting frames holds a duration of 6.006004 s; the seventh call detects
nobody and returns 0, and afterwards the session still holds, and
`getPostureAnalysis` still reports, 6.006004 s and not 0. -/
theorem duration_reset_counterexample :
    Reachable realLibm (sessionAfter 6) ∧
    (runYOLONAS (clockAt 8000000000).detStart (clockAt 8000000000).detEnd 640 480
      (sessionAfter 6)).1 = [] ∧
    ∃ r, runPipeline realLibm (clockAt 8000000000) (some []) 640 480 0.5 blankOut 17
        (sessionAfter 6) = some r ∧
      r.ret = 0 ∧ r.world.gPosture.durationSeconds = 6.006004 ∧
      (getPostureAnalysis r.world)[4]? = some (6.006004 : ℝ) ∧
      (6.006004 : ℝ) ≠ 0 := by
  have h := sessionAfter_six_no_detection (clockAt 8000000000) 640 480
  refine ⟨sessionAfter_reachable 6, h, _,
    runPipeline_of_nil realLibm _ [] 640 480 0.5 blankOut 17 _ h, rfl, ?_, ?_, by norm_num⟩
  · exact sessionAfter_six_duration
  · simp only [getPostureAnalysis]
    rw [sessionAfter_six_duration]
    simp

end C8Counterexample

/-! ## C9: the uninitialised session -/

section C9

variable {α : Type} [LinearOrderedField α] [FloorRing α]

/-- C9, amended: `runPipeline` never tests and never writes `gInitialized`.
On a session with the flag cleared it is defined exactly when it is on the
same session with the flag set, returns the same value, writes the same output
and leaves the same state, the flag itself staying as it was; it returns 0 and
leaves every session field unchanged when the frame buffer is null. -/
theorem runPipeline_ignores_gInitialized (m : Libm α) (clk : PipelineClock)
    (yuvData : Option (List Int)) (width height : Int) (scoreThreshold : α)
    (out : OutArrays α) (maxKp : Int) (w : World α) (b : Bool) :
    (∀ r, runPipeline m clk yuvData width height scoreThreshold out maxKp w = some r →
      r.world.gInitialized = w.gInitialized) ∧
    runPipeline m clk yuvData width height scoreThreshold out maxKp
        { w with gInitialized := b } =
      (runPipeline m clk yuvData width height scoreThreshold out maxKp w).map
        (fun r => { ret := r.ret, out := r.out, world := { r.world with gInitialized := b } }) ∧
    runPipeline m clk none width height scoreThreshold out maxKp w
      = some { ret := 0, out := out, world := w } := by
  refine ⟨fun r hr =>
    runPipeline_gInitialized m clk yuvData width height scoreThreshold out maxKp w r hr, ?_, rfl⟩
  cases yuvData with
  | none => rfl
  | some d =>
    by_cases h : (runYOLONAS clk.detStart clk.detEnd width height w).1 = []
    · have h2 : (runYOLONAS clk.detStart clk.detEnd width height
          { w with gInitialized := b }).1 = [] := by
        rw [runYOLONAS_nil_iff] at h ⊢; exact h
      rw [runPipeline_of_nil m clk d width height scoreThreshold out maxKp w h,
        runPipeline_of_nil m clk d width height scoreThreshold out maxKp _ h2]
      rfl
    · have h2 : (runYOLONAS clk.detStart clk.detEnd width height
          { w with gInitialized := b }).1 ≠ [] := by
        rw [runYOLONAS_nil_iff] at h
        rw [Ne, runYOLONAS_nil_iff]
        exact h
      rw [runPipeline_detection m clk d width height scoreThreshold out maxKp w h,
        runPipeline_detection m clk d width height scoreThreshold out maxKp _ h2,
        Option.map_map]
      rfl

end C9

section C9Counterexample

theorem selected_all :
    (selected (0 : ℝ) 17 (estimate realLibm 640 480 World.initial)).length = 17 := by
  simp only [selected, estimate, poseKeypoints, List.filter]
  norm_num
  rfl

/-- C9, counterexample: at program start `gInitialized` is false, yet the
first `runPipeline` call (threshold 0, capacity 17) is defined, returns 17,
counts a frame and stores a 17-point last pose. -/
theorem uninitialized_counterexample :
    (World.initial : World ℝ).gInitialized = false ∧
    (World.initial : World ℝ).gMetrics.frameCount = 0 ∧
    (World.initial : World ℝ).gLastPose = [] ∧
    ∃ r, runPipeline realLibm (clockAt 0) (some []) 640 480 (0 : ℝ) blankOut 17
        World.initial = some r ∧
      r.ret = 17 ∧ r.world.gMetrics.frameCount = 1 ∧ r.world.gLastPose.length = 17 ∧
      r.world.frameCounter = 1 ∧ r.world.poseFrameCounter = 1 := by
  have hc := copyOut_eq (0 : ℝ) 17 (estimate realLibm 640 480 World.initial) blankOut
    (by rw [selected_all]; simp [blankOut]) (by rw [selected_all]; simp [blankOut])
    (by rw [selected_all]; simp [blankOut]) (by rw [selected_all]; simp [blankOut])
  obtain ⟨r, hr⟩ := runPipeline_defined (clockAt 0) (some []) 640 480 (0 : ℝ) blankOut 17
    World.initial (by norm_num) (by norm_num)
  obtain ⟨posture, -, hres⟩ := runPipeline_detection_some realLibm (clockAt 0) [] 640 480
    (0 : ℝ) blankOut 17 World.initial r (initial_detects 0 640 480) hr
  refine ⟨rfl, rfl, rfl, r, hr, ?_, ?_, ?_, ?_, ?_⟩
  · rw [hres]
    show (copyOut (0 : ℝ) 17 (estimate realLibm 640 480 World.initial) blankOut).1 = 17
    rw [hc, selected_all]
    rfl
  · rw [hres]; rfl
  · rw [hres]; exact poseKeypoints_length _ _ _
  · rw [hres]; rfl
  · rw [hres]; rfl

end C9Counterexample

/-! ## C11: `init` and `isAvailable` -/

section C11

variable {α : Type} [LinearOrderedField α] [FloorRing α]

theorem runCalls_gInitialized (m : Libm α) (calls : List (PipelineCall α)) (w v : World α)
    (h : runCalls m calls w = some v) : v.gInitialized = w.gInitialized := by
  induction calls generalizing w with
  | nil =>
    simp only [runCalls, Option.some.injEq] at h
    rw [← h]
  | cons c rest ih =>
    unfold runCalls at h
    split at h
    · rename_i r hr
      rw [ih r.world h, runPipeline_gInitialized m _ _ _ _ _ _ _ w r hr]
    · cases h

/-- C11: `init` is idempotent.  On a session whose flag is not set the call
returns success, stores the default performance and posture metrics with the
previous-frame timestamp and the posture start timestamp set to its two clock
readings, and sets the flag (last pose and the two static counters are not
touched).  Every later `init`, also in the state `v` left by any sequence of
`runPipeline` calls, returns success and leaves the whole state as it is;
`isAvailable` returns 1 exactly when the flag is set and 0 otherwise. -/
theorem init_idempotent (m : Libm α) (now1 now2 : Int) (w : World α)
    (h : w.gInitialized = false) :
    init now1 now2 w =
      (true,
       { gInitialized := true
         gMetrics := { detectionTimeMs := 0, poseTimeMs := 0, totalTimeMs := 0, fps := 0,
                       frameCount := 0, lastFrameTime := now1 }
         gPosture := { shoulderAngle := 0, spineAlignment := 0, headTilt := 0,
                       postureScore := 0, postureName := "Unknown", startTime := now2,
                       durationSeconds := 0 }
         gLastPose := w.gLastPose
         frameCounter := w.frameCounter
         poseFrameCounter := w.poseFrameCounter }) ∧
    (∀ (later1 later2 : Int) (calls : List (PipelineCall α)) (v : World α),
      runCalls m calls (init now1 now2 w).2 = some v →
      init later1 later2 v = (true, v)) ∧
    (∀ (later1 later2 : Int) (v : World α), v.gInitialized = true →
      init later1 later2 v = (true, v)) ∧
    (∀ v : World α, isAvailable v = 1 ↔ v.gInitialized = true) ∧
    (∀ v : World α, isAvailable v = 0 ↔ v.gInitialized = false) := by
  have hset : ∀ (later1 later2 : Int) (v : World α), v.gInitialized = true →
      init later1 later2 v = (true, v) := by
    intro later1 later2 v hv
    unfold init
    rw [if_pos hv]
  have hfirst : (init now1 now2 w).2.gInitialized = true := by
    unfold init
    rw [h]
    rfl
  refine ⟨?_, ?_, hset, ?_, ?_⟩
  · unfold init
    rw [h]
    rfl
  · intro later1 later2 calls v hv
    exact hset later1 later2 _ (by rw [runCalls_gInitialized m calls _ v hv, hfirst])
  · intro v
    unfold isAvailable
    cases v.gInitialized <;> simp
  · intro v
    unfold isAvailable
    cases v.gInitialized <;> simp

end C11

/-- C11, witness: at program start the flag is not set; the first `init`
sets it and `isAvailable` then returns 1, and a second `init` after one
detecting frame changes nothing. -/
theorem init_idempotent_witness :
    (World.initial : World ℝ).gInitialized = false ∧
    isAvailable (World.initial : World ℝ) = 0 ∧
    isAvailable (init 1000000000 1000000000 (World.initial : World ℝ)).2 = 1 ∧
    runCalls realLibm
      [{ clk := clockAt ((((0 : Nat) : Int) + 2) * 1000000000), yuvData := some [],
         width := 640, height := 480, scoreThreshold := 0.5, out := blankOut, maxKp := 17 }]
      (init 1000000000 1000000000 (World.initial : World ℝ)).2 = some (sessionAfter 1) ∧
    init 3000000000 3000000000 (sessionAfter 1) = (true, sessionAfter 1) := by
  have h := init_idempotent realLibm 1000000000 1000000000 (World.initial : World ℝ) rfl
  obtain ⟨r, hr, hs⟩ := sessionAfter_step 0
  have hcalls : runCalls realLibm
      [{ clk := clockAt ((((0 : Nat) : Int) + 2) * 1000000000), yuvData := some [],
         width := 640, height := 480, scoreThreshold := 0.5, out := blankOut, maxKp := 17 }]
      (init 1000000000 1000000000 (World.initial : World ℝ)).2 = some (sessionAfter 1) := by
    have hr' : runPipeline realLibm (clockAt ((((0 : Nat) : Int) + 2) * 1000000000)) (some [])
        640 480 0.5 blankOut 17 (init 1000000000 1000000000 (World.initial : World ℝ)).2
        = some r := hr
    simp only [runCalls, hr', hs]
  refine ⟨rfl, (h.2.2.2.2 _).2 rfl, (h.2.2.2.1 _).2 (by rw [h.1]), hcalls, ?_⟩
  exact h.2.1 3000000000 3000000000 _ _ hcalls
/-! ## C12: the detector's policy -/

section C12

variable {α : Type} [LinearOrderedField α]

/-- C12: for every non-negative value `c` of the detector's frame counter after
its per-call increment, `runYOLONAS` returns exactly one region when
`c % 10 < 7` and no region when `c % 10` is 7, 8 or 9; the number of regions
does not depend on the frame dimensions or the clock. -/
theorem detector_policy (start finish width height : Int) (w : World α) (c : Int)
    (hc : c = w.frameCounter + 1) (hnn : 0 ≤ c) :
    (c % 10 < 7 →
      (runYOLONAS start finish width height w).1 = [personBox c width height]) ∧
    (c % 10 = 7 ∨ c % 10 = 8 ∨ c % 10 = 9 →
      (runYOLONAS start finish width height w).1 = []) ∧
    (∀ start2 finish2 width2 height2 : Int,
      (runYOLONAS start2 finish2 width2 height2 w).1.length
        = (runYOLONAS start finish width height w).1.length) := by
  have hmod : c.tmod 10 = c % 10 := Int.tmod_eq_emod hnn (by norm_num)
  subst hc
  refine ⟨?_, ?_, ?_⟩
  · intro h
    unfold runYOLONAS
    simp only
    rw [if_pos (by rw [hmod]; exact h)]
  · intro h
    rw [runYOLONAS_nil_iff, hmod]
    omega
  · intro start2 finish2 width2 height2
    unfold runYOLONAS
    by_cases h : (w.frameCounter + 1).tmod 10 < 7 <;> simp [h]

end C12

/-- C12, witness: at program start the incremented counter is 1 and one region
is returned; in `longSession` it is 9 and none is. -/
theorem detector_policy_witness :
    (runYOLONAS 0 1500000 640 480 (World.initial : World ℝ)).1 = [personBox 1 640 480] ∧
    (runYOLONAS 0 1500000 640 480 longSession).1 = [] :=
  ⟨(detector_policy 0 1500000 640 480 (World.initial : World ℝ) 1 rfl (by norm_num)).1
      (by decide),
   (detector_policy 0 1500000 640 480 longSession 9 rfl (by norm_num)).2.1
      (Or.inr (Or.inr (by decide)))⟩

/-! ## C13: the emitted region -/

section C13

variable {α : Type} [LinearOrderedField α]

/-- The confidence of the detector's box. -/
theorem personBox_confidence (width height c : Int) :
    (personBox c width height : BBox α).confidence =
      17 / 20 + ((c.tmod 20 : Int) : α) / 200 := by
  simp only [personBox]
  norm_num
  ring

/-- C13: for every frame with positive width and height and every
non-negative value of the incremented frame counter, a region that
`runYOLONAS` emits lies within the frame (`0 ≤ x1 < x2 ≤ width`,
`0 ≤ y1 < y2 ≤ height`), is between 30% and 40% of the frame wide and between
35% and 50% of the frame high, and has confidence in `[0.85, 0.95]`; this
holds whether or not the two `int` products of the jitter wrap around. -/
theorem emitted_region_bounds (start finish width height : Int) (w : World α) (b : BBox α)
    (hw : 0 < width) (hh : 0 < height) (hc : 0 ≤ w.frameCounter + 1)
    (hb : b ∈ (runYOLONAS start finish width height w).1) :
    (0 ≤ b.x1 ∧ b.x1 < b.x2 ∧ b.x2 ≤ (width : α)) ∧
    (0 ≤ b.y1 ∧ b.y1 < b.y2 ∧ b.y2 ≤ (height : α)) ∧
    (0.3 * (width : α) ≤ b.x2 - b.x1 ∧ b.x2 - b.x1 ≤ 0.4 * (width : α)) ∧
    (0.35 * (height : α) ≤ b.y2 - b.y1 ∧ b.y2 - b.y1 ≤ 0.5 * (height : α)) ∧
    (0.85 ≤ b.confidence ∧ b.confidence ≤ 0.95) := by
  have hemit : (w.frameCounter + 1).tmod 10 < 7 := by
    by_contra hn
    rw [(runYOLONAS_nil_iff start finish width height w).2 hn] at hb
    exact List.not_mem_nil _ hb
  have hbox : b = personBox (w.frameCounter + 1) width height := by
    unfold runYOLONAS at hb
    simp only [hemit, if_true, List.mem_singleton] at hb
    exact hb
  have i10 : 0 ≤ (w.frameCounter + 1).tmod 10 := Int.tmod_nonneg 10 hc
  have i15a : 0 ≤ (w.frameCounter + 1).tmod 15 := Int.tmod_nonneg 15 hc
  have i15b : (w.frameCounter + 1).tmod 15 < 15 :=
    Int.tmod_lt_of_pos (w.frameCounter + 1) (by norm_num)
  have i20a : 0 ≤ (w.frameCounter + 1).tmod 20 := Int.tmod_nonneg 20 hc
  have i20b : (w.frameCounter + 1).tmod 20 < 20 :=
    Int.tmod_lt_of_pos (w.frameCounter + 1) (by norm_num)
  have i30a : 0 ≤ (w.frameCounter + 1).tmod 30 := Int.tmod_nonneg 30 hc
  have i30b : (w.frameCounter + 1).tmod 30 < 30 :=
    Int.tmod_lt_of_pos (w.frameCounter + 1) (by norm_num)
  have jx := wrapInt_bounds (((w.frameCounter + 1).tmod 20 - 10) * width) (10 * width)
    (by nlinarith) (by nlinarith)
  have jy := wrapInt_bounds (((w.frameCounter + 1).tmod 30 - 15) * height) (15 * height)
    (by nlinarith) (by nlinarith)
  have a10 : (0 : α) ≤ (((w.frameCounter + 1).tmod 10 : Int) : α) := by exact_mod_cast i10
  have b10 : (((w.frameCounter + 1).tmod 10 : Int) : α) ≤ 6 := by
    have : (w.frameCounter + 1).tmod 10 ≤ 6 := by omega
    exact_mod_cast this
  have a15 : (0 : α) ≤ (((w.frameCounter + 1).tmod 15 : Int) : α) := by exact_mod_cast i15a
  have b15 : (((w.frameCounter + 1).tmod 15 : Int) : α) ≤ 14 := by
    have : (w.frameCounter + 1).tmod 15 ≤ 14 := by omega
    exact_mod_cast this
  have a20 : (0 : α) ≤ (((w.frameCounter + 1).tmod 20 : Int) : α) := by exact_mod_cast i20a
  have b20 : (((w.frameCounter + 1).tmod 20 : Int) : α) ≤ 19 := by
    have : (w.frameCounter + 1).tmod 20 ≤ 19 := by omega
    exact_mod_cast this
  have hW : (0 : α) < (width : α) := by exact_mod_cast hw
  have hH : (0 : α) < (height : α) := by exact_mod_cast hh
  have jx1 : -(10 * (width : α)) ≤
      ((wrapInt (((w.frameCounter + 1).tmod 20 - 10) * width) : Int) : α) := by
    exact_mod_cast jx.1
  have jx2 : ((wrapInt (((w.frameCounter + 1).tmod 20 - 10) * width) : Int) : α)
      ≤ 10 * (width : α) := by
    exact_mod_cast jx.2
  have jy1 : -(15 * (height : α)) ≤
      ((wrapInt (((w.frameCounter + 1).tmod 30 - 15) * height) : Int) : α) := by
    exact_mod_cast jy.1
  have jy2 : ((wrapInt (((w.frameCounter + 1).tmod 30 - 15) * height) : Int) : α)
      ≤ 15 * (height : α) := by
    exact_mod_cast jy.2
  have p1 : 0 ≤ (width : α) * (((w.frameCounter + 1).tmod 10 : Int) : α) :=
    mul_nonneg hW.le a10
  have p2 : (width : α) * (((w.frameCounter + 1).tmod 10 : Int) : α) ≤ (width : α) * 6 :=
    mul_le_mul_of_nonneg_left b10 hW.le
  have q1 : 0 ≤ (height : α) * (((w.frameCounter + 1).tmod 15 : Int) : α) :=
    mul_nonneg hH.le a15
  have q2 : (height : α) * (((w.frameCounter + 1).tmod 15 : Int) : α) ≤ (height : α) * 14 :=
    mul_le_mul_of_nonneg_left b15 hH.le
  rw [hbox, personBox_confidence]
  simp only [personBox]
  generalize ((wrapInt (((w.frameCounter + 1).tmod 20 - 10) * width) : Int) : α) = jitX
    at jx1 jx2 ⊢
  generalize ((wrapInt (((w.frameCounter + 1).tmod 30 - 15) * height) : Int) : α) = jitY
    at jy1 jy2 ⊢
  refine ⟨⟨?_, ?_, ?_⟩, ⟨?_, ?_, ?_⟩, ⟨?_, ?_⟩, ⟨?_, ?_⟩, ?_, ?_⟩ <;> norm_num <;> linarith

end C13

/-- C13, witness: the region emitted for the first 300000000×200000000 frame
after program start, where the product `(1 % 20 - 10) * 300000000` wraps
around to 1594967296, has `x1 = 119449672.96` and lies inside the frame. -/
theorem emitted_region_bounds_witness :
    wrapInt ((Int.tmod 1 20 - 10) * 300000000) = 1594967296 ∧
    (personBox 1 300000000 200000000 : BBox ℝ) ∈
      (runYOLONAS 0 1500000 300000000 200000000 (World.initial : World ℝ)).1 ∧
    (personBox 1 300000000 200000000 : BBox ℝ).x1 = 119449672.96 ∧
    (0 ≤ (personBox 1 300000000 200000000 : BBox ℝ).x1 ∧
      (personBox 1 300000000 200000000 : BBox ℝ).x1
        < (personBox 1 300000000 200000000 : BBox ℝ).x2 ∧
      (personBox 1 300000000 200000000 : BBox ℝ).x2 ≤ ((300000000 : Int) : ℝ)) := by
  have hmem : (personBox 1 300000000 200000000 : BBox ℝ) ∈
      (runYOLONAS 0 1500000 300000000 200000000 (World.initial : World ℝ)).1 := by
    have : (runYOLONAS 0 1500000 300000000 200000000 (World.initial : World ℝ)).1
        = [personBox 1 300000000 200000000] := by
      unfold runYOLONAS
      simp only [World.initial]
      rw [if_pos (by decide)]
      rfl
    rw [this]
    exact List.mem_singleton.2 rfl
  have hwrap : wrapInt ((Int.tmod 1 20 - 10) * 300000000) = 1594967296 := by decide
  refine ⟨hwrap, hmem, ?_,
    (emitted_region_bounds 0 1500000 300000000 200000000 (World.initial : World ℝ) _
      (by norm_num) (by norm_num) (by simp [World.initial]) hmem).1⟩
  simp only [personBox, hwrap]
  have h10 : Int.tmod 1 10 = 1 := by decide
  rw [h10]
  norm_num

/-! ## C14: the estimator's output -/

section C14

variable {α : Type} [LinearOrderedField α]

/-- C14: for every region and every value of the pose frame counter `runHRNet`
returns exactly 17 keypoints whose ids are 0, 1, …, 16 in that order, and
whose confidences are the fixed list `landmarkScores`, the same for every
region, counter and `<cmath>`; the nose (0.95) has the highest confidence and
the ankles (0.68 and 0.67) the two lowest. -/
theorem runHRNet_fixed_shape (m : Libm α) (start finish : Int) (roi : BBox α) (w : World α) :
    (runHRNet m start finish roi w).1.length = 17 ∧
    (runHRNet m start finish roi w).1.map (fun kp => kp.id)
      = [0, 1, 2, 3, 4, 5, 6, 7, 8, 9, 10, 11, 12, 13, 14, 15, 16] ∧
    (runHRNet m start finish roi w).1.map (fun kp => kp.score) = landmarkScores ∧
    (∀ kp ∈ (runHRNet m start finish roi w).1, kp.id = NOSE → kp.score = 0.95) ∧
    (∀ kp ∈ (runHRNet m start finish roi w).1, kp.id = LEFT_ANKLE → kp.score = 0.68) ∧
    (∀ kp ∈ (runHRNet m start finish roi w).1, kp.id = RIGHT_ANKLE → kp.score = 0.67) ∧
    (∀ kp ∈ (runHRNet m start finish roi w).1, kp.id ≠ NOSE → kp.score < 0.95) ∧
    (∀ kp ∈ (runHRNet m start finish roi w).1,
      kp.id ≠ LEFT_ANKLE → kp.id ≠ RIGHT_ANKLE → 0.68 < kp.score) := by
  have hk : (runHRNet m start finish roi w).1 = poseKeypoints m (w.poseFrameCounter + 1) roi :=
    rfl
  rw [hk]
  refine ⟨poseKeypoints_length _ _ _, poseKeypoints_ids _ _ _, poseKeypoints_scores _ _ _,
    ?_, ?_, ?_, ?_, ?_⟩ <;>
  · intro kp hkp
    simp only [poseKeypoints, List.mem_cons, List.mem_singleton, List.not_mem_nil,
      or_false] at hkp
    rcases hkp with h | h | h | h | h | h | h | h | h | h | h | h | h | h | h | h | h <;>
      subst h <;>
      norm_num [NOSE, LEFT_EYE, RIGHT_EYE, LEFT_EAR, RIGHT_EAR, LEFT_SHOULDER, RIGHT_SHOULDER,
        LEFT_ELBOW, RIGHT_ELBOW, LEFT_WRIST, RIGHT_WRIST, LEFT_HIP, RIGHT_HIP, LEFT_KNEE,
        RIGHT_KNEE, LEFT_ANKLE, RIGHT_ANKLE]

end C14

/-- C14, witness: on `sampleRoi` at program start the estimator returns 17
keypoints with the ids 0 to 16 in order. -/
theorem runHRNet_fixed_shape_witness :
    (runHRNet realLibm 1502000 6002000 sampleRoi World.initial).1.length = 17 ∧
    (runHRNet realLibm 1502000 6002000 sampleRoi World.initial).1.map (fun kp => kp.id)
      = [0, 1, 2, 3, 4, 5, 6, 7, 8, 9, 10, 11, 12, 13, 14, 15, 16] :=
  ⟨(runHRNet_fixed_shape realLibm 1502000 6002000 sampleRoi World.initial).1,
   (runHRNet_fixed_shape realLibm 1502000 6002000 sampleRoi World.initial).2.1⟩

/-! ## C15: the threshold does not reach the analysis -/

section C15

variable {α : Type} [LinearOrderedField α] [FloorRing α]

/-- C15: two `runPipeline` calls started from the same state, frame and clock
readings that differ only in threshold, capacity and output arrays are
defined together and leave the same global state, in particular the same
`PostureMetrics` (three angles, score, label, start timestamp, duration) and
the same `frameCount`; on a detecting frame the posture is the analysis of the
unfiltered estimate. -/
theorem threshold_does_not_reach_posture (m : Libm α) (clk : PipelineClock)
    (yuvData : Option (List Int)) (width height : Int) (T1 T2 : α) (out1 out2 : OutArrays α)
    (maxKp1 maxKp2 : Int) (w : World α) :
    (runPipeline m clk yuvData width height T1 out1 maxKp1 w).map (fun r => r.world)
      = (runPipeline m clk yuvData width height T2 out2 maxKp2 w).map (fun r => r.world) ∧
    (runPipeline m clk yuvData width height T1 out1 maxKp1 w).map
        (fun r => r.world.gPosture)
      = (runPipeline m clk yuvData width height T2 out2 maxKp2 w).map
        (fun r => r.world.gPosture) ∧
    (runPipeline m clk yuvData width height T1 out1 maxKp1 w).map
        (fun r => r.world.gMetrics.frameCount)
      = (runPipeline m clk yuvData width height T2 out2 maxKp2 w).map
        (fun r => r.world.gMetrics.frameCount) ∧
    (∀ r1 r2, runPipeline m clk yuvData width height T1 out1 maxKp1 w = some r1 →
      runPipeline m clk yuvData width height T2 out2 maxKp2 w = some r2 →
      r1.world = r2.world) ∧
    (∀ d : List Int, yuvData = some d →
      (runYOLONAS clk.detStart clk.detEnd width height w).1 ≠ [] →
      (runPipeline m clk yuvData width height T1 out1 maxKp1 w).map
          (fun r => r.world.gPosture)
        = analyzePosture m clk.analysisNow (estimate m width height w) w.gPosture ∧
      (estimate m width height w).length = 17) := by
  have hw : (runPipeline m clk yuvData width height T1 out1 maxKp1 w).map (fun r => r.world)
      = (runPipeline m clk yuvData width height T2 out2 maxKp2 w).map (fun r => r.world) := by
    cases yuvData with
    | none => rfl
    | some d =>
      by_cases h : (runYOLONAS clk.detStart clk.detEnd width height w).1 = []
      · rw [runPipeline_of_nil m clk d width height T1 out1 maxKp1 w h,
          runPipeline_of_nil m clk d width height T2 out2 maxKp2 w h]
        rfl
      · rw [runPipeline_detection m clk d width height T1 out1 maxKp1 w h,
          runPipeline_detection m clk d width height T2 out2 maxKp2 w h,
          Option.map_map, Option.map_map]
        rfl
  have hp := congrArg (Option.map (fun v : World α => v.gPosture)) hw
  have hf := congrArg (Option.map (fun v : World α => v.gMetrics.frameCount)) hw
  rw [Option.map_map, Option.map_map] at hp hf
  refine ⟨hw, hp, hf, ?_, ?_⟩
  · intro r1 r2 h1 h2
    rw [h1, h2] at hw
    simpa using hw
  · intro d hd hdet
    subst hd
    rw [runPipeline_detection m clk d width height T1 out1 maxKp1 w hdet, Option.map_map]
    refine ⟨?_, poseKeypoints_length _ _ _⟩
    cases analyzePosture m clk.analysisNow (estimate m width height w) w.gPosture <;> rfl

end C15

/-- C15, witness: the first call after program start is defined and leaves the
same state with threshold 0.9 and capacity 2 as with threshold 0 and capacity
17. -/
theorem threshold_does_not_reach_posture_witness :
    ∃ r1 r2,
      runPipeline realLibm (clockAt 0) (some []) 640 480 (0.9 : ℝ) blankOut 2 World.initial
        = some r1 ∧
      runPipeline realLibm (clockAt 0) (some []) 640 480 (0 : ℝ) blankOut 17 World.initial
        = some r2 ∧
      r1.world = r2.world := by
  obtain ⟨r1, hr1⟩ := runPipeline_defined (clockAt 0) (some []) 640 480 (0.9 : ℝ) blankOut 2
    World.initial (by norm_num) (by norm_num)
  obtain ⟨r2, hr2⟩ := runPipeline_defined (clockAt 0) (some []) 640 480 (0 : ℝ) blankOut 17
    World.initial (by norm_num) (by norm_num)
  exact ⟨r1, r2, hr1, hr2,
    (threshold_does_not_reach_posture realLibm (clockAt 0) (some []) 640 480 (0.9 : ℝ) (0 : ℝ)
      blankOut blankOut 2 17 World.initial).2.2.2.1 r1 r2 hr1 hr2⟩

/-! ## C16: the FPS denominator -/

section Seconds

variable {α : Type} [LinearOrderedField α]

theorem toSeconds_pos (d : Int) (h : 0 < d) : (0 : α) < toSeconds d := by
  unfold toSeconds
  have : (0 : α) < (d : α) := by exact_mod_cast h
  positivity

end Seconds

section C16

variable {α : Type} [LinearOrderedField α] [FloorRing α]

/-- C16, amended: after every `runPipeline` call that detects a person and
reads its end-of-frame time `t`, the stored fps is `1 / (t − t')` seconds,
where `t'` is the end-of-frame time of the immediately prior call if that call
detected a person and `t' < t`; if the prior call detected nobody it left the
previous-frame timestamp alone, and `t'` is the timestamp stored before it.
(`r0` is what the prior call left, `r` what the call itself left.) -/
theorem fps_denominator (m : Libm α) (clk0 clk : PipelineClock) (d0 d : List Int)
    (width0 height0 width height : Int) (T0 T : α) (out0 out : OutArrays α)
    (maxKp0 maxKp : Int) (w : World α) (r0 r : PipelineResult α)
    (hr0 : runPipeline m clk0 (some d0) width0 height0 T0 out0 maxKp0 w = some r0)
    (hdet : (runYOLONAS clk.detStart clk.detEnd width height r0.world).1 ≠ [])
    (hr : runPipeline m clk (some d) width height T out maxKp r0.world = some r) :
    ((runYOLONAS clk0.detStart clk0.detEnd width0 height0 w).1 ≠ [] →
      clk0.frameEnd < clk.frameEnd →
      r.world.gMetrics.fps = 1 / toSeconds (clk.frameEnd - clk0.frameEnd)) ∧
    ((runYOLONAS clk0.detStart clk0.detEnd width0 height0 w).1 = [] →
      w.gMetrics.lastFrameTime < clk.frameEnd →
      r.world.gMetrics.fps = 1 / toSeconds (clk.frameEnd - w.gMetrics.lastFrameTime)) := by
  obtain ⟨posture, -, hres⟩ := runPipeline_detection_some m clk d width height T out maxKp
    r0.world r hdet hr
  rw [hres]
  constructor
  · intro h0 hlt
    obtain ⟨posture0, -, hres0⟩ := runPipeline_detection_some m clk0 d0 width0 height0 T0 out0
      maxKp0 w r0 h0 hr0
    rw [hres0]
    show (if toSeconds (clk.frameEnd - clk0.frameEnd) > (0 : α) then _ else _) = _
    rw [if_pos (toSeconds_pos _ (by omega))]
    rfl
  · intro h0 hlt
    rw [runPipeline_of_nil m clk0 d0 width0 height0 T0 out0 maxKp0 w h0] at hr0
    simp only [Option.some.injEq] at hr0
    rw [← hr0]
    show (if toSeconds (clk.frameEnd - w.gMetrics.lastFrameTime) > (0 : α) then _ else _) = _
    rw [if_pos (toSeconds_pos _ (by omega))]

end C16

section C16Concrete

theorem sessionAfter_six_lastFrameTime :
    (sessionAfter 6).gMetrics.lastFrameTime = 7006003000 := by
  obtain ⟨r, hr, he⟩ := sessionAfter_step 5
  obtain ⟨posture, -, hres⟩ := runPipeline_detection_some realLibm _ [] 640 480 0.5 blankOut 17
    (sessionAfter 5) r (sessionAfter_detects 5 _ _ _ (by decide)) hr
  rw [he, hres]
  rfl

/-- A call that detects nobody in `sessionAfter n` keeps the previous-frame
timestamp. -/
theorem sessionAfter_succ_lastFrameTime (n : Nat) (h : ¬ ((n : Int) + 1).tmod 10 < 7) :
    (sessionAfter (n + 1)).gMetrics.lastFrameTime = (sessionAfter n).gMetrics.lastFrameTime := by
  obtain ⟨r, hr, he⟩ := sessionAfter_step n
  rw [runPipeline_of_nil realLibm _ [] 640 480 0.5 blankOut 17 (sessionAfter n)
    (sessionAfter_misses n _ _ _ h)] at hr
  simp only [Option.some.injEq] at hr
  rw [he, ← hr]

theorem sessionAfter_nine_lastFrameTime :
    (sessionAfter 9).gMetrics.lastFrameTime = 7006003000 := by
  rw [sessionAfter_succ_lastFrameTime 8 (by decide), sessionAfter_succ_lastFrameTime 7 (by decide),
    sessionAfter_succ_lastFrameTime 6 (by decide), sessionAfter_six_lastFrameTime]

theorem sessionAfter_ten_fps (r : PipelineResult ℝ)
    (hr : runPipeline realLibm (clockAt 11000000000) (some []) 640 480 0.5 blankOut 17
      (sessionAfter 9) = some r) :
    r.world.gMetrics.fps = 1 / 4 := by
  obtain ⟨posture, -, hres⟩ := runPipeline_detection_some realLibm _ [] 640 480 0.5 blankOut 17
    (sessionAfter 9) r (sessionAfter_detects 9 _ _ _ (by decide)) hr
  rw [hres]
  show (if toSeconds ((clockAt 11000000000).frameEnd - (sessionAfter 9).gMetrics.lastFrameTime)
    > (0 : ℝ) then _ else _) = _
  rw [sessionAfter_nine_lastFrameTime]
  norm_num [toSeconds, clockAt]

/-- C16, counterexample: in the session reached by `init` and nine frames the
ninth call, started at tick `10·10⁹`, detects nobody; the tenth call detects a
person and reads its end-of-frame time at tick `11006003000`.  The stored fps
is then `1/4` (the four seconds since the sixth frame), which is not
`1 / (t − t')` for any completion time `t'` of the ninth call. -/
theorem fps_denominator_counterexample :
    Reachable realLibm (sessionAfter 8) ∧
    (clockAt 10000000000).frameStart = 10000000000 ∧
    (runYOLONAS (clockAt 10000000000).detStart (clockAt 10000000000).detEnd 640 480
      (sessionAfter 8)).1 = [] ∧
    (∃ r9, runPipeline realLibm (clockAt 10000000000) (some []) 640 480 0.5
        blankOut 17 (sessionAfter 8) = some r9 ∧ sessionAfter 9 = r9.world) ∧
    (runYOLONAS (clockAt 11000000000).detStart (clockAt 11000000000).detEnd 640 480
      (sessionAfter 9)).1 ≠ [] ∧
    (clockAt 11000000000).frameEnd = 11006003000 ∧
    (∃ r10, runPipeline realLibm (clockAt 11000000000) (some []) 640 480 0.5 blankOut 17
        (sessionAfter 9) = some r10 ∧ r10.world.gMetrics.fps = 1 / 4) ∧
    (∀ t' : Int, 10000000000 ≤ t' → t' < 11006003000 →
      (1 / 4 : ℝ) ≠ 1 / toSeconds (11006003000 - t')) := by
  obtain ⟨r10, hr10⟩ := runPipeline_defined (clockAt 11000000000) (some []) 640 480 0.5
    blankOut 17 (sessionAfter 9) (by norm_num) (by norm_num)
  refine ⟨sessionAfter_reachable 8, rfl, sessionAfter_misses 8 _ _ _ (by decide),
    sessionAfter_step 8, sessionAfter_detects 9 _ _ _ (by decide), rfl,
    ⟨r10, hr10, sessionAfter_ten_fps r10 hr10⟩, ?_⟩
  intro t' h1 h2 heq
  have hpos : (0 : ℝ) < toSeconds (11006003000 - t') := toSeconds_pos _ (by omega)
  have h4 : toSeconds (11006003000 - t') = (4 : ℝ) := by
    field_simp at heq
    linarith
  unfold toSeconds at h4
  have hle : ((11006003000 - t' : Int) : ℝ) ≤ 1006003000 := by
    have : 11006003000 - t' ≤ 1006003000 := by omega
    exact_mod_cast this
  rw [div_eq_iff (by norm_num)] at h4
  linarith

end C16Concrete

/-- C16, witness: in the session reached by `init` and four frames the fifth
and sixth calls both detect a person, one second apart, and are defined; the
fps stored by the sixth is `1 / 1`. -/
theorem fps_denominator_witness :
    (∃ r0 r,
      runPipeline realLibm (clockAt 6000000000) (some []) 640 480 0.5 blankOut 17
        (sessionAfter 4) = some r0 ∧
      runPipeline realLibm (clockAt 7000000000) (some []) 640 480 0.5 blankOut 17
        r0.world = some r ∧
      r.world.gMetrics.fps = 1 / toSeconds 1000000000) ∧
    (1 : ℝ) / toSeconds 1000000000 = 1 := by
  obtain ⟨r0, hr0, he⟩ := sessionAfter_step 4
  obtain ⟨r, hr⟩ := runPipeline_defined (clockAt 7000000000) (some []) 640 480 0.5 blankOut 17
    r0.world (by norm_num) (by norm_num)
  have hdet : (runYOLONAS (clockAt 7000000000).detStart (clockAt 7000000000).detEnd 640 480
      r0.world).1 ≠ [] := by
    rw [← he]; exact sessionAfter_detects 5 _ _ _ (by decide)
  refine ⟨⟨r0, r, hr0, hr, ?_⟩, by norm_num [toSeconds]⟩
  exact (fps_denominator realLibm (clockAt 6000000000) (clockAt 7000000000) [] [] 640 480 640 480
    0.5 0.5 blankOut blankOut 17 17 (sessionAfter 4) r0 r hr0 hdet hr).1
    (sessionAfter_detects 4 _ _ _ (by decide)) (by decide)
/-! ## C17: the level pose -/

section C17

/-- C17, amended: for every keypoint set of size at least 10 in which the
lookup finds the five required landmarks, with left and right shoulder at equal
`y` and the hip midpoint directly below the shoulder midpoint (equal `x`,
larger `y`), and with `neckForward ≤ 0.2` or `neckForward × 100 < 2³¹` (the
conversion of `neckForward × 100` to `int` is defined), `analyzePosture` (real
`atan`, `atan2`) yields `shoulderAngle = 0`, `spineAlignment = 0` and
`postureScore = 100 − H` with `H` the head-forward deduction, so a score from
70 to 100; if the nose is within 0.2 shoulder spans of the shoulder midpoint
(`neckForward ≤ 0.2`) the score is 100 and the label "Excellent". -/
theorem level_pose_scores (now : Int) (kps : List (Keypoint ℝ)) (g : PostureMetrics ℝ)
    (nose ls rs lh rh : Keypoint ℝ) (hlen : 10 ≤ kps.length)
    (hl : lookup kps = ⟨some nose, some ls, some rs, some lh, some rh⟩)
    (hy : ls.y = rs.y) (hx : (lh.x + rh.x) * 0.5 = (ls.x + rs.x) * 0.5)
    (hbelow : (ls.y + rs.y) * 0.5 < (lh.y + rh.y) * 0.5)
    (hdef : headTiltOf nose ls rs / max 1 (rs.x - ls.x) ≤ 0.2 ∨
      headTiltOf nose ls rs / max 1 (rs.x - ls.x) * 100 < 2147483648) :
    ∃ g', analyzePosture realLibm now kps g = some g' ∧
      g'.shoulderAngle = 0 ∧ g'.spineAlignment = 0 ∧
      g'.headTilt = headTiltOf nose ls rs ∧
      g'.postureScore = 100 - specHeadPenalty g'.headTilt (rs.x - ls.x) ∧
      70 ≤ g'.postureScore ∧ g'.postureScore ≤ 100 ∧
      (g'.headTilt / max 1 (rs.x - ls.x) ≤ 0.2 →
        g'.postureScore = 100 ∧ g'.postureName = "Excellent") := by
  obtain ⟨hA, hS⟩ := level_angles ls rs lh rh hy hx hbelow
  obtain ⟨g', hg, h1, h2, h3, h4, h5, -⟩ :=
    analyzePosture_real_eval now kps g nose ls rs lh rh 0 0 (headTiltOf nose ls rs) hlen hl hA hS
      rfl hdef
  have hb := specHeadPenalty_bounds (headTiltOf nose ls rs) (rs.x - ls.x)
  have hpen : (100 : Int) - wholeDegreeShoulderPenalty (0 : ℝ) - wholeDegreeSpinePenalty (0 : ℝ)
      - specHeadPenalty (headTiltOf nose ls rs) (rs.x - ls.x)
      = 100 - specHeadPenalty (headTiltOf nose ls rs) (rs.x - ls.x) := by
    norm_num [wholeDegreeShoulderPenalty, wholeDegreeSpinePenalty]
  rw [hpen] at h4 h5
  have hs : g'.postureScore = 100 - specHeadPenalty (headTiltOf nose ls rs) (rs.x - ls.x) := by
    rw [h4]
    exact max_eq_right (by omega)
  refine ⟨g', hg, h1, h2, h3, by rw [hs, h3], by omega, by omega, ?_⟩
  intro hnf
  rw [h3] at hnf
  have h0 : specHeadPenalty (headTiltOf nose ls rs) (rs.x - ls.x) = 0 := by
    unfold specHeadPenalty
    rw [if_neg (not_lt.2 hnf)]
  refine ⟨by rw [hs, h0]; norm_num, ?_⟩
  rw [h5, h0]
  decide

end C17

section C17Concrete

theorem lookup_uprightPose :
    lookup uprightPose =
      ⟨some ⟨50, -60, 0.95, NOSE⟩, some ⟨0, 0, 0.93, LEFT_SHOULDER⟩,
       some ⟨100, 0, 0.92, RIGHT_SHOULDER⟩, some ⟨25, 150, 0.90, LEFT_HIP⟩,
       some ⟨75, 150, 0.89, RIGHT_HIP⟩⟩ := by
  simp [lookup, uprightPose, lookupStep, Landmarks.none, NOSE, LEFT_EYE, RIGHT_EYE, LEFT_EAR,
    RIGHT_EAR, LEFT_SHOULDER, RIGHT_SHOULDER, LEFT_ELBOW, RIGHT_ELBOW, LEFT_HIP, RIGHT_HIP]

theorem lookup_noseAside :
    lookup noseAside =
      ⟨some ⟨100, -60, 0.95, NOSE⟩, some ⟨0, 0, 0.93, LEFT_SHOULDER⟩,
       some ⟨100, 0, 0.92, RIGHT_SHOULDER⟩, some ⟨25, 150, 0.90, LEFT_HIP⟩,
       some ⟨75, 150, 0.89, RIGHT_HIP⟩⟩ := by
  simp [lookup, noseAside, lookupStep, Landmarks.none, NOSE, LEFT_EYE, RIGHT_EYE, LEFT_EAR,
    RIGHT_EAR, LEFT_SHOULDER, RIGHT_SHOULDER, LEFT_ELBOW, RIGHT_ELBOW, LEFT_HIP, RIGHT_HIP]

theorem hasRequired_noseAside : HasRequired noseAside := by
  unfold HasRequired
  simp only [hasLandmark_iff]
  simp [noseAside, NOSE, LEFT_EYE, RIGHT_EYE, LEFT_EAR, RIGHT_EAR, LEFT_SHOULDER,
    RIGHT_SHOULDER, LEFT_ELBOW, RIGHT_ELBOW, LEFT_HIP, RIGHT_HIP]

theorem noseAside_headTilt :
    headTiltOf (⟨100, -60, 0.95, NOSE⟩ : Keypoint ℝ) ⟨0, 0, 0.93, LEFT_SHOULDER⟩
      ⟨100, 0, 0.92, RIGHT_SHOULDER⟩ = 50 := by
  norm_num [headTiltOf, abs_of_nonneg]

/-- The analysis of `noseAside`: defined, angles 0, score 70, label "Good". -/
theorem noseAside_analysis (now : Int) (g : PostureMetrics ℝ) :
    ∃ g', analyzePosture realLibm now noseAside g = some g' ∧
      g'.shoulderAngle = 0 ∧ g'.spineAlignment = 0 ∧
      g'.postureScore = 70 ∧ g'.postureName = "Good" := by
  obtain ⟨hA, hS⟩ := level_angles (⟨0, 0, 0.93, LEFT_SHOULDER⟩ : Keypoint ℝ)
    ⟨100, 0, 0.92, RIGHT_SHOULDER⟩ ⟨25, 150, 0.90, LEFT_HIP⟩ ⟨75, 150, 0.89, RIGHT_HIP⟩ rfl
    (by norm_num) (by norm_num)
  obtain ⟨g', hg, h1, h2, -, h4, h5, -⟩ :=
    analyzePosture_real_eval now noseAside g _ _ _ _ _ 0 0 50 (by simp [noseAside])
      lookup_noseAside hA hS noseAside_headTilt (Or.inr (by norm_num))
  refine ⟨g', hg, h1, h2, ?_, ?_⟩
  · rw [h4]
    norm_num [wholeDegreeShoulderPenalty, wholeDegreeSpinePenalty, specHeadPenalty]
  · rw [h5]
    norm_num [wholeDegreeShoulderPenalty, wholeDegreeSpinePenalty, specHeadPenalty]
    decide

/-- C17, counterexample: `noseAside` has eleven keypoints with the five
required landmarks, level shoulders and the hip midpoint straight below the
shoulder midpoint, yet its nose is half a shoulder span off the midpoint, and
`analyzePosture` (defined on it) stores the score 70 and the label "Good", not
100 and "Excellent". -/
theorem level_pose_counterexample :
    10 ≤ noseAside.length ∧ HasRequired noseAside ∧
    lookup noseAside =
      ⟨some ⟨100, -60, 0.95, NOSE⟩, some ⟨0, 0, 0.93, LEFT_SHOULDER⟩,
       some ⟨100, 0, 0.92, RIGHT_SHOULDER⟩, some ⟨25, 150, 0.90, LEFT_HIP⟩,
       some ⟨75, 150, 0.89, RIGHT_HIP⟩⟩ ∧
    ((0 : ℝ) = 0 ∧ ((25 : ℝ) + 75) * 0.5 = (0 + 100) * 0.5 ∧
      ((0 : ℝ) + 0) * 0.5 < (150 + 150) * 0.5) ∧
    ∃ g', analyzePosture realLibm 0 noseAside PostureMetrics.default = some g' ∧
      g'.postureScore = 70 ∧ g'.postureName = "Good" := by
  obtain ⟨g', hg, -, -, h3, h4⟩ := noseAside_analysis 0 PostureMetrics.default
  exact ⟨by simp [noseAside], hasRequired_noseAside, lookup_noseAside,
    ⟨rfl, by norm_num, by norm_num⟩, g', hg, h3, h4⟩

end C17Concrete

/-- C17, witness: `uprightPose` has level shoulders, the hips straight below
and the nose above the shoulder midpoint; the analysis is defined, its score
is 100 and its label "Excellent". -/
theorem level_pose_scores_witness :
    ∃ g', analyzePosture realLibm 0 uprightPose PostureMetrics.default = some g' ∧
      g'.shoulderAngle = 0 ∧ g'.spineAlignment = 0 ∧ g'.postureScore = 100 ∧
      g'.postureName = "Excellent" := by
  have hh : headTiltOf (⟨50, -60, 0.95, NOSE⟩ : Keypoint ℝ) ⟨0, 0, 0.93, LEFT_SHOULDER⟩
      ⟨100, 0, 0.92, RIGHT_SHOULDER⟩ = 0 := by
    norm_num [headTiltOf]
  obtain ⟨g', hg, h1, h2, h3, -, -, -, h7⟩ :=
    level_pose_scores 0 uprightPose PostureMetrics.default _ _ _ _ _
      (by simp [uprightPose]) lookup_uprightPose rfl (by norm_num) (by norm_num)
      (Or.inl (by rw [hh]; norm_num))
  have h8 := h7 (by rw [h3, hh]; norm_num)
  exact ⟨g', hg, h1, h2, h8.1, h8.2⟩

/-! ## C18: the best region -/

section C18

variable {α : Type} [LinearOrderedField α]

/-- The selection loop run from `best` over `l` ends at the earliest element
of `best :: l` with the greatest confidence. -/
theorem foldl_select (l : List (BBox α)) :
    ∀ best : BBox α, ∃ pre post : List (BBox α),
      best :: l = pre ++ selectBest best l :: post ∧
      (∀ d ∈ pre, d.confidence < (selectBest best l).confidence) ∧
      (∀ d ∈ post, d.confidence ≤ (selectBest best l).confidence) := by
  induction l with
  | nil =>
    intro best
    exact ⟨[], [], rfl, by simp, by simp⟩
  | cons x l ih =>
    intro best
    by_cases hx : x.confidence > best.confidence
    · have hstep : selectBest best (x :: l) = selectBest x l := by
        simp [selectBest, hx]
      obtain ⟨pre, post, heq, hpre, hpost⟩ := ih x
      rw [hstep]
      refine ⟨best :: pre, post, by rw [heq]; rfl, ?_, hpost⟩
      intro d hd
      rcases List.mem_cons.1 hd with h | h
      · subst h
        have hxle : x.confidence ≤ (selectBest x l).confidence := by
          have hmem : x ∈ pre ++ selectBest x l :: post := by rw [← heq]; exact List.mem_cons_self _ _
          rcases List.mem_append.1 hmem with h1 | h1
          · exact le_of_lt (hpre x h1)
          · rcases List.mem_cons.1 h1 with h2 | h2
            · rw [← h2]
            · exact hpost x h2
        exact lt_of_lt_of_le hx hxle
      · exact hpre d h
    · have hstep : selectBest best (x :: l) = selectBest best l := by
        simp [selectBest, hx]
      obtain ⟨pre, post, heq, hpre, hpost⟩ := ih best
      rw [hstep]
      cases pre with
      | nil =>
        simp only [List.nil_append, List.cons.injEq] at heq
        refine ⟨[], x :: post, ?_, by simp, ?_⟩
        · rw [List.nil_append, ← heq.1, heq.2]
        · intro d hd
          rcases List.mem_cons.1 hd with h | h
          · subst h
            rw [← heq.1]
            exact not_lt.1 hx
          · exact hpost d h
      | cons p pre =>
        simp only [List.cons_append, List.cons.injEq] at heq
        obtain ⟨hp, hl⟩ := heq
        subst hp
        refine ⟨best :: x :: pre, post, ?_, ?_, hpost⟩
        · show best :: x :: l = best :: x :: (pre ++ selectBest best l :: post)
          rw [← hl]
        · intro d hd
          have hb : best.confidence < (selectBest best l).confidence :=
            hpre best (List.mem_cons_self _ _)
          rcases List.mem_cons.1 hd with h | h
          · rw [h]; exact hb
          · rcases List.mem_cons.1 h with h2 | h2
            · rw [h2]; exact lt_of_le_of_lt (not_lt.1 hx) hb
            · exact hpre d (List.mem_cons_of_mem _ h2)

end C18

section C18Claim

variable {α : Type} [LinearOrderedField α] [FloorRing α]

/-- C18: for every non-empty vector of detections `first :: rest` the region
the selection loop of `runPipeline` ends at is an element of the vector, no
element has a greater confidence, and every element before it has a smaller
one (the earliest maximum).  The rest of the body of `runPipeline`, run on that
vector, passes exactly this region to the estimator: the keypoints it stores
as last pose are those of `runHRNet` on it, the estimator has run once, and the
run is defined exactly when the analysis of those keypoints is.  On an empty
vector the estimator does not run and the last pose is emptied.  `runPipeline`
is this body on the vector `runYOLONAS` returns. -/
theorem best_region_selected (m : Libm α) (clk : PipelineClock) (d : List Int)
    (width height : Int) (scoreThreshold : α) (out : OutArrays α) (maxKp : Int) (w : World α)
    (first : BBox α) (rest : List (BBox α)) :
    selectBest first (first :: rest) ∈ first :: rest ∧
    (∀ b ∈ first :: rest, b.confidence ≤ (selectBest first (first :: rest)).confidence) ∧
    (∃ pre post : List (BBox α),
      first :: rest = pre ++ selectBest first (first :: rest) :: post ∧
      ∀ b ∈ pre, b.confidence < (selectBest first (first :: rest)).confidence) ∧
    (∀ r, processDetections m clk scoreThreshold out maxKp (first :: rest) w = some r →
      r.world.gLastPose
        = (runHRNet m clk.poseStart clk.poseEnd (selectBest first (first :: rest)) w).1 ∧
      r.world.poseFrameCounter = w.poseFrameCounter + 1) ∧
    ((processDetections m clk scoreThreshold out maxKp (first :: rest) w).isSome
      = (analyzePosture m clk.analysisNow
          (runHRNet m clk.poseStart clk.poseEnd (selectBest first (first :: rest)) w).1
          w.gPosture).isSome) ∧
    (∀ r, processDetections m clk scoreThreshold out maxKp [] w = some r →
      r.world.gLastPose = [] ∧ r.world.poseFrameCounter = w.poseFrameCounter) ∧
    runPipeline m clk (some d) width height scoreThreshold out maxKp w
      = processDetections m clk scoreThreshold out maxKp
          (runYOLONAS clk.detStart clk.detEnd width height w).1
          (runYOLONAS clk.detStart clk.detEnd width height w).2 := by
  obtain ⟨pre, post, heq, hpre, hpost⟩ := foldl_select rest first
  rw [selectBest_cons_self]
  have hmem : selectBest first rest ∈ first :: rest := by
    rw [heq]; exact List.mem_append_right _ (List.mem_cons_self _ _)
  refine ⟨hmem, ?_, ⟨pre, post, heq, hpre⟩, ?_, ?_, ?_, rfl⟩
  · intro b hb
    rw [heq] at hb
    rcases List.mem_append.1 hb with h1 | h1
    · exact le_of_lt (hpre b h1)
    · rcases List.mem_cons.1 h1 with h2 | h2
      · rw [h2]
      · exact hpost b h2
  · intro r hr
    rw [processDetections_cons, Option.map_eq_some'] at hr
    obtain ⟨posture, -, hres⟩ := hr
    rw [← hres]
    exact ⟨rfl, rfl⟩
  · rw [processDetections_cons, Option.isSome_map']
    rfl
  · intro r hr
    simp only [processDetections, Option.some.injEq] at hr
    rw [← hr]
    exact ⟨rfl, rfl⟩

end C18Claim

section C18Concrete

theorem selectBest_threeBoxes :
    selectBest (⟨0, 0, 100, 100, 0.5, 0⟩ : BBox ℝ)
      [⟨0, 0, 100, 100, 0.5, 0⟩, ⟨200, 200, 300, 400, 0.9, 0⟩, ⟨400, 400, 500, 600, 0.9, 0⟩]
      = ⟨200, 200, 300, 400, 0.9, 0⟩ := by
  norm_num [selectBest]

/-- The rest of the body of `runPipeline` is defined on `threeBoxes`. -/
theorem processDetections_threeBoxes :
    ∃ r, processDetections realLibm (clockAt 0) 0.5 blankOut 17 threeBoxes World.initial
      = some r := by
  obtain ⟨g', hg, -⟩ := poseKeypoints_analysis (clockAt 0).analysisNow
    ((World.initial : World ℝ).poseFrameCounter + 1) (⟨200, 200, 300, 400, 0.9, 0⟩ : BBox ℝ)
    (World.initial : World ℝ).gPosture (by norm_num) (by norm_num)
  have hs : selectBest (⟨0, 0, 100, 100, 0.5, 0⟩ : BBox ℝ)
      [⟨200, 200, 300, 400, 0.9, 0⟩, ⟨400, 400, 500, 600, 0.9, 0⟩]
      = ⟨200, 200, 300, 400, 0.9, 0⟩ := by
    norm_num [selectBest]
  unfold threeBoxes
  rw [processDetections_cons, hs, hg]
  exact ⟨_, rfl⟩

end C18Concrete

/-- C18, witness: of the three regions `threeBoxes`, with confidences 0.5, 0.9,
0.9, the loop keeps the second, the earlier of the two with the greatest
confidence; the rest of the body of `runPipeline` is defined on them and stores
as last pose the estimator's keypoints for the second region, whose nose is not
where the nose for the first region would be. -/
theorem best_region_selected_witness :
    selectBest (⟨0, 0, 100, 100, 0.5, 0⟩ : BBox ℝ)
      [⟨0, 0, 100, 100, 0.5, 0⟩, ⟨200, 200, 300, 400, 0.9, 0⟩, ⟨400, 400, 500, 600, 0.9, 0⟩]
      = ⟨200, 200, 300, 400, 0.9, 0⟩ ∧
    ∃ r, processDetections realLibm (clockAt 0) 0.5 blankOut 17 threeBoxes World.initial
        = some r ∧
      r.world.gLastPose = (runHRNet realLibm (clockAt 0).poseStart (clockAt 0).poseEnd
        ⟨200, 200, 300, 400, 0.9, 0⟩ World.initial).1 ∧
      r.world.gLastPose.map (fun kp => kp.y) ≠
        (runHRNet realLibm (clockAt 0).poseStart (clockAt 0).poseEnd
          ⟨0, 0, 100, 100, 0.5, 0⟩ World.initial).1.map (fun kp => kp.y) := by
  obtain ⟨r, hr⟩ := processDetections_threeBoxes
  have h := (best_region_selected realLibm (clockAt 0) [] 640 480 0.5 blankOut 17 World.initial
    (⟨0, 0, 100, 100, 0.5, 0⟩ : BBox ℝ)
    [⟨200, 200, 300, 400, 0.9, 0⟩, ⟨400, 400, 500, 600, 0.9, 0⟩]).2.2.2.1 r hr
  rw [selectBest_threeBoxes] at h
  refine ⟨selectBest_threeBoxes, r, hr, h.1, ?_⟩
  rw [h.1]
  intro hne
  have h0 := congrArg (fun l : List ℝ => l.head?) hne
  simp only [runHRNet, poseKeypoints, List.map_cons, List.head?_cons, Option.some.injEq] at h0
  norm_num at h0

/-! ## C19: the deductions stacked -/

section C19Concrete

theorem lookup_worstPose :
    lookup worstPose =
      ⟨some ⟨90, -60, 0.95, NOSE⟩, some ⟨0, 0, 0.93, LEFT_SHOULDER⟩,
       some ⟨100, 100, 0.92, RIGHT_SHOULDER⟩, some ⟨125, 150, 0.90, LEFT_HIP⟩,
       some ⟨175, 150, 0.89, RIGHT_HIP⟩⟩ := by
  simp [lookup, worstPose, lookupStep, Landmarks.none, NOSE, LEFT_EYE, RIGHT_EYE, LEFT_EAR,
    RIGHT_EAR, LEFT_SHOULDER, RIGHT_SHOULDER, LEFT_ELBOW, RIGHT_ELBOW, LEFT_HIP, RIGHT_HIP]

theorem hasRequired_worstPose : HasRequired worstPose := by
  unfold HasRequired
  simp only [hasLandmark_iff]
  simp [worstPose, NOSE, LEFT_EYE, RIGHT_EYE, LEFT_EAR, RIGHT_EAR, LEFT_SHOULDER,
    RIGHT_SHOULDER, LEFT_ELBOW, RIGHT_ELBOW, LEFT_HIP, RIGHT_HIP]

theorem worstPose_shoulderAngle :
    shoulderAngleOf realLibm ⟨0, 0, 0.93, LEFT_SHOULDER⟩ ⟨100, 100, 0.92, RIGHT_SHOULDER⟩
      = 45 := by
  show Real.arctan (((100 : ℝ) - 0) / max 1 (100 - 0)) * 180 / Real.pi = 45
  have e : ((100 : ℝ) - 0) / max 1 (100 - 0) = 1 := by norm_num
  rw [e, Real.arctan_one, deg_of_pi_div]
  norm_num

theorem worstPose_spineAlignment :
    spineAlignmentOf realLibm ⟨0, 0, 0.93, LEFT_SHOULDER⟩ ⟨100, 100, 0.92, RIGHT_SHOULDER⟩
      ⟨125, 150, 0.90, LEFT_HIP⟩ ⟨175, 150, 0.89, RIGHT_HIP⟩ = 45 := by
  show |realLibm.atan2 (((125 : ℝ) + 175) * 0.5 - (0 + 100) * 0.5)
    (((150 : ℝ) + 150) * 0.5 - (0 + 100) * 0.5) * 180 / Real.pi| = 45
  rw [realLibm_atan2_of_pos _ _ (by norm_num)]
  have e : (((125 : ℝ) + 175) * 0.5 - (0 + 100) * 0.5) /
      (((150 : ℝ) + 150) * 0.5 - (0 + 100) * 0.5) = 1 := by norm_num
  rw [e, Real.arctan_one, deg_of_pi_div]
  norm_num

theorem worstPose_headTilt :
    headTiltOf (⟨90, -60, 0.95, NOSE⟩ : Keypoint ℝ) ⟨0, 0, 0.93, LEFT_SHOULDER⟩
      ⟨100, 100, 0.92, RIGHT_SHOULDER⟩ = 40 := by
  norm_num [headTiltOf, abs_of_nonneg]

/-- The analysis of `worstPose`: defined, both angles 45°, head offset 40,
score 0, label "Poor". -/
theorem worstPose_analysis (now : Int) (g : PostureMetrics ℝ) :
    ∃ g', analyzePosture realLibm now worstPose g = some g' ∧
      g'.shoulderAngle = 45 ∧ g'.spineAlignment = 45 ∧ g'.headTilt = 40 ∧
      g'.postureScore = 0 ∧ g'.postureName = "Poor" := by
  obtain ⟨g', hg, h1, h2, h3, h4, h5, -⟩ :=
    analyzePosture_real_eval now worstPose g _ _ _ _ _ 45 45 40 (by simp [worstPose])
      lookup_worstPose worstPose_shoulderAngle worstPose_spineAlignment worstPose_headTilt
      (Or.inr (by norm_num))
  refine ⟨g', hg, h1, h2, h3, ?_, ?_⟩
  · rw [h4]
    norm_num [wholeDegreeShoulderPenalty, wholeDegreeSpinePenalty, specHeadPenalty]
  · rw [h5]
    norm_num [wholeDegreeShoulderPenalty, wholeDegreeSpinePenalty, specHeadPenalty]
    decide

end C19Concrete

section C19

variable {α : Type} [LinearOrderedField α] [FloorRing α]

/-- C19, the code at the failing input.  For stored angles within ±1000° and a
head-forward ratio that is at most 0.2 or whose hundredfold is below `2³¹`,
the three steps are defined, deduct at most 30, 40 and 30, and leave a local
`score` that is not negative, so that the floor at 0 does not change it; the
bound is attained on `worstPose` (deductions 30, 40, 30, stored score 0, label
"Poor").  On `farNose` (level shoulders, hips straight below, nose at
`x = 3·10⁹`) the first two steps deduct nothing and the third converts
2999999950 to `int`: it is undefined, and so is the whole call, so the code
guarantees no bound on the third deduction or on the score. -/
theorem deductions_undefined_on_farNose :
    (∀ a s h span : α, |a| ≤ 1000 → s ≤ 1000 →
      (h / max 1 span ≤ 0.2 ∨ h / max 1 span * 100 < 2147483648) →
      ∃ s1 s2 s3 : Int,
        shoulderStep 100 a = some s1 ∧ spineStep s1 s = some s2 ∧
        headStep s2 h span = some s3 ∧ rawScore a s h span = some s3 ∧
        (0 ≤ 100 - s1 ∧ 100 - s1 ≤ 30) ∧ (0 ≤ s1 - s2 ∧ s1 - s2 ≤ 40) ∧
        (0 ≤ s2 - s3 ∧ s2 - s3 ≤ 30) ∧ 0 ≤ s3 ∧ max 0 s3 = s3) ∧
    (10 ≤ worstPose.length ∧ HasRequired worstPose ∧
      ∃ g', analyzePosture realLibm 0 worstPose PostureMetrics.default = some g' ∧
        wholeDegreeShoulderPenalty g'.shoulderAngle = 30 ∧
        wholeDegreeSpinePenalty g'.spineAlignment = 40 ∧
        specHeadPenalty g'.headTilt (100 - 0) = 30 ∧
        g'.postureScore = 0 ∧ g'.postureName = "Poor") ∧
    (10 ≤ farNose.length ∧ HasRequired farNose ∧
      shoulderStep 100 (0 : ℝ) = some 100 ∧ spineStep 100 (0 : ℝ) = some 100 ∧
      headStep 100 (2999999950 : ℝ) (100 - 0) = none ∧
      rawScore (0 : ℝ) 0 2999999950 (100 - 0) = none ∧
      analyzePosture realLibm 0 farNose PostureMetrics.default = none) := by
  refine ⟨?_, ⟨by simp [worstPose], hasRequired_worstPose, ?_⟩,
    ⟨by simp [farNose], hasRequired_farNose, ?_, ?_, ?_, ?_, farNose_undefined _ _⟩⟩
  · intro a s h span ha hs hh
    have b1 := wholeDegreeShoulderPenalty_bounds a
    have b2 := wholeDegreeSpinePenalty_bounds s
    have b3 := specHeadPenalty_bounds h span
    have e1 := shoulderStep_eq a ha 100 (by norm_num) (by norm_num)
    have e2 := spineStep_eq s hs (100 - wholeDegreeShoulderPenalty a) (by omega) (by omega)
    have e3 := headStep_eq h span hh
      (100 - wholeDegreeShoulderPenalty a - wholeDegreeSpinePenalty s) (by omega) (by omega)
    refine ⟨_, _, _, e1, e2, e3, rawScore_eq_some a s h span ha hs hh, ⟨by omega, by omega⟩,
      ⟨by omega, by omega⟩, ⟨by omega, by omega⟩, by omega, max_eq_right (by omega)⟩
  · obtain ⟨g', hg, h1, h2, h3, h4, h5⟩ := worstPose_analysis 0 PostureMetrics.default
    refine ⟨g', hg, ?_, ?_, ?_, h4, h5⟩
    · rw [h1]; norm_num [wholeDegreeShoulderPenalty]
    · rw [h2]; norm_num [wholeDegreeSpinePenalty]
    · rw [h3]; norm_num [specHeadPenalty]
  · rw [shoulderStep_eq (0 : ℝ) (by norm_num) 100 (by norm_num) (by norm_num)]
    norm_num [wholeDegreeShoulderPenalty]
  · rw [spineStep_eq (0 : ℝ) (by norm_num) 100 (by norm_num) (by norm_num)]
    norm_num [wholeDegreeSpinePenalty]
  · exact headStep_eq_none _ _ (by norm_num) 100
  · exact rawScore_eq_none _ _ _ _ (by norm_num) (by norm_num) (by norm_num)

end C19

/-! ## C20: the simulated estimator's posture -/

section C20

/-- C20: the simulated estimator only ever produces a perfect posture.  For
every region with positive width and height and every value of the pose frame
counter, `analyzePosture` on the 17 keypoints returned by `runHRNet` is
defined and yields `shoulderAngle = 0`, `spineAlignment = 0`, a head offset of
at most 2% of the region width, a head-forward ratio (against the shoulder
span, 36% of the region width, floored at 1) below 0.2, `postureScore = 100`
and the label "Excellent". -/
theorem estimator_posture_perfect (start finish now : Int) (roi : BBox ℝ) (w : World ℝ)
    (g : PostureMetrics ℝ) (hw : roi.x1 < roi.x2) (hh : roi.y1 < roi.y2) :
    ∃ g', analyzePosture realLibm now (runHRNet realLibm start finish roi w).1 g = some g' ∧
      g'.shoulderAngle = 0 ∧ g'.spineAlignment = 0 ∧
      g'.headTilt ≤ 0.02 * (roi.x2 - roi.x1) ∧
      g'.headTilt / max 1 (0.36 * (roi.x2 - roi.x1)) < 0.2 ∧
      g'.postureScore = 100 ∧ g'.postureName = "Excellent" := by
  obtain ⟨g', hg, h1, h2, h3, h4, h5, h6, -⟩ :=
    poseKeypoints_analysis now (w.poseFrameCounter + 1) roi g hw hh
  exact ⟨g', hg, h1, h2, h3, h4, h5, h6⟩

end C20

theorem sampleRoi_headTilt_bound : (0.02 : ℝ) * (sampleRoi.x2 - sampleRoi.x1) = 4 := by
  norm_num [sampleRoi]

/-- C20, witness: on `sampleRoi` (200 wide, 400 high) at program start the
estimator's keypoints are analysed to score 100, label "Excellent", with the
head at most 4 off the shoulder midpoint. -/
theorem estimator_posture_perfect_witness :
    sampleRoi.x1 < sampleRoi.x2 ∧ sampleRoi.y1 < sampleRoi.y2 ∧
    ∃ g', analyzePosture realLibm 6004000 (runHRNet realLibm 1502000 6002000 sampleRoi
        World.initial).1 PostureMetrics.default = some g' ∧
      g'.postureScore = 100 ∧ g'.postureName = "Excellent" ∧ g'.headTilt ≤ 4 := by
  have hw : sampleRoi.x1 < sampleRoi.x2 := by norm_num [sampleRoi]
  have hh : sampleRoi.y1 < sampleRoi.y2 := by norm_num [sampleRoi]
  obtain ⟨g', hg, -, -, h3, -, h5, h6⟩ :=
    estimator_posture_perfect 1502000 6002000 6004000 sampleRoi World.initial
      PostureMetrics.default hw hh
  rw [sampleRoi_headTilt_bound] at h3
  exact ⟨hw, hh, g', hg, h5, h6, h3⟩

end QidkBackend
